import Mathlib

/-! Command-stream decoder of `Tegra::DmaPusher`.

A shallow embedding of `src/compat/video_core/dma_pusher.cpp` and theorems about it.

* 32-bit words are natural numbers, reduced `% 2 ^ 32` where the program reads them.
* The object's mutable fields are threaded through as a record (`DmaPusher`).
* Calls into the GPU (`CallMethod`, `ReadBlock`, ...) are recorded as an event trace.
* Indexing a `std::vector` out of range is undefined behaviour: `Step` returns `none` there.
-/

namespace Tegra

/-! ## Data model -/

/-- Numeric codes of `enum class SubmissionMode`. The enumeration is declared in
`video_core/dma_pusher.h`, which is not among the sources, so the four codes that
`DmaPusher::Step` switches on are a parameter of the development. -/
structure SubmissionMode where
  Increasing : Nat
  NonIncreasing : Nat
  Inline : Nat
  IncreaseOnce : Nat
deriving DecidableEq, Repr

/-- The four `case` labels of the `switch` in `DmaPusher::Step` are pairwise different
(a C++ `switch` does not compile otherwise). -/
def SubmissionMode.Distinct (enc : SubmissionMode) : Prop :=
  enc.Increasing ≠ enc.NonIncreasing ∧ enc.Increasing ≠ enc.Inline ∧
  enc.Increasing ≠ enc.IncreaseOnce ∧ enc.NonIncreasing ≠ enc.Inline ∧
  enc.NonIncreasing ≠ enc.IncreaseOnce ∧ enc.Inline ≠ enc.IncreaseOnce

instance (enc : SubmissionMode) : Decidable enc.Distinct := by
  unfold SubmissionMode.Distinct
  infer_instance

/-- Modelled from the spec: the bit-field union `CommandHeader` is declared in
`video_core/dma_pusher.h`, which is not among the sources. `argument` is the whole
32-bit word. -/
def CommandHeader.argument (word : Nat) : Nat := word % 2 ^ 32

/-- Modelled from the spec: field `method` of `CommandHeader` (declared in the absent
`video_core/dma_pusher.h`), the low 13 bits of the word. -/
def CommandHeader.method (word : Nat) : Nat := word % 2 ^ 13

/-- Modelled from the spec: field `subchannel` of `CommandHeader` (declared in the absent
`video_core/dma_pusher.h`), the 3 bits 13..15. -/
def CommandHeader.subchannel (word : Nat) : Nat := (word / 2 ^ 13) % 2 ^ 3

/-- Modelled from the spec: field `arg_count` of `CommandHeader` (declared in the absent
`video_core/dma_pusher.h`), the 13 bits 16..28, read by the `Inline` case. -/
def CommandHeader.arg_count (word : Nat) : Nat := (word / 2 ^ 16) % 2 ^ 13

/-- Modelled from the spec: field `method_count` of `CommandHeader` (declared in the absent
`video_core/dma_pusher.h`), the 13 bits 16..28. -/
def CommandHeader.method_count (word : Nat) : Nat := (word / 2 ^ 16) % 2 ^ 13

/-- Modelled from the spec: field `mode` of `CommandHeader` (declared in the absent
`video_core/dma_pusher.h`), the top 3 bits 29..31. -/
def CommandHeader.mode (word : Nat) : Nat := (word / 2 ^ 29) % 2 ^ 3

/-- The fields of `DmaPusher::DmaState` that `dma_pusher.cpp` reads or writes. -/
structure DmaState where
  method : Nat
  subchannel : Nat
  method_count : Nat
  non_incrementing : Bool
deriving DecidableEq, Repr

/-- The tuple `{method, argument, subchannel, method_count}` handed to `gpu.CallMethod`. -/
structure MethodCall where
  method : Nat
  argument : Nat
  subchannel : Nat
  method_count : Nat
deriving DecidableEq, Repr

/-- One descriptor of a command list: guest address and number of 32-bit words. -/
structure CommandListHeader where
  addr : Nat
  size : Nat
deriving DecidableEq, Repr

/-- One entry of the push-buffer queue: descriptors, or words prefetched by nvdrv. -/
structure CommandList where
  command_lists : List CommandListHeader
  prefetch_command_list : List Nat
deriving DecidableEq, Repr

/-- The mutable fields of `DmaPusher`. The queue `dma_pushbuffer` is a list whose head is
`front()`. -/
structure DmaPusher where
  ib_enable : Bool
  dma_pushbuffer : List CommandList
  dma_pushbuffer_subindex : Nat
  command_headers : List Nat
  dma_state : DmaState
  dma_increment_once : Bool
deriving DecidableEq, Repr

/-- What the pusher asks of its collaborators, in program order. `ReadBlock` and
`ReadBlockUnsafe` carry the address and the byte length. -/
inductive GpuEvent where
  | OnMemoryWrite
  | ReadBlock (addr : Nat) (bytes : Nat)
  | ReadBlockUnsafe (addr : Nat) (bytes : Nat)
  | CallMethod (call : MethodCall)
  | FlushCommands
deriving DecidableEq, Repr

/-- The collaborators `Step` reads from: the fidelity setting and guest memory as seen
through the memory manager (`memory a` is the 32-bit word stored at GPU address `a`). -/
structure Gpu where
  IsGPULevelHigh : Bool
  memory : Nat → Nat

/-- The `size` words that `ReadBlock`/`ReadBlockUnsafe` copy from address `addr` into
`command_headers` after `command_headers.resize(size)`. -/
def Gpu.ReadWords (gpu : Gpu) (addr size : Nat) : List Nat :=
  (List.range size).map fun i => gpu.memory (addr + 4 * i) % 2 ^ 32

/-! ## `DmaPusher::SetState`, `DmaPusher::CallMethod` -/

/-- `DmaPusher::SetState`: load method, subchannel and method count from a header. -/
def DmaPusher.SetState (p : DmaPusher) (command_header : Nat) : DmaPusher :=
  { p with
    dma_state :=
      { p.dma_state with
        method := CommandHeader.method command_header
        subchannel := CommandHeader.subchannel command_header
        method_count := CommandHeader.method_count command_header } }

/-- `DmaPusher::CallMethod`: the call forwarded to the GPU for `argument`. -/
def DmaPusher.CallMethod (p : DmaPusher) (argument : Nat) : MethodCall :=
  { method := p.dma_state.method
    argument := argument
    subchannel := p.dma_state.subchannel
    method_count := p.dma_state.method_count }

/-! ## The decode loop of `DmaPusher::Step` -/

/-- One iteration of the `for` loop of `DmaPusher::Step`: the pusher after the word
`command_header` and the calls dispatched for it. `method` is a `u32`, so `method++`
wraps; `method_count--` runs only when the count is non-zero. -/
def DmaPusher.StepWord (enc : SubmissionMode) (p : DmaPusher) (command_header : Nat) :
    DmaPusher × List MethodCall :=
  if p.dma_state.method_count ≠ 0 then
    -- Data word of methods command
    let call := p.CallMethod (CommandHeader.argument command_header)
    let p1 : DmaPusher :=
      if p.dma_state.non_incrementing = false then
        { p with dma_state := { p.dma_state with method := (p.dma_state.method + 1) % 2 ^ 32 } }
      else p
    let p2 : DmaPusher :=
      if p1.dma_increment_once = true then
        { p1 with dma_state := { p1.dma_state with non_incrementing := true } }
      else p1
    let p3 : DmaPusher :=
      { p2 with dma_state := { p2.dma_state with method_count := p2.dma_state.method_count - 1 } }
    (p3, [call])
  else
    -- No command active - this is the first word of a new one
    let mode := CommandHeader.mode command_header
    if mode = enc.Increasing then
      let p1 := p.SetState command_header
      ({ p1 with
          dma_state := { p1.dma_state with non_incrementing := false }
          dma_increment_once := false }, [])
    else if mode = enc.NonIncreasing then
      let p1 := p.SetState command_header
      ({ p1 with
          dma_state := { p1.dma_state with non_incrementing := true }
          dma_increment_once := false }, [])
    else if mode = enc.Inline then
      let p1 : DmaPusher :=
        { p with
          dma_state :=
            { p.dma_state with
              method := CommandHeader.method command_header
              subchannel := CommandHeader.subchannel command_header } }
      let call := p1.CallMethod (CommandHeader.arg_count command_header)
      ({ p1 with
          dma_state := { p1.dma_state with non_incrementing := true }
          dma_increment_once := false }, [call])
    else if mode = enc.IncreaseOnce then
      let p1 := p.SetState command_header
      ({ p1 with
          dma_state := { p1.dma_state with non_incrementing := false }
          dma_increment_once := true }, [])
    else
      (p, [])

/-- The `for` loop of `DmaPusher::Step` over the active word stream, from index 0 to the
end: the pusher afterwards and the calls dispatched, in order. -/
def DmaPusher.StepLoop (enc : SubmissionMode) : List Nat → DmaPusher → DmaPusher × List MethodCall
  | [], p => (p, [])
  | command_header :: rest, p =>
    let r1 := p.StepWord enc command_header
    let r2 := DmaPusher.StepLoop enc rest r1.1
    (r2.1, r1.2 ++ r2.2)

/-! ## `DmaPusher::Step` -/

/-- Outcome of one `Step`: the returned flag, the pusher afterwards and the events. -/
structure StepResult where
  more : Bool
  pusher : DmaPusher
  events : List GpuEvent
deriving DecidableEq, Repr

/-- `DmaPusher::Step`. `ASSERT_OR_EXECUTE(cond, block)` is a macro of the absent
`common/assert.h`; as the spec describes it, a failed condition is logged and `block`
runs. `none` stands for the out-of-range read `command_lists[dma_pushbuffer_subindex]`.
The cursor is an in-range index of a vector when it is incremented, so the increment
does not wrap. -/
def DmaPusher.Step (enc : SubmissionMode) (gpu : Gpu) (p : DmaPusher) : Option StepResult :=
  if p.ib_enable = false then
    some { more := false, pusher := p, events := [] }
  else
    match p.dma_pushbuffer with
    | [] =>
      -- pushbuffer empty and IB empty or nonexistent - nothing to do
      some { more := false, pusher := p, events := [] }
    | command_list :: popped =>
      if command_list.command_lists.length = 0 ∧
          command_list.prefetch_command_list.length = 0 then
        -- Somehow the command_list is empty, ignore it
        some { more := true
               pusher := { p with dma_pushbuffer := popped, dma_pushbuffer_subindex := 0 }
               events := [] }
      else if command_list.prefetch_command_list.length ≠ 0 then
        -- Prefetched command list from nvdrv
        let p1 : DmaPusher :=
          { p with
            command_headers := command_list.prefetch_command_list
            dma_pushbuffer := popped }
        let r := DmaPusher.StepLoop enc p1.command_headers p1
        some { more := true, pusher := r.1, events := r.2.map GpuEvent.CallMethod }
      else
        match command_list.command_lists[p.dma_pushbuffer_subindex]? with
        | none => none
        | some command_list_header =>
          let p1 : DmaPusher :=
            { p with dma_pushbuffer_subindex := p.dma_pushbuffer_subindex + 1 }
          let dma_get := command_list_header.addr
          let p2 : DmaPusher :=
            if p1.dma_pushbuffer_subindex ≥ command_list.command_lists.length then
              -- We've gone through the current list, remove it from the queue
              { p1 with dma_pushbuffer := popped, dma_pushbuffer_subindex := 0 }
            else p1
          if command_list_header.size = 0 then
            some { more := true, pusher := p2, events := [] }
          else
            -- Push buffer non-empty, read a word
            let read : GpuEvent :=
              if gpu.IsGPULevelHigh = true then
                GpuEvent.ReadBlock dma_get (command_list_header.size * 4)
              else
                GpuEvent.ReadBlockUnsafe dma_get (command_list_header.size * 4)
            let p3 : DmaPusher :=
              { p2 with command_headers := gpu.ReadWords dma_get command_list_header.size }
            let r := DmaPusher.StepLoop enc p3.command_headers p3
            some { more := true, pusher := r.1, events := read :: r.2.map GpuEvent.CallMethod }

/-- `Step` called once per element of `gpus`, in order, each call seeing the collaborators
as the list gives them; the pusher after the last call (`none` if a call read out of
range). -/
def DmaPusher.Steps (enc : SubmissionMode) : List Gpu → DmaPusher → Option DmaPusher
  | [], p => some p
  | gpu :: later, p =>
    match p.Step enc gpu with
    | none => none
    | some r => DmaPusher.Steps enc later r.pusher

/-- The guest-memory reads of an event trace, as `(address, byte length)`. -/
def GpuEvent.reads : List GpuEvent → List (Nat × Nat)
  | [] => []
  | GpuEvent.ReadBlock addr bytes :: rest => (addr, bytes) :: GpuEvent.reads rest
  | GpuEvent.ReadBlockUnsafe addr bytes :: rest => (addr, bytes) :: GpuEvent.reads rest
  | _ :: rest => GpuEvent.reads rest

/-- The method calls of an event trace. -/
def GpuEvent.calls : List GpuEvent → List MethodCall
  | [] => []
  | GpuEvent.CallMethod call :: rest => call :: GpuEvent.calls rest
  | _ :: rest => GpuEvent.calls rest

/-! ## `DmaPusher::DispatchCalls` -/

/-- Outcome of the loop `while (Step());`: the pusher when the loop ends, the events of all
calls of `Step` in order, and how many calls returned true. -/
structure DispatchResult where
  pusher : DmaPusher
  events : List GpuEvent
  steps : Nat
deriving DecidableEq, Repr

/-- The loop `while (Step());` of `DmaPusher::DispatchCalls`, cut off after `fuel` calls of
`Step`. The call number `k` (counted from the start of the loop) sees the collaborators
`gpu k`, so guest memory may change between calls. `none`: the fuel ran out before `Step`
returned false, or a call read `command_lists` out of range. -/
def DmaPusher.StepWhile (enc : SubmissionMode) (gpu : Nat → Gpu) :
    Nat → Nat → DmaPusher → Option DispatchResult
  | 0, _, _ => none
  | fuel + 1, k, p =>
    match p.Step enc (gpu k) with
    | none => none
    | some r =>
      if r.more = true then
        match DmaPusher.StepWhile enc gpu fuel (k + 1) r.pusher with
        | none => none
        | some d => some { pusher := d.pusher, events := r.events ++ d.events, steps := d.steps + 1 }
      else
        some { pusher := r.pusher, events := r.events, steps := 0 }

/-- `DmaPusher::DispatchCalls`: notify the 3D engine, reset the cursor, run `Step` until it
returns false, flush. -/
def DmaPusher.DispatchCalls (enc : SubmissionMode) (gpu : Nat → Gpu) (fuel : Nat)
    (p : DmaPusher) : Option DispatchResult :=
  match DmaPusher.StepWhile enc gpu fuel 0 { p with dma_pushbuffer_subindex := 0 } with
  | none => none
  | some d =>
    some { pusher := d.pusher
           events := GpuEvent.OnMemoryWrite :: (d.events ++ [GpuEvent.FlushCommands])
           steps := d.steps }

/-- The number of calls of `Step` one queue entry takes: one for a prefetched buffer, one
for an entry with neither words nor descriptors, one per descriptor otherwise. -/
def CommandList.stepsNeeded (entry : CommandList) : Nat :=
  if entry.prefetch_command_list.length ≠ 0 then 1
  else if entry.command_lists.length = 0 then 1
  else entry.command_lists.length

/-- The calls of `Step` still needed to empty the queue, given the cursor. -/
def DmaPusher.stepsLeft (p : DmaPusher) : Nat :=
  match p.dma_pushbuffer with
  | [] => 0
  | front :: behind =>
    (front.stepsNeeded - p.dma_pushbuffer_subindex) +
      (behind.map CommandList.stepsNeeded).sum

/-- The cursor is 0, or it is inside the descriptors of a front entry without prefetched
words. -/
def DmaPusher.CursorOk (p : DmaPusher) : Prop :=
  p.dma_pushbuffer_subindex = 0 ∨
    ∃ front behind, p.dma_pushbuffer = front :: behind ∧
      front.prefetch_command_list = [] ∧
      p.dma_pushbuffer_subindex < front.command_lists.length

/-! ## Examples used below -/

/-- The codes `Increasing = 1`, `NonIncreasing = 3`, `Inline = 4`, `IncreaseOnce = 5`. -/
def exampleModes : SubmissionMode :=
  { Increasing := 1, NonIncreasing := 3, Inline := 4, IncreaseOnce := 5 }

/-- A header word assembled from its four fields. -/
def mkHeader (mode method_count subchannel method : Nat) : Nat :=
  mode * 2 ^ 29 + method_count * 2 ^ 16 + subchannel * 2 ^ 13 + method

/-- Guest memory holding, at address 4096, an `Increasing` header for method 5 with one
argument, and the argument 77; zero elsewhere. The fast read path is selected. -/
def exampleGpu : Gpu :=
  { IsGPULevelHigh := false
    memory := fun a => if a = 4096 then mkHeader 1 1 0 5 else if a = 4100 then 77 else 0 }

/-- A pusher with fetching enabled, the given queue, cursor and decoder state, no active
word stream and the increase-once flag clear. -/
def pusherWith (queue : List CommandList) (cursor : Nat) (state : DmaState) : DmaPusher :=
  { ib_enable := true
    dma_pushbuffer := queue
    dma_pushbuffer_subindex := cursor
    command_headers := []
    dma_state := state
    dma_increment_once := false }

/-- A decoder state with no command active. -/
def idleState : DmaState :=
  { method := 0, subchannel := 0, method_count := 0, non_incrementing := false }

/-- A decoder state in the middle of a non-incrementing sequence on method 7, subchannel
3, with two arguments still to come. -/
def midState : DmaState :=
  { method := 7, subchannel := 3, method_count := 2, non_incrementing := true }

/-- A pusher with fetching enabled, an empty queue and an idle decoder. -/
def idlePusher : DmaPusher :=
  { ib_enable := true
    dma_pushbuffer := []
    dma_pushbuffer_subindex := 0
    command_headers := []
    dma_state := { method := 0, subchannel := 0, method_count := 0, non_incrementing := false }
    dma_increment_once := false }

end Tegra

/-! ## Syncpoints and event slots (`nvhost_ctrl`)

A shallow embedding of `src/core/hle/service/nvdrv/devices/nvhost_ctrl.cpp`. One request
runs from start to end on a state record (the locks are not modelled). The fields of the
request structures are `u32` values; arithmetic on them is reduced `% 2 ^ 32`. The arrays
indexed by event or syncpoint id are total functions. What a request asks of the kernel
and of the GPU is recorded as a list of effects. -/

namespace Service.Nvidia

/-- Modelled from the spec: the result codes of a request (`NvResult`, declared in the
absent `nvdata.h`). -/
inductive NvResult where
  | Success
  | Timeout
  | BadParameter
  | NotImplemented
  | ConfigVarNotFound
deriving DecidableEq, Repr

/-- Modelled from the spec: the lifecycle states of an event slot (`EventState`, declared
in the absent `nvdrv.h`). -/
inductive EventState where
  | Free
  | Registered
  | Waiting
deriving DecidableEq, Repr

/-- The constants `MaxSyncPoints` and `MaxNvEvents`, declared in headers that are not among
the sources: a parameter of the development. -/
structure Limits where
  MaxSyncPoints : Nat
  MaxNvEvents : Nat
deriving DecidableEq, Repr

/-- A function with the value at index `i` replaced: the array write `f[i] = v`. -/
def setAt {α : Type} (f : Nat → α) (i : Nat) (v : α) : Nat → α :=
  fun j => if j = i then v else f j

/-- A 32-bit value read as a signed 32-bit integer (`static_cast<s32>`). -/
def s32 (n : Nat) : Int :=
  if n % 2 ^ 32 < 2 ^ 31 then ((n % 2 ^ 32 : Nat) : Int)
  else ((n % 2 ^ 32 : Nat) : Int) - 2 ^ 32

/-- Subtraction of two `u32` values. -/
def u32sub (a b : Nat) : Nat := (a % 2 ^ 32 + 2 ^ 32 - b % 2 ^ 32) % 2 ^ 32

/-- The fence of an event: syncpoint id and value. -/
structure Fence where
  id : Nat
  value : Nat
deriving DecidableEq, Repr

/-- Modelled from the spec: the event slot table `EventInterface` (declared in the absent
`nvdrv.h`), with the per-slot arrays that `nvhost_ctrl.cpp` reads and writes. The kernel
event of a slot is not part of the record: signalling and clearing it are effects. -/
structure EventInterface where
  events : Nat → Fence
  status : Nat → EventState
  registered : Nat → Bool
  failed : Nat → Bool
  assigned_syncpt : Nat → Nat
  assigned_value : Nat → Nat

/-- Modelled from the spec: `EventInterface::SetEventStatus` (absent `nvdrv.h`), the
transition of a slot to a new lifecycle state. -/
def EventInterface.SetEventStatus (e : EventInterface) (event_id : Nat)
    (new_status : EventState) : EventInterface :=
  { e with status := setAt e.status event_id new_status }

/-- Modelled from the spec: `EventInterface::RegisterEvent` (absent `nvdrv.h`): the slot is
registered and its state is `Registered`. -/
def EventInterface.RegisterEvent (e : EventInterface) (event_id : Nat) : EventInterface :=
  { e with
    registered := setAt e.registered event_id true
    status := setAt e.status event_id EventState.Registered }

/-- Modelled from the spec: `EventInterface::UnregisterEvent` (absent `nvdrv.h`): the slot
is no longer registered and is reset to `Free`. -/
def EventInterface.UnregisterEvent (e : EventInterface) (event_id : Nat) : EventInterface :=
  { e with
    registered := setAt e.registered event_id false
    status := setAt e.status event_id EventState.Free }

/-- Modelled from the spec: `EventInterface::LiberateEvent` (absent `nvdrv.h`): a waiting
slot goes back to `Registered` if it is registered and to `Free` otherwise. -/
def EventInterface.LiberateEvent (e : EventInterface) (event_id : Nat) : EventInterface :=
  { e with
    status :=
      setAt e.status event_id
        (if e.registered event_id = true then EventState.Registered else EventState.Free) }

/-- What `nvhost_ctrl.cpp` asks of `Tegra::GPU`: whether the device runs asynchronously and
the latest completed counter of each syncpoint. -/
structure GPU where
  IsAsync : Bool
  GetSyncpointValue : Nat → Nat

/-- Modelled from the spec: the state of `SyncpointManager` (declared in the absent
`syncpoint_manager.h`), the current 32-bit value of each syncpoint. -/
structure SyncpointManager where
  syncpoints : Nat → Nat

/-- Modelled from the spec: `SyncpointManager::IsSyncpointExpired` (absent
`syncpoint_manager.h`), `signed(current - threshold) >= 0` on 32-bit values. -/
def SyncpointManager.IsSyncpointExpired (m : SyncpointManager) (id threshold : Nat) : Bool :=
  decide (0 ≤ s32 (u32sub (m.syncpoints id) threshold))

/-- Modelled from the spec: `SyncpointManager::GetSyncpointMin` (absent
`syncpoint_manager.h`), the current value of a syncpoint. -/
def SyncpointManager.GetSyncpointMin (m : SyncpointManager) (id : Nat) : Nat :=
  m.syncpoints id % 2 ^ 32

/-- Modelled from the spec: `SyncpointManager::RefreshSyncpoint` (absent
`syncpoint_manager.h`): the stored value becomes the device's latest counter, which is
returned. -/
def SyncpointManager.RefreshSyncpoint (m : SyncpointManager) (id : Nat) (gpu : GPU) :
    SyncpointManager × Nat :=
  ({ syncpoints := setAt m.syncpoints id (gpu.GetSyncpointValue id % 2 ^ 32) },
    gpu.GetSyncpointValue id % 2 ^ 32)

/-- Calls that leave the device object, in program order. -/
inductive Effect where
  | RefreshSyncpoint (syncpoint_id : Nat)
  | SignalEvent (event_id : Nat)
  | ClearEvent (event_id : Nat)
  | WaitFence (syncpoint_id : Nat) (value : Nat)
  | RegisterSyncptInterrupt (syncpoint_id : Nat) (value : Nat)
deriving DecidableEq, Repr

namespace Devices

/-- The request structure `IocCtrlEventWaitParams` (declared in the absent
`nvhost_ctrl.h`): four 32-bit fields. -/
structure IocCtrlEventWaitParams where
  syncpt_id : Nat
  threshold : Nat
  timeout : Nat
  value : Nat
deriving DecidableEq, Repr

/-- The request structure of `IocCtrlEventRegister`: one 32-bit field. -/
structure IocCtrlEventRegisterParams where
  user_event_id : Nat
deriving DecidableEq, Repr

/-- The request structure of `IocCtrlEventUnregister`: one 32-bit field. -/
structure IocCtrlEventUnregisterParams where
  user_event_id : Nat
deriving DecidableEq, Repr

/-- The request structure of `IocCtrlClearEventWait`: one 32-bit field. -/
structure IocCtrlEventSignalParams where
  event_id : Nat
deriving DecidableEq, Repr

/-- The state the device object works on: the shared event slot table and the syncpoint
manager. -/
structure nvhost_ctrl where
  events_interface : EventInterface
  syncpoint_manager : SyncpointManager

/-- Outcome of a request: the result code, the state afterwards, what was copied to the
output buffer (`none` when the buffer is not written) and the effects. -/
structure IoctlResult where
  result : NvResult
  ctrl : nvhost_ctrl
  output : Option IocCtrlEventWaitParams
  effects : List Effect

/-- The array write `failed[event_id] = value` on the event slot table. -/
def nvhost_ctrl.setFailed (ctrl : nvhost_ctrl) (event_id : Nat) (value : Bool) : nvhost_ctrl :=
  { ctrl with
    events_interface :=
      { ctrl.events_interface with failed := setAt ctrl.events_interface.failed event_id value } }

/-- The local `diff` of `IocCtrlEventWait`: `current_syncpoint_value - params.threshold`
stored in an `s32`. -/
def nvhost_ctrl.diff (current_syncpoint_value threshold : Nat) : Int :=
  s32 (u32sub current_syncpoint_value threshold)

/-- The local `target_value` of `IocCtrlEventWait`: `current_syncpoint_value - diff` stored
in a `u32`. -/
def nvhost_ctrl.target_value (current_syncpoint_value threshold : Nat) : Nat :=
  ((((current_syncpoint_value % 2 ^ 32 : Nat) : Int) -
    nvhost_ctrl.diff current_syncpoint_value threshold) % 2 ^ 32).toNat

/-- `nvhost_ctrl::IocCtrlEventWait`. The steps are those of the source, in order: the two
identifier checks, the expiry test, the refresh and second expiry test, the synchronous
device shortcut, the test on the slot's fence value, the poll (`timeout == 0`), and the
parking of the caller on the slot. -/
def nvhost_ctrl.IocCtrlEventWait (lim : Limits) (gpu : GPU) (ctrl : nvhost_ctrl)
    (input : IocCtrlEventWaitParams) (is_async : Bool) : IoctlResult :=
  let params := input
  if params.syncpt_id ≥ lim.MaxSyncPoints then
    { result := NvResult.BadParameter, ctrl := ctrl, output := none, effects := [] }
  else
    let event_id := params.value &&& 0x00FF
    if event_id ≥ lim.MaxNvEvents then
      { result := NvResult.BadParameter, ctrl := ctrl, output := some params, effects := [] }
    else if ctrl.syncpoint_manager.IsSyncpointExpired params.syncpt_id params.threshold = true then
      let params1 : IocCtrlEventWaitParams :=
        { params with value := ctrl.syncpoint_manager.GetSyncpointMin params.syncpt_id }
      { result := NvResult.Success
        ctrl := ctrl.setFailed event_id false
        output := some params1
        effects := [] }
    else
      let refreshed := ctrl.syncpoint_manager.RefreshSyncpoint params.syncpt_id gpu
      let new_value := refreshed.2
      let ctrl1 : nvhost_ctrl := { ctrl with syncpoint_manager := refreshed.1 }
      if ctrl1.syncpoint_manager.IsSyncpointExpired params.syncpt_id params.threshold = true then
        let params1 : IocCtrlEventWaitParams := { params with value := new_value }
        { result := NvResult.Success
          ctrl := ctrl1.setFailed event_id false
          output := some params1
          effects := [Effect.RefreshSyncpoint params.syncpt_id] }
      else
        let event := ctrl1.events_interface.events event_id
        -- This is mostly to take into account unimplemented features. As synced
        -- gpu is always synced.
        if gpu.IsAsync = false then
          { result := NvResult.Success
            ctrl := ctrl1
            output := none
            effects := [Effect.RefreshSyncpoint params.syncpt_id, Effect.SignalEvent event_id] }
        else
          let current_syncpoint_value := event.value % 2 ^ 32
          let diff := nvhost_ctrl.diff current_syncpoint_value params.threshold
          if diff ≥ 0 then
            let params1 : IocCtrlEventWaitParams := { params with value := current_syncpoint_value }
            { result := NvResult.Success
              ctrl := ctrl1.setFailed event_id false
              output := some params1
              effects :=
                [Effect.RefreshSyncpoint params.syncpt_id, Effect.SignalEvent event_id] }
          else
            let target_value := nvhost_ctrl.target_value current_syncpoint_value params.threshold
            let params1 : IocCtrlEventWaitParams :=
              if is_async = false then { params with value := 0 } else params
            if params1.timeout = 0 then
              { result := NvResult.Timeout
                ctrl := ctrl1
                output := some params1
                effects := [Effect.RefreshSyncpoint params.syncpt_id] }
            else
              let status := ctrl1.events_interface.status event_id
              let bad_parameter := status ≠ EventState.Free ∧ status ≠ EventState.Registered
              if bad_parameter then
                { result := NvResult.BadParameter
                  ctrl := ctrl1
                  output := some params1
                  effects := [Effect.RefreshSyncpoint params.syncpt_id] }
              else
                let locked := ctrl1.events_interface.SetEventStatus event_id EventState.Waiting
                let locked1 : EventInterface :=
                  { locked with
                    assigned_syncpt := setAt locked.assigned_syncpt event_id params1.syncpt_id }
                let locked2 : EventInterface :=
                  { locked1 with
                    assigned_value := setAt locked1.assigned_value event_id target_value }
                let packed : Nat :=
                  if is_async = true then (params1.syncpt_id <<< 4) % 2 ^ 32
                  else ((params1.syncpt_id &&& 0xfff) <<< 16) ||| 0x10000000
                let params2 : IocCtrlEventWaitParams :=
                  { params1 with value := packed ||| event_id }
                let failed := locked2.failed event_id
                let ctrl2 : nvhost_ctrl := { ctrl1 with events_interface := locked2 }
                if failed = true then
                  { result := NvResult.Success
                    ctrl := ctrl2.setFailed event_id false
                    output := some params2
                    effects :=
                      [Effect.RefreshSyncpoint params.syncpt_id, Effect.ClearEvent event_id,
                        Effect.WaitFence params2.syncpt_id target_value] }
                else
                  { result := NvResult.Timeout
                    ctrl := ctrl2
                    output := some params2
                    effects :=
                      [Effect.RefreshSyncpoint params.syncpt_id, Effect.ClearEvent event_id,
                        Effect.RegisterSyncptInterrupt params2.syncpt_id target_value] }

/-- `nvhost_ctrl::IocCtrlEventRegister`. -/
def nvhost_ctrl.IocCtrlEventRegister (lim : Limits) (ctrl : nvhost_ctrl)
    (input : IocCtrlEventRegisterParams) : IoctlResult :=
  let params := input
  let event_id := params.user_event_id &&& 0x00FF
  if event_id ≥ lim.MaxNvEvents then
    { result := NvResult.BadParameter, ctrl := ctrl, output := none, effects := [] }
  else if ctrl.events_interface.registered event_id = true then
    let event_state := ctrl.events_interface.status event_id
    if event_state ≠ EventState.Free then
      -- Event already registered! Unregistering previous event
      let locked := ctrl.events_interface.UnregisterEvent event_id
      { result := NvResult.Success
        ctrl := { ctrl with events_interface := locked.RegisterEvent event_id }
        output := none
        effects := [] }
    else
      { result := NvResult.BadParameter, ctrl := ctrl, output := none, effects := [] }
  else
    { result := NvResult.Success
      ctrl := { ctrl with events_interface := ctrl.events_interface.RegisterEvent event_id }
      output := none
      effects := [] }

/-- `nvhost_ctrl::IocCtrlEventUnregister`. -/
def nvhost_ctrl.IocCtrlEventUnregister (lim : Limits) (ctrl : nvhost_ctrl)
    (input : IocCtrlEventUnregisterParams) : IoctlResult :=
  let params := input
  let event_id := params.user_event_id &&& 0x00FF
  if event_id ≥ lim.MaxNvEvents then
    { result := NvResult.BadParameter, ctrl := ctrl, output := none, effects := [] }
  else if ctrl.events_interface.registered event_id = false then
    { result := NvResult.BadParameter, ctrl := ctrl, output := none, effects := [] }
  else
    { result := NvResult.Success
      ctrl := { ctrl with events_interface := ctrl.events_interface.UnregisterEvent event_id }
      output := none
      effects := [] }

/-- `nvhost_ctrl::IocCtrlClearEventWait`. -/
def nvhost_ctrl.IocCtrlClearEventWait (lim : Limits) (gpu : GPU) (ctrl : nvhost_ctrl)
    (input : IocCtrlEventSignalParams) : IoctlResult :=
  let params := input
  let event_id := params.event_id &&& 0x00FF
  if event_id ≥ lim.MaxNvEvents then
    { result := NvResult.BadParameter, ctrl := ctrl, output := none, effects := [] }
  else
    let locked : EventInterface :=
      if ctrl.events_interface.status event_id = EventState.Waiting then
        ctrl.events_interface.LiberateEvent event_id
      else ctrl.events_interface
    let locked1 : EventInterface := { locked with failed := setAt locked.failed event_id true }
    let refreshed :=
      ctrl.syncpoint_manager.RefreshSyncpoint (locked1.events event_id).id gpu
    { result := NvResult.Success
      ctrl := { events_interface := locked1, syncpoint_manager := refreshed.1 }
      output := none
      effects := [Effect.RefreshSyncpoint (locked1.events event_id).id] }

/-- The identifiers of a wait request are in range and its syncpoint is not expired for
the requested threshold, neither with the stored value nor after the forced refresh:
`IocCtrlEventWait` gets past its first four returns. -/
def nvhost_ctrl.StillPending (lim : Limits) (gpu : GPU) (ctrl : nvhost_ctrl)
    (input : IocCtrlEventWaitParams) : Prop :=
  input.syncpt_id < lim.MaxSyncPoints ∧ input.value &&& 0x00FF < lim.MaxNvEvents ∧
    ctrl.syncpoint_manager.IsSyncpointExpired input.syncpt_id input.threshold = false ∧
    (ctrl.syncpoint_manager.RefreshSyncpoint input.syncpt_id gpu).1.IsSyncpointExpired
      input.syncpt_id input.threshold = false

instance (lim : Limits) (gpu : GPU) (ctrl : nvhost_ctrl) (input : IocCtrlEventWaitParams) :
    Decidable (nvhost_ctrl.StillPending lim gpu ctrl input) := by
  unfold nvhost_ctrl.StillPending
  infer_instance

/-- A wait request reaches the parking step of `IocCtrlEventWait` (the block that takes the
lock on the slot table): it is still pending, the device runs asynchronously, the slot's
fence value is short of the threshold (`diff < 0`) and the timeout is not zero. -/
def nvhost_ctrl.ReachesParking (lim : Limits) (gpu : GPU) (ctrl : nvhost_ctrl)
    (input : IocCtrlEventWaitParams) : Prop :=
  nvhost_ctrl.StillPending lim gpu ctrl input ∧ gpu.IsAsync = true ∧
    nvhost_ctrl.diff ((ctrl.events_interface.events (input.value &&& 0x00FF)).value % 2 ^ 32)
      input.threshold < 0 ∧
    input.timeout ≠ 0

instance (lim : Limits) (gpu : GPU) (ctrl : nvhost_ctrl) (input : IocCtrlEventWaitParams) :
    Decidable (nvhost_ctrl.ReachesParking lim gpu ctrl input) := by
  unfold nvhost_ctrl.ReachesParking
  infer_instance

/-! ## Examples used below -/

/-- The limits `MaxSyncPoints = 192`, `MaxNvEvents = 64`. -/
def exampleLimits : Limits := { MaxSyncPoints := 192, MaxNvEvents := 64 }

/-- A device object in which every syncpoint has value `syncpoint_value`, every slot has
fence value `fence_value` on syncpoint 0, state `status`, registration flag `registered`
and failure flag `failed`, and nothing is assigned. -/
def exampleCtrl (syncpoint_value fence_value : Nat) (status : EventState)
    (registered failed : Bool) : nvhost_ctrl :=
  { events_interface :=
      { events := fun _ => { id := 0, value := fence_value }
        status := fun _ => status
        registered := fun _ => registered
        failed := fun _ => failed
        assigned_syncpt := fun _ => 0
        assigned_value := fun _ => 0 }
    syncpoint_manager := { syncpoints := fun _ => syncpoint_value } }

/-- A device that runs asynchronously or not and reports `value` for every syncpoint. -/
def exampleDevice (is_async : Bool) (value : Nat) : GPU :=
  { IsAsync := is_async, GetSyncpointValue := fun _ => value }

end Devices

end Service.Nvidia

namespace Tegra

/-! ## The decode loop, word by word -/

theorem StepWord_data (enc : SubmissionMode) (p : DmaPusher) (w : Nat)
    (h : p.dma_state.method_count ≠ 0) :
    p.StepWord enc w =
      ({ p with
          dma_state :=
            { method :=
                if p.dma_state.non_incrementing = true then p.dma_state.method
                else (p.dma_state.method + 1) % 2 ^ 32
              subchannel := p.dma_state.subchannel
              method_count := p.dma_state.method_count - 1
              non_incrementing := p.dma_state.non_incrementing || p.dma_increment_once } },
        [p.CallMethod (CommandHeader.argument w)]) := by
  obtain ⟨ib, q, c, hs, ⟨m, s, n, ni⟩, once⟩ := p
  cases ni <;> cases once <;> simp_all [DmaPusher.StepWord]

theorem StepLoop_nil (enc : SubmissionMode) (p : DmaPusher) :
    DmaPusher.StepLoop enc [] p = (p, []) := rfl

theorem StepLoop_cons (enc : SubmissionMode) (w : Nat) (ws : List Nat) (p : DmaPusher) :
    DmaPusher.StepLoop enc (w :: ws) p =
      ((DmaPusher.StepLoop enc ws (p.StepWord enc w).1).1,
        (p.StepWord enc w).2 ++ (DmaPusher.StepLoop enc ws (p.StepWord enc w).1).2) := rfl

/-- While `method_count` covers the words still to come, the loop dispatches one call per
word, keeps the subchannel and counts down. -/
theorem StepLoop_data (enc : SubmissionMode) :
    ∀ (args : List Nat) (p : DmaPusher), args.length ≤ p.dma_state.method_count →
      (DmaPusher.StepLoop enc args p).2.length = args.length ∧
      (DmaPusher.StepLoop enc args p).1.dma_state.method_count =
        p.dma_state.method_count - args.length ∧
      (DmaPusher.StepLoop enc args p).1.dma_state.subchannel = p.dma_state.subchannel ∧
      (DmaPusher.StepLoop enc args p).1.dma_increment_once = p.dma_increment_once ∧
      ∀ c ∈ (DmaPusher.StepLoop enc args p).2, c.subchannel = p.dma_state.subchannel := by
  intro args
  induction args with
  | nil => intro p _; simp [StepLoop_nil]
  | cons a rest ih =>
    intro p hlen
    simp only [List.length_cons] at hlen
    have hne : p.dma_state.method_count ≠ 0 := by omega
    have hw := StepWord_data enc p a hne
    have hc : (p.StepWord enc a).1.dma_state.method_count = p.dma_state.method_count - 1 := by
      rw [hw]
    have hs : (p.StepWord enc a).1.dma_state.subchannel = p.dma_state.subchannel := by
      rw [hw]
    have ho : (p.StepWord enc a).1.dma_increment_once = p.dma_increment_once := by
      rw [hw]
    have h2 : (p.StepWord enc a).2 = [p.CallMethod (CommandHeader.argument a)] := by rw [hw]
    obtain ⟨h1, h3, h4, h5, h6⟩ := ih (p.StepWord enc a).1 (by omega)
    rw [StepLoop_cons]
    refine ⟨?_, ?_, ?_, ?_, ?_⟩
    · simp only [List.length_append, List.length_cons, h1, h2, List.length_nil]; omega
    · simp only [h3, hc, List.length_cons]; omega
    · simp only [h4, hs]
    · simp only [h5, ho]
    · intro c hcm
      rw [h2] at hcm
      rcases List.mem_append.1 hcm with hc1 | hc2
      · rw [List.mem_singleton.1 hc1]; rfl
      · rw [h6 c hc2, hs]

/-- The call dispatched for the `i`-th data word of a run of data words. -/
theorem StepLoop_data_get (enc : SubmissionMode) :
    ∀ (args : List Nat) (p : DmaPusher), args.length ≤ p.dma_state.method_count →
      ∀ (i : Nat) (hi : i < args.length),
        (DmaPusher.StepLoop enc args p).2[i]? =
          some
            { method :=
                if p.dma_state.non_incrementing = true then p.dma_state.method
                else if i = 0 then p.dma_state.method
                else if p.dma_increment_once = true then (p.dma_state.method + 1) % 2 ^ 32
                else (p.dma_state.method + i) % 2 ^ 32
              argument := CommandHeader.argument args[i]
              subchannel := p.dma_state.subchannel
              method_count := p.dma_state.method_count - i } := by
  intro args
  induction args with
  | nil => intro p _ i hi; simp at hi
  | cons a rest ih =>
    intro p hlen i hi
    simp only [List.length_cons] at hlen hi
    have hne : p.dma_state.method_count ≠ 0 := by omega
    have hw := StepWord_data enc p a hne
    have hc : (p.StepWord enc a).1.dma_state.method_count = p.dma_state.method_count - 1 := by
      rw [hw]
    have hs : (p.StepWord enc a).1.dma_state.subchannel = p.dma_state.subchannel := by
      rw [hw]
    have ho : (p.StepWord enc a).1.dma_increment_once = p.dma_increment_once := by
      rw [hw]
    have hn : (p.StepWord enc a).1.dma_state.non_incrementing =
        (p.dma_state.non_incrementing || p.dma_increment_once) := by
      rw [hw]
    have hm : (p.StepWord enc a).1.dma_state.method =
        if p.dma_state.non_incrementing = true then p.dma_state.method
        else (p.dma_state.method + 1) % 2 ^ 32 := by
      rw [hw]
    have h2 : (p.StepWord enc a).2 = [p.CallMethod (CommandHeader.argument a)] := by rw [hw]
    rw [StepLoop_cons, h2]
    cases i with
    | zero =>
      simp [DmaPusher.CallMethod]
    | succ j =>
      have := ih (p.StepWord enc a).1 (by omega) j (by omega)
      simp only [List.singleton_append, List.getElem?_cons_succ, List.getElem_cons_succ, this,
        hc, hs, ho, hn, hm]
      have hcount : p.dma_state.method_count - 1 - j = p.dma_state.method_count - (j + 1) := by
        omega
      rw [hcount]
      congr 2
      by_cases hni : p.dma_state.non_incrementing = true
      · simp [hni]
      · by_cases hon : p.dma_increment_once = true
        · simp [hni, hon]
        · simp only [hni, hon, Bool.or_self, if_false]
          simp only [Bool.not_eq_true] at hni hon
          simp only [hni, hon, Bool.or_self, Bool.false_eq_true, if_false]
          by_cases hj : j = 0
          · simp [hj]
          · have hj1 : ¬ (j + 1 = 0) := by omega
            simp only [hj, hj1, if_false]
            omega

/-- A header word in mode `Increasing`, read while no command is active. -/
theorem StepWord_Increasing (enc : SubmissionMode) (p : DmaPusher) (w : Nat)
    (hidle : p.dma_state.method_count = 0) (hmode : CommandHeader.mode w = enc.Increasing) :
    p.StepWord enc w =
      ({ p with
          dma_state :=
            { method := CommandHeader.method w
              subchannel := CommandHeader.subchannel w
              method_count := CommandHeader.method_count w
              non_incrementing := false }
          dma_increment_once := false }, []) := by
  simp [DmaPusher.StepWord, DmaPusher.SetState, hidle, hmode]

/-- A header word in mode `NonIncreasing`, read while no command is active. -/
theorem StepWord_NonIncreasing (enc : SubmissionMode) (hd : enc.Distinct) (p : DmaPusher)
    (w : Nat) (hidle : p.dma_state.method_count = 0)
    (hmode : CommandHeader.mode w = enc.NonIncreasing) :
    p.StepWord enc w =
      ({ p with
          dma_state :=
            { method := CommandHeader.method w
              subchannel := CommandHeader.subchannel w
              method_count := CommandHeader.method_count w
              non_incrementing := true }
          dma_increment_once := false }, []) := by
  obtain ⟨h1, -, -, -, -, -⟩ := hd
  simp [DmaPusher.StepWord, DmaPusher.SetState, hidle, hmode, Ne.symm h1]

/-- A header word in mode `Inline`, read while no command is active. -/
theorem StepWord_Inline (enc : SubmissionMode) (hd : enc.Distinct) (p : DmaPusher)
    (w : Nat) (hidle : p.dma_state.method_count = 0)
    (hmode : CommandHeader.mode w = enc.Inline) :
    p.StepWord enc w =
      ({ p with
          dma_state :=
            { method := CommandHeader.method w
              subchannel := CommandHeader.subchannel w
              method_count := p.dma_state.method_count
              non_incrementing := true }
          dma_increment_once := false },
        [{ method := CommandHeader.method w
           argument := CommandHeader.arg_count w
           subchannel := CommandHeader.subchannel w
           method_count := p.dma_state.method_count }]) := by
  obtain ⟨-, h2, -, h4, -, -⟩ := hd
  simp [DmaPusher.StepWord, DmaPusher.CallMethod, hidle, hmode, Ne.symm h2, Ne.symm h4]

/-- A header word in mode `IncreaseOnce`, read while no command is active. -/
theorem StepWord_IncreaseOnce (enc : SubmissionMode) (hd : enc.Distinct) (p : DmaPusher)
    (w : Nat) (hidle : p.dma_state.method_count = 0)
    (hmode : CommandHeader.mode w = enc.IncreaseOnce) :
    p.StepWord enc w =
      ({ p with
          dma_state :=
            { method := CommandHeader.method w
              subchannel := CommandHeader.subchannel w
              method_count := CommandHeader.method_count w
              non_incrementing := false }
          dma_increment_once := true }, []) := by
  obtain ⟨-, -, h3, -, h5, h6⟩ := hd
  simp [DmaPusher.StepWord, DmaPusher.SetState, hidle, hmode, Ne.symm h3, Ne.symm h5,
    Ne.symm h6]

/-- A header word whose mode is none of the four handled ones, read while no command is
active, changes nothing. -/
theorem StepWord_other (enc : SubmissionMode) (p : DmaPusher) (w : Nat)
    (hidle : p.dma_state.method_count = 0)
    (h1 : CommandHeader.mode w ≠ enc.Increasing)
    (h2 : CommandHeader.mode w ≠ enc.NonIncreasing)
    (h3 : CommandHeader.mode w ≠ enc.Inline)
    (h4 : CommandHeader.mode w ≠ enc.IncreaseOnce) :
    p.StepWord enc w = (p, []) := by
  simp [DmaPusher.StepWord, hidle, h1, h2, h3, h4]

/-- Walking a stream in two pieces is walking it whole. -/
theorem StepLoop_append (enc : SubmissionMode) :
    ∀ (w1 w2 : List Nat) (p : DmaPusher),
      DmaPusher.StepLoop enc (w1 ++ w2) p =
        ((DmaPusher.StepLoop enc w2 (DmaPusher.StepLoop enc w1 p).1).1,
          (DmaPusher.StepLoop enc w1 p).2 ++
            (DmaPusher.StepLoop enc w2 (DmaPusher.StepLoop enc w1 p).1).2) := by
  intro w1
  induction w1 with
  | nil => intro w2 p; simp [StepLoop_nil]
  | cons a rest ih =>
    intro w2 p
    rw [List.cons_append, StepLoop_cons, ih, StepLoop_cons]
    simp [List.append_assoc]

/-- The fields of a header word are bounded by their widths. -/
theorem CommandHeader.method_lt (w : Nat) : CommandHeader.method w < 2 ^ 13 :=
  Nat.mod_lt _ (by norm_num)

theorem CommandHeader.method_count_lt (w : Nat) : CommandHeader.method_count w < 2 ^ 13 :=
  Nat.mod_lt _ (by norm_num)

theorem CommandHeader.argument_of_lt (w : Nat) (h : w < 2 ^ 32) :
    CommandHeader.argument w = w :=
  Nat.mod_eq_of_lt h

/-- The calls of a run of data words, as a list. -/
theorem StepLoop_data_calls (enc : SubmissionMode) (args : List Nat) (p : DmaPusher)
    (hlen : args.length ≤ p.dma_state.method_count) :
    (DmaPusher.StepLoop enc args p).2 =
      args.enum.map fun ia =>
        { method :=
            if p.dma_state.non_incrementing = true then p.dma_state.method
            else if ia.1 = 0 then p.dma_state.method
            else if p.dma_increment_once = true then (p.dma_state.method + 1) % 2 ^ 32
            else (p.dma_state.method + ia.1) % 2 ^ 32
          argument := CommandHeader.argument ia.2
          subchannel := p.dma_state.subchannel
          method_count := p.dma_state.method_count - ia.1 } := by
  apply List.ext_getElem?
  intro i
  by_cases hi : i < args.length
  · rw [StepLoop_data_get enc args p hlen i hi]
    simp [List.getElem?_enum, List.getElem?_eq_getElem hi]
  · have h1 := (StepLoop_data enc args p hlen).1
    rw [List.getElem?_eq_none (by omega), List.getElem?_eq_none (by simp; omega)]

/-- Method and increment flag after a run of data words. -/
theorem StepLoop_data_final (enc : SubmissionMode) :
    ∀ (args : List Nat) (p : DmaPusher), args.length ≤ p.dma_state.method_count →
      (DmaPusher.StepLoop enc args p).1.dma_state.method =
          (if p.dma_state.non_incrementing = true then p.dma_state.method
            else if args.length = 0 then p.dma_state.method
            else if p.dma_increment_once = true then (p.dma_state.method + 1) % 2 ^ 32
            else (p.dma_state.method + args.length) % 2 ^ 32) ∧
        (DmaPusher.StepLoop enc args p).1.dma_state.non_incrementing =
          (if args.length = 0 then p.dma_state.non_incrementing
            else (p.dma_state.non_incrementing || p.dma_increment_once)) := by
  intro args
  induction args with
  | nil => intro p _; simp [StepLoop_nil]
  | cons a rest ih =>
    intro p hlen
    simp only [List.length_cons] at hlen
    have hne : p.dma_state.method_count ≠ 0 := by omega
    have hw := StepWord_data enc p a hne
    have hc : (p.StepWord enc a).1.dma_state.method_count = p.dma_state.method_count - 1 := by
      rw [hw]
    have ho : (p.StepWord enc a).1.dma_increment_once = p.dma_increment_once := by
      rw [hw]
    have hn : (p.StepWord enc a).1.dma_state.non_incrementing =
        (p.dma_state.non_incrementing || p.dma_increment_once) := by
      rw [hw]
    have hm : (p.StepWord enc a).1.dma_state.method =
        if p.dma_state.non_incrementing = true then p.dma_state.method
        else (p.dma_state.method + 1) % 2 ^ 32 := by
      rw [hw]
    obtain ⟨h1, h2⟩ := ih (p.StepWord enc a).1 (by omega)
    rw [StepLoop_cons]
    have hl : ¬ ((a :: rest).length = 0) := by simp
    simp only [h1, h2, hc, ho, hn, hm, hl, if_false]
    constructor
    · cases hni : p.dma_state.non_incrementing <;> cases hon : p.dma_increment_once <;>
        simp only [Bool.or_self, Bool.or_true, Bool.or_false, Bool.false_eq_true, if_false,
          if_true, ite_self]
      by_cases hr : rest.length = 0
      · simp [hr]
      · simp only [hr, if_false, List.length_cons]
        omega
    · by_cases hr : rest.length = 0
      · simp [hr]
      · simp only [hr, if_false]
        cases p.dma_state.non_incrementing <;> cases p.dma_increment_once <;> rfl

/-- The loop body touches only the decoder state and the increase-once flag. -/
theorem StepWord_frame (enc : SubmissionMode) (p : DmaPusher) (w : Nat) :
    (p.StepWord enc w).1.ib_enable = p.ib_enable ∧
      (p.StepWord enc w).1.dma_pushbuffer = p.dma_pushbuffer ∧
      (p.StepWord enc w).1.dma_pushbuffer_subindex = p.dma_pushbuffer_subindex ∧
      (p.StepWord enc w).1.command_headers = p.command_headers := by
  simp only [DmaPusher.StepWord, DmaPusher.SetState]
  split_ifs <;> exact ⟨rfl, rfl, rfl, rfl⟩

/-- The loop body depends only on the decoder state and the increase-once flag. -/
theorem StepWord_congr (enc : SubmissionMode) (p q : DmaPusher) (w : Nat)
    (hs : p.dma_state = q.dma_state) (ho : p.dma_increment_once = q.dma_increment_once) :
    (p.StepWord enc w).2 = (q.StepWord enc w).2 ∧
      (p.StepWord enc w).1.dma_state = (q.StepWord enc w).1.dma_state ∧
      (p.StepWord enc w).1.dma_increment_once = (q.StepWord enc w).1.dma_increment_once := by
  obtain ⟨ib, qu, c, hdrs, st, once⟩ := p
  obtain ⟨ib', qu', c', hdrs', st', once'⟩ := q
  simp only at hs ho
  subst hs ho
  simp only [DmaPusher.StepWord, DmaPusher.SetState, DmaPusher.CallMethod]
  split_ifs <;> exact ⟨rfl, rfl, rfl⟩

/-- The decode loop touches only the decoder state and the increase-once flag. -/
theorem StepLoop_frame (enc : SubmissionMode) :
    ∀ (ws : List Nat) (p : DmaPusher),
      (DmaPusher.StepLoop enc ws p).1.ib_enable = p.ib_enable ∧
        (DmaPusher.StepLoop enc ws p).1.dma_pushbuffer = p.dma_pushbuffer ∧
        (DmaPusher.StepLoop enc ws p).1.dma_pushbuffer_subindex = p.dma_pushbuffer_subindex ∧
        (DmaPusher.StepLoop enc ws p).1.command_headers = p.command_headers := by
  intro ws
  induction ws with
  | nil => intro p; exact ⟨rfl, rfl, rfl, rfl⟩
  | cons w rest ih =>
    intro p
    obtain ⟨a1, a2, a3, a4⟩ := StepWord_frame enc p w
    obtain ⟨b1, b2, b3, b4⟩ := ih (p.StepWord enc w).1
    rw [StepLoop_cons]
    exact ⟨b1.trans a1, b2.trans a2, b3.trans a3, b4.trans a4⟩

/-- The decode loop depends only on the decoder state and the increase-once flag. -/
theorem StepLoop_congr (enc : SubmissionMode) :
    ∀ (ws : List Nat) (p q : DmaPusher), p.dma_state = q.dma_state →
      p.dma_increment_once = q.dma_increment_once →
      (DmaPusher.StepLoop enc ws p).2 = (DmaPusher.StepLoop enc ws q).2 ∧
        (DmaPusher.StepLoop enc ws p).1.dma_state = (DmaPusher.StepLoop enc ws q).1.dma_state ∧
        (DmaPusher.StepLoop enc ws p).1.dma_increment_once =
          (DmaPusher.StepLoop enc ws q).1.dma_increment_once := by
  intro ws
  induction ws with
  | nil => intro p q hs ho; exact ⟨rfl, hs, ho⟩
  | cons w rest ih =>
    intro p q hs ho
    obtain ⟨a1, a2, a3⟩ := StepWord_congr enc p q w hs ho
    obtain ⟨b1, b2, b3⟩ := ih (p.StepWord enc w).1 (q.StepWord enc w).1 a2 a3
    rw [StepLoop_cons, StepLoop_cons]
    exact ⟨by rw [a1, b1], b2, b3⟩

/-! ## `Step` case by case -/

/-- Fetching disabled or queue empty: `Step` is idle. -/
theorem Step_idle (enc : SubmissionMode) (gpu : Gpu) (p : DmaPusher)
    (h : p.ib_enable = false ∨ p.dma_pushbuffer = []) :
    p.Step enc gpu = some { more := false, pusher := p, events := [] } := by
  unfold DmaPusher.Step
  rcases h with h | h
  · simp [h]
  · by_cases hib : p.ib_enable = false
    · simp [hib]
    · simp only [hib, if_false, h, ite_self]

/-- Front entry with neither descriptors nor prefetched words: it is dropped. -/
theorem Step_empty_entry (enc : SubmissionMode) (gpu : Gpu) (p : DmaPusher)
    (front : CommandList) (behind : List CommandList) (hib : p.ib_enable = true)
    (hq : p.dma_pushbuffer = front :: behind) (hc : front.command_lists = [])
    (hp : front.prefetch_command_list = []) :
    p.Step enc gpu =
      some { more := true
             pusher := { p with dma_pushbuffer := behind, dma_pushbuffer_subindex := 0 }
             events := [] } := by
  unfold DmaPusher.Step
  simp [hib, hq, hc, hp]

/-- Front entry with prefetched words: they are walked and the entry is popped. -/
theorem Step_prefetch (enc : SubmissionMode) (gpu : Gpu) (p : DmaPusher)
    (front : CommandList) (behind : List CommandList) (hib : p.ib_enable = true)
    (hq : p.dma_pushbuffer = front :: behind) (hp : front.prefetch_command_list ≠ []) :
    p.Step enc gpu =
      some { more := true
             pusher :=
               (DmaPusher.StepLoop enc front.prefetch_command_list
                 { p with
                   command_headers := front.prefetch_command_list
                   dma_pushbuffer := behind }).1
             events :=
               (DmaPusher.StepLoop enc front.prefetch_command_list
                 { p with
                   command_headers := front.prefetch_command_list
                   dma_pushbuffer := behind }).2.map GpuEvent.CallMethod } := by
  unfold DmaPusher.Step
  simp [hib, hq, hp]

/-- Front entry without prefetched words, cursor on a descriptor of size zero. -/
theorem Step_descriptor_zero (enc : SubmissionMode) (gpu : Gpu) (p : DmaPusher)
    (front : CommandList) (behind : List CommandList) (d : CommandListHeader)
    (hib : p.ib_enable = true) (hq : p.dma_pushbuffer = front :: behind)
    (hp : front.prefetch_command_list = [])
    (hd : front.command_lists[p.dma_pushbuffer_subindex]? = some d) (hz : d.size = 0) :
    p.Step enc gpu =
      some { more := true
             pusher :=
               if p.dma_pushbuffer_subindex + 1 ≥ front.command_lists.length then
                 { p with dma_pushbuffer := behind, dma_pushbuffer_subindex := 0 }
               else { p with dma_pushbuffer_subindex := p.dma_pushbuffer_subindex + 1 }
             events := [] } := by
  have hne : front.command_lists ≠ [] := by
    intro h; rw [h] at hd; simp at hd
  unfold DmaPusher.Step
  simp only [hib, hq, hp, hd, hz]
  simp [hne]

/-- Front entry without prefetched words, cursor on a descriptor of non-zero size: its
words are read and walked. -/
theorem Step_descriptor (enc : SubmissionMode) (gpu : Gpu) (p : DmaPusher)
    (front : CommandList) (behind : List CommandList) (d : CommandListHeader)
    (hib : p.ib_enable = true) (hq : p.dma_pushbuffer = front :: behind)
    (hp : front.prefetch_command_list = [])
    (hd : front.command_lists[p.dma_pushbuffer_subindex]? = some d) (hz : d.size ≠ 0) :
    p.Step enc gpu =
      some { more := true
             pusher :=
               (DmaPusher.StepLoop enc (gpu.ReadWords d.addr d.size)
                 { (if p.dma_pushbuffer_subindex + 1 ≥ front.command_lists.length then
                     { p with dma_pushbuffer := behind, dma_pushbuffer_subindex := 0 }
                   else { p with dma_pushbuffer_subindex := p.dma_pushbuffer_subindex + 1 })
                   with command_headers := gpu.ReadWords d.addr d.size }).1
             events :=
               (if gpu.IsGPULevelHigh = true then GpuEvent.ReadBlock d.addr (d.size * 4)
                 else GpuEvent.ReadBlockUnsafe d.addr (d.size * 4)) ::
               (DmaPusher.StepLoop enc (gpu.ReadWords d.addr d.size)
                 { (if p.dma_pushbuffer_subindex + 1 ≥ front.command_lists.length then
                     { p with dma_pushbuffer := behind, dma_pushbuffer_subindex := 0 }
                   else { p with dma_pushbuffer_subindex := p.dma_pushbuffer_subindex + 1 })
                   with command_headers := gpu.ReadWords d.addr d.size }).2.map
                 GpuEvent.CallMethod } := by
  have hne : front.command_lists ≠ [] := by
    intro h; rw [h] at hd; simp at hd
  unfold DmaPusher.Step
  simp only [hib, hq, hp, hd, hz]
  simp [hne]

theorem reads_map_CallMethod (cs : List MethodCall) :
    GpuEvent.reads (cs.map GpuEvent.CallMethod) = [] := by
  induction cs with
  | nil => rfl
  | cons c rest ih => simpa [GpuEvent.reads] using ih

theorem calls_map_CallMethod (cs : List MethodCall) :
    GpuEvent.calls (cs.map GpuEvent.CallMethod) = cs := by
  induction cs with
  | nil => rfl
  | cons c rest ih => simp [GpuEvent.calls, ih]

/-- One `Step` on a front entry without prefetched words whose cursor is on a descriptor:
what is read, what is walked and where the cursor and the queue end up. -/
theorem Step_descriptor_any (enc : SubmissionMode) (gpu : Gpu) (p : DmaPusher)
    (front : CommandList) (behind : List CommandList) (d : CommandListHeader)
    (hib : p.ib_enable = true) (hq : p.dma_pushbuffer = front :: behind)
    (hp : front.prefetch_command_list = [])
    (hd : front.command_lists[p.dma_pushbuffer_subindex]? = some d) :
    ∃ r, p.Step enc gpu = some r ∧ r.more = true ∧ r.pusher.ib_enable = true ∧
      (p.dma_pushbuffer_subindex + 1 < front.command_lists.length →
        r.pusher.dma_pushbuffer = front :: behind ∧
        r.pusher.dma_pushbuffer_subindex = p.dma_pushbuffer_subindex + 1) ∧
      (p.dma_pushbuffer_subindex + 1 = front.command_lists.length →
        r.pusher.dma_pushbuffer = behind ∧ r.pusher.dma_pushbuffer_subindex = 0) ∧
      GpuEvent.reads r.events = (if d.size = 0 then [] else [(d.addr, d.size * 4)]) ∧
      (d.size ≠ 0 → r.pusher.command_headers = gpu.ReadWords d.addr d.size) ∧
      GpuEvent.calls r.events = (DmaPusher.StepLoop enc (gpu.ReadWords d.addr d.size) p).2 ∧
      r.pusher.dma_state =
        (DmaPusher.StepLoop enc (gpu.ReadWords d.addr d.size) p).1.dma_state ∧
      r.pusher.dma_increment_once =
        (DmaPusher.StepLoop enc (gpu.ReadWords d.addr d.size) p).1.dma_increment_once := by
  by_cases hz : d.size = 0
  · have hnil : gpu.ReadWords d.addr d.size = [] := by simp [Gpu.ReadWords, hz]
    rw [hnil, StepLoop_nil]
    refine ⟨_, Step_descriptor_zero enc gpu p front behind d hib hq hp hd hz, rfl, ?_, ?_, ?_,
      ?_, ?_, rfl, ?_, ?_⟩
    · simp only
      split_ifs <;> exact hib
    · intro h
      have : ¬ (p.dma_pushbuffer_subindex + 1 ≥ front.command_lists.length) := by omega
      simp only [this, if_false, hq, and_self]
    · intro h
      have : p.dma_pushbuffer_subindex + 1 ≥ front.command_lists.length := by omega
      simp only [this, if_true, and_self]
    · simp [hz, GpuEvent.reads]
    · intro h; exact absurd hz h
    · simp only
      split_ifs <;> rfl
    · simp only
      split_ifs <;> rfl
  · have hcg := StepLoop_congr enc (gpu.ReadWords d.addr d.size)
      { (if p.dma_pushbuffer_subindex + 1 ≥ front.command_lists.length then
          { p with dma_pushbuffer := behind, dma_pushbuffer_subindex := 0 }
        else { p with dma_pushbuffer_subindex := p.dma_pushbuffer_subindex + 1 })
        with command_headers := gpu.ReadWords d.addr d.size } p
      (by simp only; split_ifs <;> rfl) (by simp only; split_ifs <;> rfl)
    refine ⟨_, Step_descriptor enc gpu p front behind d hib hq hp hd hz, rfl, ?_, ?_, ?_,
      ?_, ?_, ?_, hcg.2.1, hcg.2.2⟩
    · rw [(StepLoop_frame enc _ _).1]
      simp only
      split_ifs <;> exact hib
    · intro h
      have : ¬ (p.dma_pushbuffer_subindex + 1 ≥ front.command_lists.length) := by omega
      rw [(StepLoop_frame enc _ _).2.1, (StepLoop_frame enc _ _).2.2.1]
      simp only [this, if_false, hq, and_self]
    · intro h
      have : p.dma_pushbuffer_subindex + 1 ≥ front.command_lists.length := by omega
      rw [(StepLoop_frame enc _ _).2.1, (StepLoop_frame enc _ _).2.2.1]
      simp only [this, if_true, and_self]
    · simp only [hz, if_false]
      split_ifs <;> simp [GpuEvent.reads, reads_map_CallMethod]
    · intro _
      exact (StepLoop_frame enc _ _).2.2.2
    · have hcalls : ∀ (e : GpuEvent) (cs : List MethodCall),
          (e = GpuEvent.ReadBlock d.addr (d.size * 4) ∨
            e = GpuEvent.ReadBlockUnsafe d.addr (d.size * 4)) →
          GpuEvent.calls (e :: cs.map GpuEvent.CallMethod) = cs := by
        intro e cs he
        rcases he with rfl | rfl <;> simp [GpuEvent.calls, calls_map_CallMethod]
      simp only
      rw [hcalls _ _ (by split_ifs <;> simp)]
      exact hcg.1

/-- While the cursor stays short of the last descriptor, every `Step` advances it by one
and leaves the entry at the front. -/
theorem Steps_within_entry (enc : SubmissionMode) (front : CommandList)
    (behind : List CommandList) (hp : front.prefetch_command_list = []) :
    ∀ (gpus : List Gpu) (p : DmaPusher), p.ib_enable = true →
      p.dma_pushbuffer = front :: behind →
      p.dma_pushbuffer_subindex + gpus.length < front.command_lists.length →
      ∃ q, DmaPusher.Steps enc gpus p = some q ∧ q.ib_enable = true ∧
        q.dma_pushbuffer = front :: behind ∧
        q.dma_pushbuffer_subindex = p.dma_pushbuffer_subindex + gpus.length := by
  intro gpus
  induction gpus with
  | nil => intro p hib hq _; exact ⟨p, rfl, hib, hq, rfl⟩
  | cons gpu later ih =>
    intro p hib hq hlt
    simp only [List.length_cons] at hlt
    have hin : p.dma_pushbuffer_subindex < front.command_lists.length := by omega
    obtain ⟨r, hr, -, hrib, hstay, -, -, -, -, -, -⟩ :=
      Step_descriptor_any enc gpu p front behind _ hib hq hp (List.getElem?_eq_getElem hin)
    obtain ⟨hrq, hrc⟩ := hstay (by omega)
    obtain ⟨q, hq1, hq2, hq3, hq4⟩ := ih r.pusher hrib hrq (by omega)
    refine ⟨q, ?_, hq2, hq3, ?_⟩
    · simp only [DmaPusher.Steps, hr, hq1]
    · rw [hq4, hrc, List.length_cons]; omega

/-- One `Step` on a front entry that holds only a prefetched buffer `words` (possibly
empty): the entry is popped and, for the decoder, `words` have been walked. -/
theorem Step_prefetch_only (enc : SubmissionMode) (gpu : Gpu) (p : DmaPusher)
    (words : List Nat) (behind : List CommandList) (hib : p.ib_enable = true)
    (hq : p.dma_pushbuffer = { command_lists := [], prefetch_command_list := words } :: behind) :
    ∃ r, p.Step enc gpu = some r ∧ r.more = true ∧ r.pusher.ib_enable = true ∧
      r.pusher.dma_pushbuffer = behind ∧
      r.events = (DmaPusher.StepLoop enc words p).2.map GpuEvent.CallMethod ∧
      r.pusher.dma_state = (DmaPusher.StepLoop enc words p).1.dma_state ∧
      r.pusher.dma_increment_once = (DmaPusher.StepLoop enc words p).1.dma_increment_once := by
  by_cases hw : words = []
  · subst hw
    exact ⟨_, Step_empty_entry enc gpu p _ behind hib hq rfl rfl, rfl, hib, rfl, rfl, rfl, rfl⟩
  · have hc := StepLoop_congr enc words
      { p with command_headers := words, dma_pushbuffer := behind } p rfl rfl
    have hf := StepLoop_frame enc words
      { p with command_headers := words, dma_pushbuffer := behind }
    refine ⟨_, Step_prefetch enc gpu p _ behind hib hq hw, rfl, ?_, ?_, ?_, ?_, ?_⟩
    · exact hf.1.trans hib
    · exact hf.2.1
    · simp only [hc.1]
    · exact hc.2.1
    · exact hc.2.2

/-- Every `Step` acts on the decoder as the decode loop over one word stream (the empty
one when nothing is walked): its calls, decoder state and increase-once flag are those of
`StepLoop` from the pusher it started with. -/
theorem Step_decoder_eq_StepLoop (enc : SubmissionMode) (gpu : Gpu) (p : DmaPusher)
    (r : StepResult) (h : p.Step enc gpu = some r) :
    ∃ words, GpuEvent.calls r.events = (DmaPusher.StepLoop enc words p).2 ∧
      r.pusher.dma_state = (DmaPusher.StepLoop enc words p).1.dma_state ∧
      r.pusher.dma_increment_once = (DmaPusher.StepLoop enc words p).1.dma_increment_once := by
  by_cases hib : p.ib_enable = false
  · rw [Step_idle enc gpu p (Or.inl hib)] at h
    cases h
    exact ⟨[], rfl, rfl, rfl⟩
  · have hib1 : p.ib_enable = true := by simpa using hib
    cases hq : p.dma_pushbuffer with
    | nil =>
      rw [Step_idle enc gpu p (Or.inr hq)] at h
      cases h
      exact ⟨[], rfl, rfl, rfl⟩
    | cons front behind =>
      by_cases hp : front.prefetch_command_list = []
      · by_cases hc : front.command_lists = []
        · rw [Step_empty_entry enc gpu p front behind hib1 hq hc hp] at h
          cases h
          exact ⟨[], rfl, rfl, rfl⟩
        · cases hd : front.command_lists[p.dma_pushbuffer_subindex]? with
          | none =>
            have hnone : p.Step enc gpu = none := by
              unfold DmaPusher.Step
              simp only [hib1, hq, hp, hd]
              simp [hc]
            rw [hnone] at h
            cases h
          | some d =>
            obtain ⟨r1, hr1, -, -, -, -, -, -, k1, k2, k3⟩ :=
              Step_descriptor_any enc gpu p front behind d hib1 hq hp hd
            rw [hr1] at h
            cases h
            exact ⟨_, k1, k2, k3⟩
      · have hc := StepLoop_congr enc front.prefetch_command_list
          { p with command_headers := front.prefetch_command_list, dma_pushbuffer := behind } p
          rfl rfl
        rw [Step_prefetch enc gpu p front behind hib1 hq hp] at h
        cases h
        exact ⟨front.prefetch_command_list, by simp only [calls_map_CallMethod, hc.1],
          hc.2.1, hc.2.2⟩

/-- One block: a header that opens a sequence of `n` arguments, followed by exactly `n`
words, walked from an idle decoder. -/
theorem StepLoop_block (enc : SubmissionMode) (hd : enc.Distinct) (p : DmaPusher)
    (header : Nat) (args : List Nat) (hidle : p.dma_state.method_count = 0)
    (hmode : CommandHeader.mode header = enc.Increasing ∨
      CommandHeader.mode header = enc.NonIncreasing ∨
      CommandHeader.mode header = enc.IncreaseOnce)
    (hlen : args.length = CommandHeader.method_count header) :
    (DmaPusher.StepLoop enc (header :: args) p).2.length = CommandHeader.method_count header ∧
      (∀ c ∈ (DmaPusher.StepLoop enc (header :: args) p).2,
        c.subchannel = CommandHeader.subchannel header) ∧
      (DmaPusher.StepLoop enc (header :: args) p).1.dma_state.method_count = 0 := by
  have hw : (p.StepWord enc header).2 = [] ∧
      (p.StepWord enc header).1.dma_state.method_count = CommandHeader.method_count header ∧
      (p.StepWord enc header).1.dma_state.subchannel = CommandHeader.subchannel header := by
    rcases hmode with h | h | h
    · rw [StepWord_Increasing enc p header hidle h]; exact ⟨rfl, rfl, rfl⟩
    · rw [StepWord_NonIncreasing enc hd p header hidle h]; exact ⟨rfl, rfl, rfl⟩
    · rw [StepWord_IncreaseOnce enc hd p header hidle h]; exact ⟨rfl, rfl, rfl⟩
  obtain ⟨hw1, hw2, hw3⟩ := hw
  have hle : args.length ≤ (p.StepWord enc header).1.dma_state.method_count := by
    rw [hw2]; exact le_of_eq hlen
  obtain ⟨h1, h2, -, -, h5⟩ := StepLoop_data enc args _ hle
  rw [StepLoop_cons, hw1]
  refine ⟨?_, ?_, ?_⟩
  · simp only [List.nil_append]; rw [h1, hlen]
  · intro c hc
    simp only [List.nil_append] at hc
    rw [h5 c hc, hw3]
  · rw [h2, hw2]; omega

/-! ## Properties of the decoder -/

/-- C1: a word stream made of blocks, each a header in mode `Increasing`, `NonIncreasing`
or `IncreaseOnce` with count field `n` followed by exactly `n` words, walked by the decode
loop of `DmaPusher::Step` from a decoder with `method_count = 0`: the number of calls is
the sum of the count fields, the subchannels of the calls are, block after block, `n`
copies of the block's subchannel, and the decoder ends with `method_count = 0`. -/
theorem C1_blocks_dispatch_count (enc : SubmissionMode) (hd : enc.Distinct)
    (blocks : List (Nat × List Nat)) (p : DmaPusher)
    (hwf : ∀ b ∈ blocks,
      (CommandHeader.mode b.1 = enc.Increasing ∨ CommandHeader.mode b.1 = enc.NonIncreasing ∨
        CommandHeader.mode b.1 = enc.IncreaseOnce) ∧
      b.2.length = CommandHeader.method_count b.1)
    (hidle : p.dma_state.method_count = 0) :
    (DmaPusher.StepLoop enc (blocks.flatMap fun b => b.1 :: b.2) p).2.length =
        (blocks.map fun b => CommandHeader.method_count b.1).sum ∧
      (DmaPusher.StepLoop enc (blocks.flatMap fun b => b.1 :: b.2) p).2.map
          MethodCall.subchannel =
        (blocks.flatMap fun b =>
          List.replicate (CommandHeader.method_count b.1) (CommandHeader.subchannel b.1)) ∧
      (DmaPusher.StepLoop enc (blocks.flatMap fun b => b.1 :: b.2) p).1.dma_state.method_count
        = 0 := by
  induction blocks generalizing p with
  | nil => simp [StepLoop_nil, hidle]
  | cons b bs ih =>
    obtain ⟨hmode, hlen⟩ := hwf b (List.mem_cons_self b bs)
    obtain ⟨h1, h2, h3⟩ := StepLoop_block enc hd p b.1 b.2 hidle hmode hlen
    obtain ⟨i1, i2, i3⟩ :=
      ih (DmaPusher.StepLoop enc (b.1 :: b.2) p).1
        (fun b' hb' => hwf b' (List.mem_cons_of_mem b hb')) h3
    rw [List.flatMap_cons, StepLoop_append]
    refine ⟨?_, ?_, ?_⟩
    · simp only [List.length_append, List.map_cons, List.sum_cons, h1, i1]
    · simp only [List.map_append, List.flatMap_cons, i2]
      congr 1
      rw [List.eq_replicate_iff]
      refine ⟨by simp [h1], ?_⟩
      intro s hs
      obtain ⟨c, hc, rfl⟩ := List.mem_map.1 hs
      exact h2 c hc
    · exact i3

/-- C1 on two blocks: an `Increasing` header with two arguments on subchannel 3, then a
`NonIncreasing` header with one argument on subchannel 1. -/
theorem C1_blocks_dispatch_count_witness :
    exampleModes.Distinct ∧ idlePusher.dma_state.method_count = 0 ∧
      (DmaPusher.StepLoop exampleModes
          ([(mkHeader 1 2 3 7, [10, 20]), (mkHeader 3 1 1 9, [30])].flatMap
            fun b => b.1 :: b.2) idlePusher).2.length = 3 ∧
      (DmaPusher.StepLoop exampleModes
          ([(mkHeader 1 2 3 7, [10, 20]), (mkHeader 3 1 1 9, [30])].flatMap
            fun b => b.1 :: b.2) idlePusher).2.map MethodCall.subchannel = [3, 3, 1] :=
  have h := C1_blocks_dispatch_count exampleModes (by decide)
    [(mkHeader 1 2 3 7, [10, 20]), (mkHeader 3 1 1 9, [30])] idlePusher (by decide) (by decide)
  ⟨by decide, by decide, h.1.trans (by decide), h.2.1.trans (by decide)⟩

/-- C2: a header in mode `Increasing` with method `m`, subchannel `s` and count `n`, read
while no command is active and followed by `n` argument words, makes the decode loop of
`DmaPusher::Step` dispatch exactly `n` calls, in order: the call for the argument at
position `i` (counted from 0) has method `m + i`, that argument, subchannel `s` and
remaining count `n - i`; the sequence is complete afterwards. -/
theorem C2_Increasing_dispatch (enc : SubmissionMode) (p : DmaPusher) (header : Nat)
    (args : List Nat) (hidle : p.dma_state.method_count = 0)
    (hmode : CommandHeader.mode header = enc.Increasing)
    (hlen : args.length = CommandHeader.method_count header) :
    (DmaPusher.StepLoop enc (header :: args) p).2 =
        (args.enum.map fun ia =>
          { method := CommandHeader.method header + ia.1
            argument := CommandHeader.argument ia.2
            subchannel := CommandHeader.subchannel header
            method_count := CommandHeader.method_count header - ia.1 }) ∧
      (DmaPusher.StepLoop enc (header :: args) p).2.length = CommandHeader.method_count header ∧
      (DmaPusher.StepLoop enc (header :: args) p).1.dma_state.method_count = 0 := by
  have hw := StepWord_Increasing enc p header hidle hmode
  have hle : args.length ≤ (p.StepWord enc header).1.dma_state.method_count := by
    rw [hw]; exact le_of_eq hlen
  have hcalls := StepLoop_data_calls enc args _ hle
  obtain ⟨h1, h2, -, -, -⟩ := StepLoop_data enc args _ hle
  rw [StepLoop_cons]
  refine ⟨?_, ?_, ?_⟩
  · rw [hcalls, hw]
    simp only [List.nil_append, Bool.false_eq_true, if_false]
    apply List.map_congr_left
    intro ia hia
    have hlt : ia.1 < args.length := by
      have := List.fst_lt_of_mem_enum hia
      exact this
    have hm := CommandHeader.method_lt header
    have hn := CommandHeader.method_count_lt header
    congr 1
    by_cases h0 : ia.1 = 0
    · simp [h0]
    · simp only [h0, if_false]
      rw [Nat.mod_eq_of_lt]
      omega
  · rw [hw] at h1 ⊢
    simp only [List.nil_append]
    rw [h1, hlen]
  · rw [h2, hw]
    show CommandHeader.method_count header - args.length = 0
    omega

/-- C2 at `Increasing = 1`: header `(mode 1, count 2, subchannel 3, method 7)` followed by
the words 10 and 20. -/
theorem C2_Increasing_dispatch_witness :
    idlePusher.dma_state.method_count = 0 ∧
      CommandHeader.mode (mkHeader 1 2 3 7) = exampleModes.Increasing ∧
      [10, 20].length = CommandHeader.method_count (mkHeader 1 2 3 7) ∧
      (DmaPusher.StepLoop exampleModes (mkHeader 1 2 3 7 :: [10, 20]) idlePusher).2 =
        [⟨7, 10, 3, 2⟩, ⟨8, 20, 3, 1⟩] :=
  ⟨by decide, by decide, by decide,
    (C2_Increasing_dispatch exampleModes idlePusher (mkHeader 1 2 3 7) [10, 20]
      (by decide) (by decide) (by decide)).1.trans (by decide)⟩

/-- C3: a header in mode `NonIncreasing` with method `m`, subchannel `s` and count `n`, read
while no command is active and followed by `n` argument words, makes the decode loop of
`DmaPusher::Step` dispatch exactly `n` calls, in order: the call for the argument at
position `i` (counted from 0) has method `m`, that argument, subchannel `s` and remaining
count `n - i`; afterwards the sequence is complete and the method is still `m`. -/
theorem C3_NonIncreasing_dispatch (enc : SubmissionMode) (hd : enc.Distinct) (p : DmaPusher)
    (header : Nat) (args : List Nat) (hidle : p.dma_state.method_count = 0)
    (hmode : CommandHeader.mode header = enc.NonIncreasing)
    (hlen : args.length = CommandHeader.method_count header) :
    (DmaPusher.StepLoop enc (header :: args) p).2 =
        (args.enum.map fun ia =>
          { method := CommandHeader.method header
            argument := CommandHeader.argument ia.2
            subchannel := CommandHeader.subchannel header
            method_count := CommandHeader.method_count header - ia.1 }) ∧
      (DmaPusher.StepLoop enc (header :: args) p).2.length = CommandHeader.method_count header ∧
      (DmaPusher.StepLoop enc (header :: args) p).1.dma_state.method_count = 0 ∧
      (DmaPusher.StepLoop enc (header :: args) p).1.dma_state.method =
        CommandHeader.method header := by
  have hw := StepWord_NonIncreasing enc hd p header hidle hmode
  have hle : args.length ≤ (p.StepWord enc header).1.dma_state.method_count := by
    rw [hw]; exact le_of_eq hlen
  have hcalls := StepLoop_data_calls enc args _ hle
  obtain ⟨h1, h2, -, -, -⟩ := StepLoop_data enc args _ hle
  obtain ⟨h3, -⟩ := StepLoop_data_final enc args _ hle
  rw [StepLoop_cons]
  refine ⟨?_, ?_, ?_, ?_⟩
  · rw [hcalls, hw]
    simp only [List.nil_append, if_true]
  · rw [hw] at h1 ⊢
    simp only [List.nil_append]
    rw [h1, hlen]
  · rw [h2, hw]
    show CommandHeader.method_count header - args.length = 0
    omega
  · rw [h3, hw]
    simp only [if_true]

/-- C3 at `NonIncreasing = 3`: header `(mode 3, count 2, subchannel 3, method 7)` followed
by the words 10 and 20. -/
theorem C3_NonIncreasing_dispatch_witness :
    exampleModes.Distinct ∧ idlePusher.dma_state.method_count = 0 ∧
      CommandHeader.mode (mkHeader 3 2 3 7) = exampleModes.NonIncreasing ∧
      [10, 20].length = CommandHeader.method_count (mkHeader 3 2 3 7) ∧
      (DmaPusher.StepLoop exampleModes (mkHeader 3 2 3 7 :: [10, 20]) idlePusher).2 =
        [⟨7, 10, 3, 2⟩, ⟨7, 20, 3, 1⟩] :=
  ⟨by decide, by decide, by decide, by decide,
    (C3_NonIncreasing_dispatch exampleModes (by decide) idlePusher (mkHeader 3 2 3 7) [10, 20]
      (by decide) (by decide) (by decide)).1.trans (by decide)⟩

/-- C4: a header in mode `IncreaseOnce` with method `m`, subchannel `s` and count `n ≥ 1`,
read while no command is active and followed by `n` argument words, makes the decode loop
of `DmaPusher::Step` dispatch exactly `n` calls: the first has method `m`, every later one
has method `m + 1`; afterwards the sequence is complete and the method is `m + 1`. -/
theorem C4_IncreaseOnce_dispatch (enc : SubmissionMode) (hd : enc.Distinct) (p : DmaPusher)
    (header : Nat) (args : List Nat) (hidle : p.dma_state.method_count = 0)
    (hmode : CommandHeader.mode header = enc.IncreaseOnce)
    (hlen : args.length = CommandHeader.method_count header)
    (hpos : 1 ≤ CommandHeader.method_count header) :
    (DmaPusher.StepLoop enc (header :: args) p).2 =
        (args.enum.map fun ia =>
          { method :=
              if ia.1 = 0 then CommandHeader.method header
              else CommandHeader.method header + 1
            argument := CommandHeader.argument ia.2
            subchannel := CommandHeader.subchannel header
            method_count := CommandHeader.method_count header - ia.1 }) ∧
      (DmaPusher.StepLoop enc (header :: args) p).2.length = CommandHeader.method_count header ∧
      (DmaPusher.StepLoop enc (header :: args) p).1.dma_state.method_count = 0 ∧
      (DmaPusher.StepLoop enc (header :: args) p).1.dma_state.method =
        CommandHeader.method header + 1 := by
  have hw := StepWord_IncreaseOnce enc hd p header hidle hmode
  have hle : args.length ≤ (p.StepWord enc header).1.dma_state.method_count := by
    rw [hw]; exact le_of_eq hlen
  have hcalls := StepLoop_data_calls enc args _ hle
  obtain ⟨h1, h2, -, -, -⟩ := StepLoop_data enc args _ hle
  obtain ⟨h3, -⟩ := StepLoop_data_final enc args _ hle
  have hm := CommandHeader.method_lt header
  have hmod : (CommandHeader.method header + 1) % 2 ^ 32 = CommandHeader.method header + 1 :=
    Nat.mod_eq_of_lt (by omega)
  rw [StepLoop_cons]
  refine ⟨?_, ?_, ?_, ?_⟩
  · rw [hcalls, hw]
    simp only [List.nil_append, Bool.false_eq_true, if_false, if_true, hmod]
  · rw [hw] at h1 ⊢
    simp only [List.nil_append]
    rw [h1, hlen]
  · rw [h2, hw]
    show CommandHeader.method_count header - args.length = 0
    omega
  · rw [h3, hw]
    have hl : ¬ (args.length = 0) := by omega
    simp only [Bool.false_eq_true, if_false, if_true, hl, hmod]

/-- C4 at `IncreaseOnce = 5`: header `(mode 5, count 3, subchannel 2, method 7)` followed by
the words 10, 20 and 30. -/
theorem C4_IncreaseOnce_dispatch_witness :
    exampleModes.Distinct ∧ idlePusher.dma_state.method_count = 0 ∧
      CommandHeader.mode (mkHeader 5 3 2 7) = exampleModes.IncreaseOnce ∧
      [10, 20, 30].length = CommandHeader.method_count (mkHeader 5 3 2 7) ∧
      1 ≤ CommandHeader.method_count (mkHeader 5 3 2 7) ∧
      (DmaPusher.StepLoop exampleModes (mkHeader 5 3 2 7 :: [10, 20, 30]) idlePusher).2 =
        [⟨7, 10, 2, 3⟩, ⟨8, 20, 2, 2⟩, ⟨8, 30, 2, 1⟩] :=
  ⟨by decide, by decide, by decide, by decide, by decide,
    (C4_IncreaseOnce_dispatch exampleModes (by decide) idlePusher (mkHeader 5 3 2 7)
      [10, 20, 30] (by decide) (by decide) (by decide) (by decide)).1.trans (by decide)⟩

/-- C5: a header in mode `Inline`, read while no command is active, makes the decode loop of
`DmaPusher::Step` dispatch exactly one call for it, with the header's method and
subchannel, the header's 13-bit count field (bits 16..28) as argument and remaining count
0; `method_count` stays 0, so the words after it are decoded from an idle decoder: the
next word is a header again and none is taken as an argument of the inline call. -/
theorem C5_Inline_single_call (enc : SubmissionMode) (hd : enc.Distinct) (p : DmaPusher)
    (header : Nat) (rest : List Nat) (hidle : p.dma_state.method_count = 0)
    (hmode : CommandHeader.mode header = enc.Inline) :
    (p.StepWord enc header).2 =
        [{ method := header % 2 ^ 13
           argument := header / 2 ^ 16 % 2 ^ 13
           subchannel := header / 2 ^ 13 % 2 ^ 3
           method_count := 0 }] ∧
      (p.StepWord enc header).1.dma_state.method_count = 0 ∧
      (p.StepWord enc header).1.dma_state.method = header % 2 ^ 13 ∧
      (p.StepWord enc header).1.dma_state.subchannel = header / 2 ^ 13 % 2 ^ 3 ∧
      (DmaPusher.StepLoop enc (header :: rest) p).2 =
        (p.StepWord enc header).2 ++
          (DmaPusher.StepLoop enc rest (p.StepWord enc header).1).2 ∧
      (DmaPusher.StepLoop enc (header :: rest) p).1 =
        (DmaPusher.StepLoop enc rest (p.StepWord enc header).1).1 := by
  have hw := StepWord_Inline enc hd p header hidle hmode
  refine ⟨?_, ?_, ?_, ?_, ?_, ?_⟩
  · rw [hw, hidle]; rfl
  · rw [hw]; exact hidle
  · rw [hw]; rfl
  · rw [hw]; rfl
  · rw [StepLoop_cons]
  · rw [StepLoop_cons]

/-- C5 at `Inline = 4`: the inline header `(mode 4, count field 9, subchannel 3, method 7)`
followed by an `Increasing` header with one argument. -/
theorem C5_Inline_single_call_witness :
    exampleModes.Distinct ∧ idlePusher.dma_state.method_count = 0 ∧
      CommandHeader.mode (mkHeader 4 9 3 7) = exampleModes.Inline ∧
      (DmaPusher.StepLoop exampleModes (mkHeader 4 9 3 7 :: [mkHeader 1 1 0 5, 11])
          idlePusher).2 = [⟨7, 9, 3, 0⟩, ⟨5, 11, 0, 1⟩] :=
  ⟨by decide, by decide, by decide,
    (C5_Inline_single_call exampleModes (by decide) idlePusher (mkHeader 4 9 3 7)
      [mkHeader 1 1 0 5, 11] (by decide) (by decide)).2.2.2.2.1.trans (by decide)⟩

/-- C6: while `method_count > 0`, the next word, whatever its bits, is dispatched as the
32-bit argument of the current method and is not read as a header: one call with the
current method, subchannel and count; the subchannel is unchanged, the method changes
only by the increment rule, and `method_count` goes down by exactly one. -/
theorem C6_mid_sequence_word_is_argument (enc : SubmissionMode) (p : DmaPusher) (word : Nat)
    (hmid : 0 < p.dma_state.method_count) :
    (p.StepWord enc word).2 =
        [{ method := p.dma_state.method
           argument := word % 2 ^ 32
           subchannel := p.dma_state.subchannel
           method_count := p.dma_state.method_count }] ∧
      (p.StepWord enc word).1.dma_state.subchannel = p.dma_state.subchannel ∧
      (p.StepWord enc word).1.dma_state.method =
        (if p.dma_state.non_incrementing = true then p.dma_state.method
          else (p.dma_state.method + 1) % 2 ^ 32) ∧
      (p.StepWord enc word).1.dma_state.method_count + 1 = p.dma_state.method_count := by
  have hw := StepWord_data enc p word (by omega)
  refine ⟨?_, ?_, ?_, ?_⟩
  · rw [hw]; rfl
  · rw [hw]
  · rw [hw]
  · rw [hw]
    show p.dma_state.method_count - 1 + 1 = p.dma_state.method_count
    omega

/-- C6 at a decoder with two arguments still to come (method 7, subchannel 3,
non-incrementing): a word whose bits are those of an `Increasing` header is dispatched
as an argument, and one argument is left. -/
theorem C6_mid_sequence_word_is_argument_witness :
    0 < (pusherWith [] 0 midState).dma_state.method_count ∧
      ((pusherWith [] 0 midState).StepWord exampleModes (mkHeader 1 2 0 9)).2 =
        [⟨7, mkHeader 1 2 0 9, 3, 2⟩] ∧
      ((pusherWith [] 0 midState).StepWord exampleModes (mkHeader 1 2 0 9)).1.dma_state =
        { method := 7, subchannel := 3, method_count := 1, non_incrementing := true } :=
  ⟨by decide,
    (C6_mid_sequence_word_is_argument exampleModes (pusherWith [] 0 midState)
      (mkHeader 1 2 0 9) (by decide)).1.trans (by decide),
    by decide⟩

/-- C7: the decoder state carries over from one word stream to the next, on every path by
which `Step` obtains its words. Walking `w1` and then, from the pusher so obtained, `w2`
dispatches the same calls and ends in the same pusher as walking `w1 ++ w2`. Two `Step`s
over two queued prefetched buffers `w1`, `w2` emit the same events and end in the same
decoder state (and the same queue) as one `Step` over the single buffer `w1 ++ w2` started
from the same decoder state. Two `Step`s over two descriptors whose blocks read as `w1` and
`w2` (both in one queue entry, or one in each of two entries) dispatch, between them, exactly
the calls of walking `w1 ++ w2` from the initial decoder state, the first `Step` dispatching
those of `w1` and handing on the decoder state reached at the end of `w1`; they end in that
walk's decoder state, which is also what one `Step` over a single descriptor whose block
reads as `w1 ++ w2` gives. -/
theorem C7_state_persists_across_streams (enc : SubmissionMode) (w1 w2 : List Nat)
    (p q : DmaPusher) (gpu1 gpu2 gpu : Gpu) (behind : List CommandList)
    (hp : p.ib_enable = true) (hq : q.ib_enable = true)
    (hs : q.dma_state = p.dma_state) (ho : q.dma_increment_once = p.dma_increment_once) :
    DmaPusher.StepLoop enc (w1 ++ w2) p =
        ((DmaPusher.StepLoop enc w2 (DmaPusher.StepLoop enc w1 p).1).1,
          (DmaPusher.StepLoop enc w1 p).2 ++
            (DmaPusher.StepLoop enc w2 (DmaPusher.StepLoop enc w1 p).1).2) ∧
      (p.dma_pushbuffer =
          { command_lists := [], prefetch_command_list := w1 } ::
            { command_lists := [], prefetch_command_list := w2 } :: behind →
        q.dma_pushbuffer =
          { command_lists := [], prefetch_command_list := w1 ++ w2 } :: behind →
        ∃ r1 r2 r, p.Step enc gpu1 = some r1 ∧ r1.pusher.Step enc gpu2 = some r2 ∧
          q.Step enc gpu = some r ∧ r1.more = true ∧ r2.more = true ∧ r.more = true ∧
          r1.events ++ r2.events = r.events ∧
          r2.pusher.dma_state = r.pusher.dma_state ∧
          r2.pusher.dma_increment_once = r.pusher.dma_increment_once ∧
          r2.pusher.dma_pushbuffer = r.pusher.dma_pushbuffer) ∧
      ∀ d1 d2 d : CommandListHeader,
        (p.dma_pushbuffer = { command_lists := [d1, d2], prefetch_command_list := [] } :: behind ∨
          p.dma_pushbuffer =
            { command_lists := [d1], prefetch_command_list := [] } ::
              { command_lists := [d2], prefetch_command_list := [] } :: behind) →
        p.dma_pushbuffer_subindex = 0 →
        q.dma_pushbuffer = { command_lists := [d], prefetch_command_list := [] } :: behind →
        q.dma_pushbuffer_subindex = 0 →
        gpu1.ReadWords d1.addr d1.size = w1 → gpu2.ReadWords d2.addr d2.size = w2 →
        gpu.ReadWords d.addr d.size = w1 ++ w2 →
        ∃ r1 r2 r, p.Step enc gpu1 = some r1 ∧ r1.pusher.Step enc gpu2 = some r2 ∧
          q.Step enc gpu = some r ∧ r1.more = true ∧ r2.more = true ∧ r.more = true ∧
          GpuEvent.calls r1.events = (DmaPusher.StepLoop enc w1 p).2 ∧
          r1.pusher.dma_state = (DmaPusher.StepLoop enc w1 p).1.dma_state ∧
          r1.pusher.dma_increment_once = (DmaPusher.StepLoop enc w1 p).1.dma_increment_once ∧
          GpuEvent.calls r2.events =
            (DmaPusher.StepLoop enc w2 (DmaPusher.StepLoop enc w1 p).1).2 ∧
          GpuEvent.calls r1.events ++ GpuEvent.calls r2.events =
            (DmaPusher.StepLoop enc (w1 ++ w2) p).2 ∧
          GpuEvent.calls r.events = (DmaPusher.StepLoop enc (w1 ++ w2) p).2 ∧
          r2.pusher.dma_state = (DmaPusher.StepLoop enc (w1 ++ w2) p).1.dma_state ∧
          r2.pusher.dma_increment_once =
            (DmaPusher.StepLoop enc (w1 ++ w2) p).1.dma_increment_once ∧
          r.pusher.dma_state = r2.pusher.dma_state ∧
          r.pusher.dma_increment_once = r2.pusher.dma_increment_once ∧
          r2.pusher.dma_pushbuffer = behind ∧ r2.pusher.dma_pushbuffer_subindex = 0 ∧
          r.pusher.dma_pushbuffer = behind ∧ r.pusher.dma_pushbuffer_subindex = 0 := by
  have happ := StepLoop_append enc w1 w2 p
  obtain ⟨k1, k2, k3⟩ := StepLoop_congr enc (w1 ++ w2) q p hs ho
  refine ⟨happ, ?_, ?_⟩
  · intro hpq hqq
    obtain ⟨r1, a1, a2, a3, a4, a5, a6, a7⟩ := Step_prefetch_only enc gpu1 p w1 _ hp hpq
    obtain ⟨r2, b1, b2, -, b4, b5, b6, b7⟩ := Step_prefetch_only enc gpu2 r1.pusher w2 _ a3 a4
    obtain ⟨r, c1, c2, -, c4, c5, c6, c7⟩ := Step_prefetch_only enc gpu q (w1 ++ w2) _ hq hqq
    obtain ⟨e1, e2, e3⟩ :=
      StepLoop_congr enc w2 r1.pusher (DmaPusher.StepLoop enc w1 p).1 a6 a7
    refine ⟨r1, r2, r, a1, b1, c1, a2, b2, c2, ?_, ?_, ?_, ?_⟩
    · rw [a5, b5, c5, k1, happ, e1, List.map_append]
    · rw [b6, c6, k2, happ, e2]
    · rw [b7, c7, k3, happ, e3]
    · rw [b4, c4]
  · intro d1 d2 d hpq hpc hqq hqc hw1 hw2 hw
    obtain ⟨r, c1, c2, -, -, cleave, -, -, ccalls, cstate, conce⟩ :=
      Step_descriptor_any enc gpu q _ behind d hq hqq rfl (by rw [hqc]; rfl)
    rw [hw] at ccalls cstate conce
    have cq := cleave (by rw [hqc]; rfl)
    -- the two `Step`s of `p`, whichever way the two descriptors are queued
    have two : ∃ r1 r2, p.Step enc gpu1 = some r1 ∧ r1.pusher.Step enc gpu2 = some r2 ∧
        r1.more = true ∧ r2.more = true ∧
        GpuEvent.calls r1.events = (DmaPusher.StepLoop enc w1 p).2 ∧
        r1.pusher.dma_state = (DmaPusher.StepLoop enc w1 p).1.dma_state ∧
        r1.pusher.dma_increment_once = (DmaPusher.StepLoop enc w1 p).1.dma_increment_once ∧
        GpuEvent.calls r2.events = (DmaPusher.StepLoop enc w2 r1.pusher).2 ∧
        r2.pusher.dma_state = (DmaPusher.StepLoop enc w2 r1.pusher).1.dma_state ∧
        r2.pusher.dma_increment_once =
          (DmaPusher.StepLoop enc w2 r1.pusher).1.dma_increment_once ∧
        r2.pusher.dma_pushbuffer = behind ∧ r2.pusher.dma_pushbuffer_subindex = 0 := by
      rcases hpq with hpq | hpq
      · obtain ⟨r1, a1, a2, a3, astay, -, -, -, acalls, astate, aonce⟩ :=
          Step_descriptor_any enc gpu1 p _ behind d1 hp hpq rfl (by rw [hpc]; rfl)
        rw [hw1] at acalls astate aonce
        obtain ⟨aq, ac⟩ := astay (by rw [hpc]; exact Nat.lt_succ_self 1)
        rw [hpc] at ac
        obtain ⟨r2, b1, b2, -, -, bleave, -, -, bcalls, bstate, bonce⟩ :=
          Step_descriptor_any enc gpu2 r1.pusher _ behind d2 a3 aq rfl (by rw [ac]; rfl)
        rw [hw2] at bcalls bstate bonce
        have bq := bleave (by rw [ac]; rfl)
        exact ⟨r1, r2, a1, b1, a2, b2, acalls, astate, aonce, bcalls, bstate, bonce, bq.1, bq.2⟩
      · obtain ⟨r1, a1, a2, a3, -, aleave, -, -, acalls, astate, aonce⟩ :=
          Step_descriptor_any enc gpu1 p _ _ d1 hp hpq rfl (by rw [hpc]; rfl)
        rw [hw1] at acalls astate aonce
        obtain ⟨aq, ac⟩ := aleave (by rw [hpc]; rfl)
        obtain ⟨r2, b1, b2, -, -, bleave, -, -, bcalls, bstate, bonce⟩ :=
          Step_descriptor_any enc gpu2 r1.pusher _ behind d2 a3 aq rfl (by rw [ac]; rfl)
        rw [hw2] at bcalls bstate bonce
        have bq := bleave (by rw [ac]; rfl)
        exact ⟨r1, r2, a1, b1, a2, b2, acalls, astate, aonce, bcalls, bstate, bonce, bq.1, bq.2⟩
    obtain ⟨r1, r2, a1, b1, a2, b2, acalls, astate, aonce, bcalls, bstate, bonce, bq, bc⟩ := two
    obtain ⟨e1, e2, e3⟩ :=
      StepLoop_congr enc w2 r1.pusher (DmaPusher.StepLoop enc w1 p).1 astate aonce
    have s2 : r2.pusher.dma_state = (DmaPusher.StepLoop enc (w1 ++ w2) p).1.dma_state := by
      rw [bstate, happ, e2]
    have o2 : r2.pusher.dma_increment_once =
        (DmaPusher.StepLoop enc (w1 ++ w2) p).1.dma_increment_once := by
      rw [bonce, happ, e3]
    refine ⟨r1, r2, r, a1, b1, c1, a2, b2, c2, acalls, astate, aonce, ?_, ?_, ?_, s2, o2,
      ?_, ?_, bq, bc, cq.1, cq.2⟩
    · rw [bcalls, e1]
    · rw [acalls, bcalls, e1, happ]
    · rw [ccalls, k1]
    · rw [cstate, k2, s2]
    · rw [conce, k3, o2]

/-- C7 on `exampleGpu`. (a) Two prefetched buffers `[header]` and `[10, 20]`, where `header`
opens an `Increasing` sequence of two arguments that the second buffer completes. (b) One
queue entry with the descriptors `(4096, 1)` and `(4100, 1)`: the block of the first holds
the header of a one-argument `Increasing` sequence for method 5 and that of the second its
argument 77, so the first `Step` dispatches nothing and the second dispatches the call. -/
theorem C7_state_persists_across_streams_witness :
    ((DmaPusher.StepLoop exampleModes ([mkHeader 1 2 3 7] ++ [10, 20])
        (pusherWith [⟨[], [mkHeader 1 2 3 7]⟩, ⟨[], [10, 20]⟩] 0 idleState)).2 =
        [⟨7, 10, 3, 2⟩, ⟨8, 20, 3, 1⟩] ∧
      ∃ r1 r2 r,
        DmaPusher.Step exampleModes exampleGpu
            (pusherWith [⟨[], [mkHeader 1 2 3 7]⟩, ⟨[], [10, 20]⟩] 0 idleState) = some r1 ∧
        r1.pusher.Step exampleModes exampleGpu = some r2 ∧
        DmaPusher.Step exampleModes exampleGpu
            (pusherWith [⟨[], [mkHeader 1 2 3 7] ++ [10, 20]⟩] 0 idleState) = some r ∧
        r1.events ++ r2.events = r.events ∧
        r2.pusher.dma_state = r.pusher.dma_state) ∧
      ∃ r1 r2 r,
        DmaPusher.Step exampleModes exampleGpu
            (pusherWith [⟨[⟨4096, 1⟩, ⟨4100, 1⟩], []⟩] 0 idleState) = some r1 ∧
        r1.pusher.Step exampleModes exampleGpu = some r2 ∧
        DmaPusher.Step exampleModes exampleGpu
            (pusherWith [⟨[⟨4096, 2⟩], []⟩] 0 idleState) = some r ∧
        GpuEvent.calls r1.events = [] ∧
        r1.pusher.dma_state.method_count = 1 ∧
        GpuEvent.calls r2.events = [⟨5, 77, 0, 1⟩] ∧
        GpuEvent.calls r1.events ++ GpuEvent.calls r2.events = [⟨5, 77, 0, 1⟩] ∧
        GpuEvent.calls r.events = [⟨5, 77, 0, 1⟩] ∧
        r.pusher.dma_state = r2.pusher.dma_state ∧
        r2.pusher.dma_pushbuffer = [] :=
  have h := C7_state_persists_across_streams exampleModes [mkHeader 1 2 3 7] [10, 20]
    (pusherWith [⟨[], [mkHeader 1 2 3 7]⟩, ⟨[], [10, 20]⟩] 0 idleState)
    (pusherWith [⟨[], [mkHeader 1 2 3 7] ++ [10, 20]⟩] 0 idleState)
    exampleGpu exampleGpu exampleGpu [] rfl rfl rfl rfl
  have g := (C7_state_persists_across_streams exampleModes [mkHeader 1 1 0 5] [77]
    (pusherWith [⟨[⟨4096, 1⟩, ⟨4100, 1⟩], []⟩] 0 idleState)
    (pusherWith [⟨[⟨4096, 2⟩], []⟩] 0 idleState)
    exampleGpu exampleGpu exampleGpu [] rfl rfl rfl rfl).2.2
    ⟨4096, 1⟩ ⟨4100, 1⟩ ⟨4096, 2⟩ (Or.inl rfl) rfl rfl rfl (by decide) (by decide) (by decide)
  ⟨⟨(congrArg Prod.snd h.1).trans (by decide),
      (h.2.1 rfl rfl).elim fun r1 h1 => h1.elim fun r2 h2 => h2.elim fun r h3 =>
        ⟨r1, r2, r, h3.1, h3.2.1, h3.2.2.1, h3.2.2.2.2.2.2.1, h3.2.2.2.2.2.2.2.1⟩⟩,
    g.elim fun r1 g1 => g1.elim fun r2 g2 => g2.elim fun r g3 =>
      match g3 with
      | ⟨a1, b1, c1, _, _, _, acalls, astate, _, bcalls, both, ccalls, _, _, cs, _, bq, _, _, _⟩ =>
        ⟨r1, r2, r, a1, b1, c1, acalls.trans (by decide),
          (congrArg DmaState.method_count astate).trans (by decide),
          bcalls.trans (by decide), both.trans (by decide), ccalls.trans (by decide), cs, bq⟩⟩

/-- C8: with fetching enabled and a front entry that has neither descriptors nor
prefetched words, `DmaPusher::Step` returns true, pops that entry, sets the cursor to 0,
emits no event, and changes nothing else: the decoder state is as before and the entries
behind the front one are the queue, in their order. -/
theorem C8_empty_entry_dropped (enc : SubmissionMode) (gpu : Gpu) (p : DmaPusher)
    (front : CommandList) (behind : List CommandList) (hib : p.ib_enable = true)
    (hq : p.dma_pushbuffer = front :: behind) (hc : front.command_lists = [])
    (hp : front.prefetch_command_list = []) :
    p.Step enc gpu =
      some { more := true
             pusher := { p with dma_pushbuffer := behind, dma_pushbuffer_subindex := 0 }
             events := [] } :=
  Step_empty_entry enc gpu p front behind hib hq hc hp

/-- C8 on a queue whose front entry is empty and is followed by a prefetched entry; the
cursor is 1 and the decoder is in the middle of a sequence beforehand. -/
theorem C8_empty_entry_dropped_witness :
    DmaPusher.Step exampleModes exampleGpu
        (pusherWith [⟨[], []⟩, ⟨[], [10, 20]⟩] 1 midState) =
      some { more := true
             pusher := pusherWith [⟨[], [10, 20]⟩] 0 midState
             events := [] } :=
  C8_empty_entry_dropped exampleModes exampleGpu
    (pusherWith [⟨[], []⟩, ⟨[], [10, 20]⟩] 1 midState) ⟨[], []⟩ [⟨[], [10, 20]⟩] rfl rfl rfl rfl

/-- C9: when the descriptor under the cursor has size zero, `DmaPusher::Step` returns
true and emits no event (no memory read, no call); the decoder state is unchanged; the
cursor has moved past the descriptor, or, if it was the last of its entry, the entry is
popped and the cursor is 0. -/
theorem C9_zero_size_descriptor (enc : SubmissionMode) (gpu : Gpu) (p : DmaPusher)
    (front : CommandList) (behind : List CommandList) (d : CommandListHeader)
    (hib : p.ib_enable = true) (hq : p.dma_pushbuffer = front :: behind)
    (hp : front.prefetch_command_list = [])
    (hd : front.command_lists[p.dma_pushbuffer_subindex]? = some d) (hz : d.size = 0) :
    ∃ r, p.Step enc gpu = some r ∧ r.more = true ∧ r.events = [] ∧
      r.pusher.dma_state = p.dma_state ∧
      r.pusher.dma_increment_once = p.dma_increment_once ∧
      (p.dma_pushbuffer_subindex + 1 < front.command_lists.length →
        r.pusher.dma_pushbuffer = front :: behind ∧
        r.pusher.dma_pushbuffer_subindex = p.dma_pushbuffer_subindex + 1) ∧
      (p.dma_pushbuffer_subindex + 1 = front.command_lists.length →
        r.pusher.dma_pushbuffer = behind ∧ r.pusher.dma_pushbuffer_subindex = 0) := by
  refine ⟨_, Step_descriptor_zero enc gpu p front behind d hib hq hp hd hz, rfl, rfl, ?_, ?_,
    ?_, ?_⟩
  · simp only
    split_ifs <;> rfl
  · simp only
    split_ifs <;> rfl
  · intro h
    have : ¬ (p.dma_pushbuffer_subindex + 1 ≥ front.command_lists.length) := by omega
    simp only [this, if_false, hq, and_self]
  · intro h
    have : p.dma_pushbuffer_subindex + 1 ≥ front.command_lists.length := by omega
    simp only [this, if_true, and_self]

/-- C9 on an entry of two descriptors whose first has size zero, met in the middle of a
sequence: the cursor moves to 1, the entry stays, the decoder state is untouched. -/
theorem C9_zero_size_descriptor_witness :
    ∃ r,
      DmaPusher.Step exampleModes exampleGpu
          (pusherWith [⟨[⟨4096, 0⟩, ⟨4096, 2⟩], []⟩] 0 midState) = some r ∧
      r.more = true ∧ r.events = [] ∧ r.pusher.dma_state = midState ∧
      r.pusher.dma_pushbuffer = [⟨[⟨4096, 0⟩, ⟨4096, 2⟩], []⟩] ∧
      r.pusher.dma_pushbuffer_subindex = 1 :=
  have h := C9_zero_size_descriptor exampleModes exampleGpu
    (pusherWith [⟨[⟨4096, 0⟩, ⟨4096, 2⟩], []⟩] 0 midState)
    ⟨[⟨4096, 0⟩, ⟨4096, 2⟩], []⟩ [] ⟨4096, 0⟩ rfl rfl rfl rfl rfl
  h.elim fun r hr =>
    ⟨r, hr.1, hr.2.1, hr.2.2.1, hr.2.2.2.1, (hr.2.2.2.2.2.1 (by decide)).1,
      (hr.2.2.2.2.2.1 (by decide)).2⟩

/-- C10: a front entry with `k ≥ 1` descriptors and no prefetched words, met with cursor 0,
is consumed one descriptor per `Step`, in order. After `i < k` calls (whatever the
collaborators were at each call) the entry is still at the front and the cursor is `i`;
call `i + 1` returns true, reads exactly descriptor `i` (nothing if its size is zero) and
walks the words read; it leaves the entry at the front with cursor `i + 1` when
`i + 1 < k`, and pops it with cursor 0 when `i + 1 = k`. A front entry with a non-empty
prefetched buffer is popped by one `Step`, whose calls are those of walking that buffer. -/
theorem C10_entry_consumed_in_order (enc : SubmissionMode) (p : DmaPusher)
    (front : CommandList) (behind : List CommandList) (hib : p.ib_enable = true)
    (hq : p.dma_pushbuffer = front :: behind) :
    (front.prefetch_command_list = [] → p.dma_pushbuffer_subindex = 0 →
      ∀ (gpus : List Gpu) (gpu : Gpu) (hi : gpus.length < front.command_lists.length),
        ∃ q r, DmaPusher.Steps enc gpus p = some q ∧
          q.dma_pushbuffer = front :: behind ∧ q.dma_pushbuffer_subindex = gpus.length ∧
          q.Step enc gpu = some r ∧ r.more = true ∧
          GpuEvent.reads r.events =
            (if front.command_lists[gpus.length].size = 0 then []
              else [(front.command_lists[gpus.length].addr,
                front.command_lists[gpus.length].size * 4)]) ∧
          GpuEvent.calls r.events =
            (DmaPusher.StepLoop enc
              (gpu.ReadWords front.command_lists[gpus.length].addr
                front.command_lists[gpus.length].size) q).2 ∧
          (gpus.length + 1 < front.command_lists.length →
            r.pusher.dma_pushbuffer = front :: behind ∧
            r.pusher.dma_pushbuffer_subindex = gpus.length + 1) ∧
          (gpus.length + 1 = front.command_lists.length →
            r.pusher.dma_pushbuffer = behind ∧ r.pusher.dma_pushbuffer_subindex = 0)) ∧
    (front.prefetch_command_list ≠ [] →
      ∀ gpu : Gpu, ∃ r, p.Step enc gpu = some r ∧ r.more = true ∧
        r.pusher.dma_pushbuffer = behind ∧
        r.pusher.command_headers = front.prefetch_command_list ∧
        r.events =
          (DmaPusher.StepLoop enc front.prefetch_command_list p).2.map GpuEvent.CallMethod) := by
  constructor
  · intro hp hcur gpus gpu hi
    obtain ⟨q, hq1, hq2, hq3, hq4⟩ :=
      Steps_within_entry enc front behind hp gpus p hib hq (by omega)
    have hq5 : q.dma_pushbuffer_subindex = gpus.length := by omega
    have hin : q.dma_pushbuffer_subindex < front.command_lists.length := by omega
    have hget : front.command_lists[q.dma_pushbuffer_subindex]? =
        some front.command_lists[gpus.length] := by
      rw [hq5]; exact List.getElem?_eq_getElem hi
    obtain ⟨r, hr, hmore, -, hstay, hleave, hreads, -, hcalls, -, -⟩ :=
      Step_descriptor_any enc gpu q front behind _ hq2 hq3 hp hget
    rw [hq5] at hstay hleave
    exact ⟨q, r, hq1, hq3, hq5, hr, hmore, hreads, hcalls, hstay, hleave⟩
  · intro hp gpu
    have hc := StepLoop_congr enc front.prefetch_command_list
      { p with command_headers := front.prefetch_command_list, dma_pushbuffer := behind } p
      rfl rfl
    have hf := StepLoop_frame enc front.prefetch_command_list
      { p with command_headers := front.prefetch_command_list, dma_pushbuffer := behind }
    refine ⟨_, Step_prefetch enc gpu p front behind hib hq hp, rfl, hf.2.1, hf.2.2.2, ?_⟩
    simp only [hc.1]

/-- C10 on an entry of two descriptors, the first covering the two words at address 4096,
the second of size zero, followed by a prefetched entry: after one `Step` the entry is
still at the front with cursor 1, and the second `Step` pops it without reading; and on a
front entry holding one prefetched `Inline` header. -/
theorem C10_entry_consumed_in_order_witness :
    (∃ q r,
      DmaPusher.Steps exampleModes [exampleGpu]
          (pusherWith [⟨[⟨4096, 2⟩, ⟨5000, 0⟩], []⟩, ⟨[], [10]⟩] 0 idleState) = some q ∧
      q.dma_pushbuffer = [⟨[⟨4096, 2⟩, ⟨5000, 0⟩], []⟩, ⟨[], [10]⟩] ∧
      q.dma_pushbuffer_subindex = 1 ∧
      q.Step exampleModes exampleGpu = some r ∧ r.more = true ∧
      GpuEvent.reads r.events = [] ∧
      r.pusher.dma_pushbuffer = [⟨[], [10]⟩] ∧ r.pusher.dma_pushbuffer_subindex = 0) ∧
    (∃ r,
      DmaPusher.Step exampleModes exampleGpu
          (pusherWith [⟨[], [mkHeader 4 9 3 7]⟩, ⟨[], [10]⟩] 0 idleState) = some r ∧
      r.more = true ∧ r.pusher.dma_pushbuffer = [⟨[], [10]⟩] ∧
      r.events = [GpuEvent.CallMethod ⟨7, 9, 3, 0⟩]) :=
  have h := (C10_entry_consumed_in_order exampleModes
    (pusherWith [⟨[⟨4096, 2⟩, ⟨5000, 0⟩], []⟩, ⟨[], [10]⟩] 0 idleState)
    ⟨[⟨4096, 2⟩, ⟨5000, 0⟩], []⟩ [⟨[], [10]⟩] rfl rfl).1 rfl rfl [exampleGpu] exampleGpu
    (by decide)
  have h2 := (C10_entry_consumed_in_order exampleModes
    (pusherWith [⟨[], [mkHeader 4 9 3 7]⟩, ⟨[], [10]⟩] 0 idleState)
    ⟨[], [mkHeader 4 9 3 7]⟩ [⟨[], [10]⟩] rfl rfl).2 (by decide) exampleGpu
  ⟨h.elim fun q hq => hq.elim fun r hr =>
      ⟨q, r, hr.1, hr.2.1, hr.2.2.1, hr.2.2.2.1, hr.2.2.2.2.1, hr.2.2.2.2.2.1,
        (hr.2.2.2.2.2.2.2.2 (by decide)).1, (hr.2.2.2.2.2.2.2.2 (by decide)).2⟩,
    h2.elim fun r hr => ⟨r, hr.1, hr.2.1, hr.2.2.1, hr.2.2.2.2.trans (by decide)⟩⟩

/-! ## The loop of `DispatchCalls` -/

theorem stepsLeft_of_cursor_zero (p : DmaPusher) (h : p.dma_pushbuffer_subindex = 0) :
    p.stepsLeft = (p.dma_pushbuffer.map CommandList.stepsNeeded).sum := by
  unfold DmaPusher.stepsLeft
  cases hq : p.dma_pushbuffer with
  | nil => simp
  | cons front behind => simp [h]

/-- With the cursor in order and a non-empty queue, `Step` returns true, keeps the cursor
in order and takes exactly one step off what is left. -/
theorem Step_progress (enc : SubmissionMode) (gpu : Gpu) (p : DmaPusher)
    (front : CommandList) (behind : List CommandList) (hib : p.ib_enable = true)
    (hq : p.dma_pushbuffer = front :: behind) (hc : p.CursorOk) :
    ∃ r, p.Step enc gpu = some r ∧ r.more = true ∧ r.pusher.ib_enable = true ∧
      r.pusher.CursorOk ∧ r.pusher.stepsLeft + 1 = p.stepsLeft ∧
      (r.pusher.dma_pushbuffer = p.dma_pushbuffer ∨
        (r.pusher.dma_pushbuffer = behind ∧ r.pusher.dma_pushbuffer_subindex = 0)) := by
  have hleft : p.stepsLeft =
      (front.stepsNeeded - p.dma_pushbuffer_subindex) +
        (behind.map CommandList.stepsNeeded).sum := by
    simp only [DmaPusher.stepsLeft, hq]
  by_cases hp : front.prefetch_command_list = []
  · by_cases hcl : front.command_lists = []
    · have hcur : p.dma_pushbuffer_subindex = 0 := by
        rcases hc with h0 | ⟨f, b, hfb, -, hlt⟩
        · exact h0
        · rw [hq] at hfb
          cases hfb
          simp [hcl] at hlt
      have hneed : front.stepsNeeded = 1 := by
        simp [CommandList.stepsNeeded, hp, hcl]
      refine ⟨_, Step_empty_entry enc gpu p front behind hib hq hcl hp, rfl, hib, Or.inl rfl,
        ?_, Or.inr ⟨rfl, rfl⟩⟩
      rw [stepsLeft_of_cursor_zero _ rfl, hleft, hneed, hcur]
      simp only
      omega
    · have hlen : 0 < front.command_lists.length := List.length_pos.2 hcl
      have hlt : p.dma_pushbuffer_subindex < front.command_lists.length := by
        rcases hc with h0 | ⟨f, b, hfb, -, hlt⟩
        · omega
        · rw [hq] at hfb
          cases hfb
          exact hlt
      have hneed : front.stepsNeeded = front.command_lists.length := by
        have : front.command_lists.length ≠ 0 := by omega
        simp [CommandList.stepsNeeded, hp, this]
      obtain ⟨r, hr, hmore, hrib, hstay, hleave, -, -, -, -, -⟩ :=
        Step_descriptor_any enc gpu p front behind _ hib hq hp (List.getElem?_eq_getElem hlt)
      refine ⟨r, hr, hmore, hrib, ?_, ?_, ?_⟩
      · by_cases hlast : p.dma_pushbuffer_subindex + 1 < front.command_lists.length
        · obtain ⟨h1, h2⟩ := hstay hlast
          exact Or.inr ⟨front, behind, h1, hp, by omega⟩
        · exact Or.inl (hleave (by omega)).2
      · by_cases hlast : p.dma_pushbuffer_subindex + 1 < front.command_lists.length
        · obtain ⟨h1, h2⟩ := hstay hlast
          have : r.pusher.stepsLeft =
              (front.stepsNeeded - r.pusher.dma_pushbuffer_subindex) +
                (behind.map CommandList.stepsNeeded).sum := by
            simp only [DmaPusher.stepsLeft, h1]
          rw [this, hleft, hneed, h2]
          omega
        · obtain ⟨h1, h2⟩ := hleave (by omega)
          rw [stepsLeft_of_cursor_zero _ h2, hleft, hneed, h1]
          omega
      · by_cases hlast : p.dma_pushbuffer_subindex + 1 < front.command_lists.length
        · exact Or.inl ((hstay hlast).1.trans hq.symm)
        · exact Or.inr (hleave (by omega))
  · have hcur : p.dma_pushbuffer_subindex = 0 := by
      rcases hc with h0 | ⟨f, b, hfb, hpf, -⟩
      · exact h0
      · rw [hq] at hfb
        cases hfb
        exact absurd hpf hp
    have hneed : front.stepsNeeded = 1 := by
      simp [CommandList.stepsNeeded, hp]
    have hf := StepLoop_frame enc front.prefetch_command_list
      { p with command_headers := front.prefetch_command_list, dma_pushbuffer := behind }
    refine ⟨_, Step_prefetch enc gpu p front behind hib hq hp, rfl, hf.1.trans hib,
      Or.inl (hf.2.2.1.trans hcur), ?_, Or.inr ⟨hf.2.1, hf.2.2.1.trans hcur⟩⟩
    have h1 := stepsLeft_of_cursor_zero _ (hf.2.2.1.trans hcur)
    rw [hf.2.1] at h1
    rw [h1, hleft, hneed, hcur]
    simp only
    omega

/-- From a pusher with fetching enabled and the cursor in order, the loop ends as soon as
the fuel exceeds the steps left: the queue is then empty, the cursor is 0, and the number
of calls of `Step` that returned true is exactly the number of steps left. -/
theorem StepWhile_terminates (enc : SubmissionMode) (gpu : Nat → Gpu) :
    ∀ (n : Nat) (p : DmaPusher) (k fuel : Nat), p.ib_enable = true → p.CursorOk →
      p.stepsLeft = n → n < fuel →
      ∃ d, DmaPusher.StepWhile enc gpu fuel k p = some d ∧ d.pusher.dma_pushbuffer = [] ∧
        d.pusher.dma_pushbuffer_subindex = 0 ∧ d.steps = n ∧
        (p.dma_pushbuffer = [] → d.pusher = p ∧ d.events = []) := by
  intro n
  induction n with
  | zero =>
    intro p k fuel hib hc hn hfuel
    obtain ⟨fuel, rfl⟩ : ∃ f, fuel = f + 1 := ⟨fuel - 1, by omega⟩
    have hq : p.dma_pushbuffer = [] := by
      cases hq : p.dma_pushbuffer with
      | nil => rfl
      | cons front behind =>
        obtain ⟨r, -, -, -, -, hdec, -⟩ := Step_progress enc (gpu k) p front behind hib hq hc
        omega
    have hcur : p.dma_pushbuffer_subindex = 0 := by
      rcases hc with h0 | ⟨f, b, hfb, -, -⟩
      · exact h0
      · rw [hq] at hfb
        cases hfb
    refine ⟨{ pusher := p, events := [], steps := 0 }, ?_, hq, hcur, rfl,
      fun _ => ⟨rfl, rfl⟩⟩
    simp [DmaPusher.StepWhile, Step_idle enc (gpu k) p (Or.inr hq)]
  | succ n ih =>
    intro p k fuel hib hc hn hfuel
    obtain ⟨fuel, rfl⟩ : ∃ f, fuel = f + 1 := ⟨fuel - 1, by omega⟩
    cases hq : p.dma_pushbuffer with
    | nil =>
      simp [DmaPusher.stepsLeft, hq] at hn
    | cons front behind =>
      obtain ⟨r, hr, hmore, hrib, hrc, hdec, -⟩ :=
        Step_progress enc (gpu k) p front behind hib hq hc
      obtain ⟨d, hd, hd1, hd2, hd3, -⟩ :=
        ih r.pusher (k + 1) fuel hrib hrc (by omega) (by omega)
      refine ⟨{ pusher := d.pusher, events := r.events ++ d.events, steps := d.steps + 1 }, ?_,
        hd1, hd2, by simp only [hd3], fun h => by simp at h⟩
      simp [DmaPusher.StepWhile, hr, hmore, hd]

/-- C11: with fetching enabled, `DmaPusher::DispatchCalls` terminates on every finite queue,
whatever the entries (empty ones and zero-size descriptors included) and whatever guest
memory holds at each call of `Step`: as soon as the fuel exceeds the number of steps the
queue needs (one per descriptor, one per prefetched buffer, one per empty entry) the loop
ends because `Step` returned false, with the queue empty and the cursor 0, after exactly
that many calls that returned true. Each such call takes exactly one step off what is left
(it moves the cursor by one descriptor or pops the front entry). On an empty queue the only
events are the notification and the flush: no method call is dispatched. -/
theorem C11_DispatchCalls_terminates (enc : SubmissionMode) (gpu : Nat → Gpu) (p : DmaPusher)
    (fuel : Nat) (hib : p.ib_enable = true)
    (hfuel : (p.dma_pushbuffer.map CommandList.stepsNeeded).sum < fuel) :
    (∃ d, p.DispatchCalls enc gpu fuel = some d ∧ d.pusher.dma_pushbuffer = [] ∧
      d.pusher.dma_pushbuffer_subindex = 0 ∧
      d.steps = (p.dma_pushbuffer.map CommandList.stepsNeeded).sum ∧
      (p.dma_pushbuffer = [] →
        d.events = [GpuEvent.OnMemoryWrite, GpuEvent.FlushCommands])) ∧
    (∀ (q : DmaPusher) (g : Gpu) (front : CommandList) (behind : List CommandList),
      q.ib_enable = true → q.CursorOk → q.dma_pushbuffer = front :: behind →
      ∃ r, q.Step enc g = some r ∧ r.more = true ∧ r.pusher.CursorOk ∧
        r.pusher.stepsLeft + 1 = q.stepsLeft ∧
        (r.pusher.dma_pushbuffer = front :: behind ∨
          (r.pusher.dma_pushbuffer = behind ∧ r.pusher.dma_pushbuffer_subindex = 0))) := by
  constructor
  · have hleft := stepsLeft_of_cursor_zero { p with dma_pushbuffer_subindex := 0 } rfl
    obtain ⟨d, hd, h1, h2, h3, h4⟩ :=
      StepWhile_terminates enc gpu _ { p with dma_pushbuffer_subindex := 0 } 0 fuel hib
        (Or.inl rfl) rfl (by rw [hleft]; exact hfuel)
    refine ⟨{ pusher := d.pusher
              events := GpuEvent.OnMemoryWrite :: (d.events ++ [GpuEvent.FlushCommands])
              steps := d.steps }, ?_, h1, h2, ?_, ?_⟩
    · simp only [DmaPusher.DispatchCalls, hd]
    · simp only [h3, hleft]
    · intro hq
      obtain ⟨-, hev⟩ := h4 hq
      simp only [hev, List.nil_append]
  · intro q g front behind hqib hqc hqq
    obtain ⟨r, hr, hmore, -, hrc, hdec, hpop⟩ := Step_progress enc g q front behind hqib hqq hqc
    refine ⟨r, hr, hmore, hrc, hdec, ?_⟩
    rcases hpop with h | h
    · exact Or.inl (h.trans hqq)
    · exact Or.inr h

/-- C11 on a queue of an empty entry, an entry of two descriptors (the second of size zero)
and a prefetched `Inline` header, started with a stale cursor: four calls of `Step` return
true, the two words at address 4096 and the prefetched header are decoded, and the queue
is empty with cursor 0 at the end. -/
theorem C11_DispatchCalls_terminates_witness :
    (([⟨[], []⟩, ⟨[⟨4096, 2⟩, ⟨5000, 0⟩], []⟩, ⟨[], [mkHeader 4 9 3 7]⟩] : List CommandList).map
        CommandList.stepsNeeded).sum < 5 ∧
      ∃ d,
        DmaPusher.DispatchCalls exampleModes (fun _ => exampleGpu) 5
            (pusherWith [⟨[], []⟩, ⟨[⟨4096, 2⟩, ⟨5000, 0⟩], []⟩, ⟨[], [mkHeader 4 9 3 7]⟩] 3
              idleState) = some d ∧
        d.pusher.dma_pushbuffer = [] ∧ d.pusher.dma_pushbuffer_subindex = 0 ∧ d.steps = 4 ∧
        GpuEvent.calls d.events = [⟨5, 77, 0, 1⟩, ⟨7, 9, 3, 0⟩] :=
  have h := (C11_DispatchCalls_terminates exampleModes (fun _ => exampleGpu)
    (pusherWith [⟨[], []⟩, ⟨[⟨4096, 2⟩, ⟨5000, 0⟩], []⟩, ⟨[], [mkHeader 4 9 3 7]⟩] 3 idleState)
    5 rfl (by decide)).1
  ⟨by decide, h.elim fun d hd =>
    ⟨d, hd.1, hd.2.1, hd.2.2.1, hd.2.2.2.1.trans (by decide),
      (congrArg (fun o => (o.map fun x => GpuEvent.calls x.events))
        hd.1).symm.trans (by decide) |> Option.some.inj⟩⟩

/-! ## Reserved modes and the cursor -/

/-- `Step` keeps the cursor in order, and leaves the cursor at 0 when it removes the front
entry. -/
theorem Step_keeps_CursorOk (enc : SubmissionMode) (gpu : Gpu) (p : DmaPusher)
    (hc : p.CursorOk) :
    ∃ r, p.Step enc gpu = some r ∧ r.pusher.ib_enable = p.ib_enable ∧ r.pusher.CursorOk ∧
      (∀ front behind, p.dma_pushbuffer = front :: behind →
        r.pusher.dma_pushbuffer = behind → r.pusher.dma_pushbuffer_subindex = 0) := by
  by_cases hib : p.ib_enable = false
  · refine ⟨_, Step_idle enc gpu p (Or.inl hib), rfl, hc, ?_⟩
    intro front behind hq hb
    exact absurd (hq.symm.trans hb) (List.cons_ne_self front behind)
  · have hib1 : p.ib_enable = true := by simpa using hib
    cases hq : p.dma_pushbuffer with
    | nil =>
      refine ⟨_, Step_idle enc gpu p (Or.inr hq), rfl, hc, ?_⟩
      intro front behind hq' _
      cases hq'
    | cons front behind =>
      obtain ⟨r, hr, -, hrib, hrc, -, hpop⟩ := Step_progress enc gpu p front behind hib1 hq hc
      refine ⟨r, hr, hrib.trans hib1.symm, hrc, ?_⟩
      intro front' behind' hq' hb
      cases hq'
      rcases hpop with h | h
      · exact absurd ((h.trans hq).symm.trans hb) (List.cons_ne_self front behind)
      · exact h.2

/-- Any number of calls of `Step` from a pusher whose cursor is in order: no call reads
out of range and the cursor is in order afterwards. -/
theorem Steps_keep_CursorOk (enc : SubmissionMode) :
    ∀ (gpus : List Gpu) (p : DmaPusher), p.CursorOk →
      ∃ q, DmaPusher.Steps enc gpus p = some q ∧ q.CursorOk := by
  intro gpus
  induction gpus with
  | nil => intro p hc; exact ⟨p, rfl, hc⟩
  | cons gpu later ih =>
    intro p hc
    obtain ⟨r, hr, -, hrc, -⟩ := Step_keeps_CursorOk enc gpu p hc
    obtain ⟨q, hq, hqc⟩ := ih r.pusher hrc
    exact ⟨q, by simp only [DmaPusher.Steps, hr, hq], hqc⟩

/-- C27: a word read as a header (no command active) whose mode is none of `Increasing`,
`NonIncreasing`, `Inline` and `IncreaseOnce` is skipped by the decode loop of
`DmaPusher::Step`: no call is dispatched for it, the pusher (decoder state and
increase-once flag included) is exactly as before, and the loop goes on with the next
word from that same state. -/
theorem C27_reserved_mode_ignored (enc : SubmissionMode) (p : DmaPusher) (header : Nat)
    (rest : List Nat) (hidle : p.dma_state.method_count = 0)
    (h1 : CommandHeader.mode header ≠ enc.Increasing)
    (h2 : CommandHeader.mode header ≠ enc.NonIncreasing)
    (h3 : CommandHeader.mode header ≠ enc.Inline)
    (h4 : CommandHeader.mode header ≠ enc.IncreaseOnce) :
    p.StepWord enc header = (p, []) ∧
      DmaPusher.StepLoop enc (header :: rest) p = DmaPusher.StepLoop enc rest p := by
  have hw := StepWord_other enc p header hidle h1 h2 h3 h4
  refine ⟨hw, ?_⟩
  rw [StepLoop_cons, hw]
  rfl

/-- C27 on a header with mode 0 (with `Increasing = 1`, `NonIncreasing = 3`, `Inline = 4`,
`IncreaseOnce = 5`), followed by an `Inline` header: only the inline call is dispatched. -/
theorem C27_reserved_mode_ignored_witness :
    (idlePusher.dma_state.method_count = 0 ∧
      CommandHeader.mode (mkHeader 0 5 3 7) ≠ exampleModes.Increasing ∧
      CommandHeader.mode (mkHeader 0 5 3 7) ≠ exampleModes.NonIncreasing ∧
      CommandHeader.mode (mkHeader 0 5 3 7) ≠ exampleModes.Inline ∧
      CommandHeader.mode (mkHeader 0 5 3 7) ≠ exampleModes.IncreaseOnce) ∧
    idlePusher.StepWord exampleModes (mkHeader 0 5 3 7) = (idlePusher, []) ∧
    (DmaPusher.StepLoop exampleModes (mkHeader 0 5 3 7 :: [mkHeader 4 9 3 7]) idlePusher).2 =
      [⟨7, 9, 3, 0⟩] :=
  have h := C27_reserved_mode_ignored exampleModes idlePusher (mkHeader 0 5 3 7)
    [mkHeader 4 9 3 7] (by decide) (by decide) (by decide) (by decide) (by decide)
  ⟨⟨by decide, by decide, by decide, by decide, by decide⟩, h.1,
    (congrArg Prod.snd h.2).trans (by decide)⟩

/-- C28: in a run of `DmaPusher::DispatchCalls`, which starts by setting the cursor to 0,
after any number of calls of `Step` (whatever guest memory holds at each call) no call has
read `command_lists` out of range and the cursor is 0 or smaller than the number of
descriptors of the front entry, which then has no prefetched words. So when the next
`Step` takes a descriptor of the front entry, the cursor is within its descriptors; that
`Step` keeps the cursor in order, and leaves it at 0 if it removes the front entry, also
when the entry is a prefetched buffer. -/
theorem C28_cursor_in_bounds (enc : SubmissionMode) (p : DmaPusher) (gpus : List Gpu)
    (gpu : Gpu) :
    ∃ q r, DmaPusher.Steps enc gpus { p with dma_pushbuffer_subindex := 0 } = some q ∧
      q.Step enc gpu = some r ∧
      (q.dma_pushbuffer_subindex = 0 ∨
        ∃ front behind, q.dma_pushbuffer = front :: behind ∧
          front.prefetch_command_list = [] ∧
          q.dma_pushbuffer_subindex < front.command_lists.length) ∧
      (∀ front behind, q.dma_pushbuffer = front :: behind →
        front.prefetch_command_list = [] → front.command_lists ≠ [] →
        q.dma_pushbuffer_subindex < front.command_lists.length) ∧
      (r.pusher.dma_pushbuffer_subindex = 0 ∨
        ∃ front behind, r.pusher.dma_pushbuffer = front :: behind ∧
          front.prefetch_command_list = [] ∧
          r.pusher.dma_pushbuffer_subindex < front.command_lists.length) ∧
      (∀ front behind, q.dma_pushbuffer = front :: behind →
        r.pusher.dma_pushbuffer = behind → r.pusher.dma_pushbuffer_subindex = 0) := by
  obtain ⟨q, hq, hqc⟩ :=
    Steps_keep_CursorOk enc gpus { p with dma_pushbuffer_subindex := 0 } (Or.inl rfl)
  obtain ⟨r, hr, -, hrc, hpop⟩ := Step_keeps_CursorOk enc gpu q hqc
  refine ⟨q, r, hq, hr, hqc, ?_, hrc, hpop⟩
  intro front behind hfq _ hne
  rcases hqc with h0 | ⟨f, b, hfb, -, hlt⟩
  · rw [h0]; exact List.length_pos.2 hne
  · rw [hfq] at hfb
    cases hfb
    exact hlt

/-- C28 on a queue of an entry with two descriptors followed by a prefetched buffer,
started with a stale cursor 7: after one `Step` the cursor is 1, inside the front entry;
after three the queue is empty and the cursor is 0. -/
theorem C28_cursor_in_bounds_witness :
    (∃ q r,
      DmaPusher.Steps exampleModes [exampleGpu]
          { pusherWith [⟨[⟨4096, 2⟩, ⟨5000, 0⟩], []⟩, ⟨[], [mkHeader 4 9 3 7]⟩] 7 idleState with
            dma_pushbuffer_subindex := 0 } = some q ∧
      q.Step exampleModes exampleGpu = some r ∧
      (∀ front behind, q.dma_pushbuffer = front :: behind →
        front.prefetch_command_list = [] → front.command_lists ≠ [] →
        q.dma_pushbuffer_subindex < front.command_lists.length)) ∧
    (DmaPusher.Steps exampleModes [exampleGpu]
        { pusherWith [⟨[⟨4096, 2⟩, ⟨5000, 0⟩], []⟩, ⟨[], [mkHeader 4 9 3 7]⟩] 7 idleState with
          dma_pushbuffer_subindex := 0 }).map
        (fun q => (q.dma_pushbuffer.length, q.dma_pushbuffer_subindex)) = some (2, 1) ∧
    (DmaPusher.Steps exampleModes [exampleGpu, exampleGpu, exampleGpu]
        { pusherWith [⟨[⟨4096, 2⟩, ⟨5000, 0⟩], []⟩, ⟨[], [mkHeader 4 9 3 7]⟩] 7 idleState with
          dma_pushbuffer_subindex := 0 }).map
        (fun q => (q.dma_pushbuffer, q.dma_pushbuffer_subindex)) = some ([], 0) :=
  have h := C28_cursor_in_bounds exampleModes
    (pusherWith [⟨[⟨4096, 2⟩, ⟨5000, 0⟩], []⟩, ⟨[], [mkHeader 4 9 3 7]⟩] 7 idleState)
    [exampleGpu] exampleGpu
  ⟨h.elim fun q hq => hq.elim fun r hr => ⟨q, r, hr.1, hr.2.1, hr.2.2.2.1⟩,
    by decide, by decide⟩

end Tegra

namespace Service.Nvidia.Devices

/-! ## Requests on the event slots -/

/-- A wait with identifiers in range on a syncpoint that is already expired for the
requested threshold. -/
theorem wait_expired (lim : Limits) (gpu : GPU) (ctrl : nvhost_ctrl)
    (input : IocCtrlEventWaitParams) (is_async : Bool)
    (h1 : input.syncpt_id < lim.MaxSyncPoints) (h2 : input.value &&& 0x00FF < lim.MaxNvEvents)
    (h3 : ctrl.syncpoint_manager.IsSyncpointExpired input.syncpt_id input.threshold = true) :
    ctrl.IocCtrlEventWait lim gpu input is_async =
      { result := NvResult.Success
        ctrl := ctrl.setFailed (input.value &&& 0x00FF) false
        output :=
          some { input with value := ctrl.syncpoint_manager.GetSyncpointMin input.syncpt_id }
        effects := [] } := by
  have h1' : ¬ (lim.MaxSyncPoints ≤ input.syncpt_id) := by omega
  have h2' : ¬ (lim.MaxNvEvents ≤ input.value &&& 0x00FF) := by omega
  simp [nvhost_ctrl.IocCtrlEventWait, h1', h2', h3]

/-- A pending wait on a device that runs synchronously. -/
theorem wait_sync (lim : Limits) (gpu : GPU) (ctrl : nvhost_ctrl)
    (input : IocCtrlEventWaitParams) (is_async : Bool)
    (h : nvhost_ctrl.StillPending lim gpu ctrl input) (hs : gpu.IsAsync = false) :
    ctrl.IocCtrlEventWait lim gpu input is_async =
      { result := NvResult.Success
        ctrl :=
          { ctrl with
            syncpoint_manager :=
              (ctrl.syncpoint_manager.RefreshSyncpoint input.syncpt_id gpu).1 }
        output := none
        effects :=
          [Effect.RefreshSyncpoint input.syncpt_id,
            Effect.SignalEvent (input.value &&& 0x00FF)] } := by
  obtain ⟨h1, h2, h3, h4⟩ := h
  have h1' : ¬ (lim.MaxSyncPoints ≤ input.syncpt_id) := by omega
  have h2' : ¬ (lim.MaxNvEvents ≤ input.value &&& 0x00FF) := by omega
  simp [nvhost_ctrl.IocCtrlEventWait, h1', h2', h3, h4, hs]

/-- A pending wait on an asynchronous device whose slot fence value has reached the
threshold. -/
theorem wait_fence_reached (lim : Limits) (gpu : GPU) (ctrl : nvhost_ctrl)
    (input : IocCtrlEventWaitParams) (is_async : Bool)
    (h : nvhost_ctrl.StillPending lim gpu ctrl input) (ha : gpu.IsAsync = true)
    (hd : 0 ≤ nvhost_ctrl.diff
      ((ctrl.events_interface.events (input.value &&& 0x00FF)).value % 2 ^ 32)
      input.threshold) :
    ctrl.IocCtrlEventWait lim gpu input is_async =
      { result := NvResult.Success
        ctrl :=
          nvhost_ctrl.setFailed
            { ctrl with
              syncpoint_manager :=
                (ctrl.syncpoint_manager.RefreshSyncpoint input.syncpt_id gpu).1 }
            (input.value &&& 0x00FF) false
        output :=
          some { input with
            value := (ctrl.events_interface.events (input.value &&& 0x00FF)).value % 2 ^ 32 }
        effects :=
          [Effect.RefreshSyncpoint input.syncpt_id,
            Effect.SignalEvent (input.value &&& 0x00FF)] } := by
  obtain ⟨h1, h2, h3, h4⟩ := h
  have h1' : ¬ (lim.MaxSyncPoints ≤ input.syncpt_id) := by omega
  have h2' : ¬ (lim.MaxNvEvents ≤ input.value &&& 0x00FF) := by omega
  have hd' := hd
  norm_num at hd'
  simp [nvhost_ctrl.IocCtrlEventWait, h1', h2', h3, h4, ha, hd']

/-- A pending poll (`timeout == 0`) on an asynchronous device whose slot fence value is
short of the threshold. -/
theorem wait_poll (lim : Limits) (gpu : GPU) (ctrl : nvhost_ctrl)
    (input : IocCtrlEventWaitParams) (is_async : Bool)
    (h : nvhost_ctrl.StillPending lim gpu ctrl input) (ha : gpu.IsAsync = true)
    (hd : nvhost_ctrl.diff
      ((ctrl.events_interface.events (input.value &&& 0x00FF)).value % 2 ^ 32)
      input.threshold < 0)
    (ht : input.timeout = 0) :
    ctrl.IocCtrlEventWait lim gpu input is_async =
      { result := NvResult.Timeout
        ctrl :=
          { ctrl with
            syncpoint_manager :=
              (ctrl.syncpoint_manager.RefreshSyncpoint input.syncpt_id gpu).1 }
        output := some (if is_async = false then { input with value := 0 } else input)
        effects := [Effect.RefreshSyncpoint input.syncpt_id] } := by
  obtain ⟨h1, h2, h3, h4⟩ := h
  have h1' : ¬ (lim.MaxSyncPoints ≤ input.syncpt_id) := by omega
  have h2' : ¬ (lim.MaxNvEvents ≤ input.value &&& 0x00FF) := by omega
  have hd' := hd
  norm_num at hd'
  cases is_async <;>
    simp [nvhost_ctrl.IocCtrlEventWait, h1', h2', h3, h4, ha, hd', ht]

/-- A wait that reaches the parking step on a slot that is neither `Free` nor
`Registered`. -/
theorem wait_bad_status (lim : Limits) (gpu : GPU) (ctrl : nvhost_ctrl)
    (input : IocCtrlEventWaitParams) (is_async : Bool)
    (h : nvhost_ctrl.ReachesParking lim gpu ctrl input)
    (hf : ctrl.events_interface.status (input.value &&& 0x00FF) ≠ EventState.Free)
    (hr : ctrl.events_interface.status (input.value &&& 0x00FF) ≠ EventState.Registered) :
    ctrl.IocCtrlEventWait lim gpu input is_async =
      { result := NvResult.BadParameter
        ctrl :=
          { ctrl with
            syncpoint_manager :=
              (ctrl.syncpoint_manager.RefreshSyncpoint input.syncpt_id gpu).1 }
        output := some (if is_async = false then { input with value := 0 } else input)
        effects := [Effect.RefreshSyncpoint input.syncpt_id] } := by
  obtain ⟨⟨h1, h2, h3, h4⟩, ha, hd, ht⟩ := h
  have h1' : ¬ (lim.MaxSyncPoints ≤ input.syncpt_id) := by omega
  have h2' : ¬ (lim.MaxNvEvents ≤ input.value &&& 0x00FF) := by omega
  have hd' := hd
  norm_num at hd'
  cases is_async <;>
    simp [nvhost_ctrl.IocCtrlEventWait, h1', h2', h3, h4, ha, hd', ht, hf, hr]

theorem setAt_same {α : Type} (f : Nat → α) (i : Nat) (v : α) : setAt f i v i = v := by
  simp [setAt]

theorem setAt_other {α : Type} (f : Nat → α) (i j : Nat) (v : α) (h : j ≠ i) :
    setAt f i v j = f j := by
  simp [setAt, h]

/-- The target value is the threshold, whatever the current value: on 32-bit values
`current - (s32)(current - threshold) = threshold`. -/
theorem target_value_eq (current threshold : Nat) :
    nvhost_ctrl.target_value current threshold = threshold % 2 ^ 32 := by
  unfold nvhost_ctrl.target_value nvhost_ctrl.diff s32 u32sub
  split_ifs <;> omega

/-- A wait that reaches the parking step on a slot that is `Free` or `Registered`: the slot
is set to `Waiting` with the request's syncpoint and the target value, and the outcome
depends on the slot's failure flag. -/
theorem wait_parked (lim : Limits) (gpu : GPU) (ctrl : nvhost_ctrl)
    (input : IocCtrlEventWaitParams) (is_async : Bool)
    (h : nvhost_ctrl.ReachesParking lim gpu ctrl input)
    (hst : ctrl.events_interface.status (input.value &&& 0x00FF) = EventState.Free ∨
      ctrl.events_interface.status (input.value &&& 0x00FF) = EventState.Registered) :
    (ctrl.IocCtrlEventWait lim gpu input is_async).result =
        (if ctrl.events_interface.failed (input.value &&& 0x00FF) = true then NvResult.Success
          else NvResult.Timeout) ∧
      (ctrl.IocCtrlEventWait lim gpu input is_async).effects =
        [Effect.RefreshSyncpoint input.syncpt_id, Effect.ClearEvent (input.value &&& 0x00FF),
          if ctrl.events_interface.failed (input.value &&& 0x00FF) = true then
            Effect.WaitFence input.syncpt_id
              (nvhost_ctrl.target_value
                ((ctrl.events_interface.events (input.value &&& 0x00FF)).value % 2 ^ 32)
                input.threshold)
          else
            Effect.RegisterSyncptInterrupt input.syncpt_id
              (nvhost_ctrl.target_value
                ((ctrl.events_interface.events (input.value &&& 0x00FF)).value % 2 ^ 32)
                input.threshold)] ∧
      (ctrl.IocCtrlEventWait lim gpu input is_async).ctrl =
        { events_interface :=
            { events := ctrl.events_interface.events
              status :=
                setAt ctrl.events_interface.status (input.value &&& 0x00FF) EventState.Waiting
              registered := ctrl.events_interface.registered
              failed :=
                if ctrl.events_interface.failed (input.value &&& 0x00FF) = true then
                  setAt ctrl.events_interface.failed (input.value &&& 0x00FF) false
                else ctrl.events_interface.failed
              assigned_syncpt :=
                setAt ctrl.events_interface.assigned_syncpt (input.value &&& 0x00FF)
                  input.syncpt_id
              assigned_value :=
                setAt ctrl.events_interface.assigned_value (input.value &&& 0x00FF)
                  (nvhost_ctrl.target_value
                    ((ctrl.events_interface.events (input.value &&& 0x00FF)).value % 2 ^ 32)
                    input.threshold) }
          syncpoint_manager :=
            (ctrl.syncpoint_manager.RefreshSyncpoint input.syncpt_id gpu).1 } ∧
      (ctrl.IocCtrlEventWait lim gpu input is_async).output =
        some
          { input with
            value :=
              (if is_async = true then (input.syncpt_id <<< 4) % 2 ^ 32
                else ((input.syncpt_id &&& 0xfff) <<< 16) ||| 0x10000000) |||
                (input.value &&& 0x00FF) } := by
  obtain ⟨⟨h1, h2, h3, h4⟩, ha, hd, ht⟩ := h
  have h1' : ¬ (lim.MaxSyncPoints ≤ input.syncpt_id) := by omega
  have h2' : ¬ (lim.MaxNvEvents ≤ input.value &&& 0x00FF) := by omega
  have hd' := hd
  norm_num at hd'
  have hbad : ¬ (ctrl.events_interface.status (input.value &&& 255) ≠ EventState.Free ∧
      ctrl.events_interface.status (input.value &&& 255) ≠ EventState.Registered) := by
    rcases hst with h | h <;> simp [h]
  have hnd := not_le.2 hd'
  cases hfl : ctrl.events_interface.failed (input.value &&& 255) <;> cases is_async <;>
    simp [nvhost_ctrl.IocCtrlEventWait, h1', h2', h3, h4, ha, hnd, ht, hbad, hfl,
      EventInterface.SetEventStatus, nvhost_ctrl.setFailed]

/-- C12: `IocCtrlEventWait` rejects bad identifiers without changing anything. A syncpoint
id at or above `MaxSyncPoints` gives `BadParameter` with the state as before, no effect
(in particular no refresh) and the output not written. With the syncpoint id in range, an
event id (`value & 0xFF`) at or above `MaxNvEvents` gives `BadParameter` with the state as
before, no effect, and the request copied to the output unchanged. -/
theorem C12_wait_rejects_bad_ids (lim : Limits) (gpu : GPU) (ctrl : nvhost_ctrl)
    (input : IocCtrlEventWaitParams) (is_async : Bool) :
    (lim.MaxSyncPoints ≤ input.syncpt_id →
      ctrl.IocCtrlEventWait lim gpu input is_async =
        { result := NvResult.BadParameter, ctrl := ctrl, output := none, effects := [] }) ∧
    (input.syncpt_id < lim.MaxSyncPoints → lim.MaxNvEvents ≤ input.value &&& 0x00FF →
      ctrl.IocCtrlEventWait lim gpu input is_async =
        { result := NvResult.BadParameter, ctrl := ctrl, output := some input,
          effects := [] }) := by
  constructor
  · intro h
    simp [nvhost_ctrl.IocCtrlEventWait, h]
  · intro h1 h2
    have h1' : ¬ (lim.MaxSyncPoints ≤ input.syncpt_id) := by omega
    simp [nvhost_ctrl.IocCtrlEventWait, h1', h2]

/-- C12 at `MaxSyncPoints = 192`, `MaxNvEvents = 64`: syncpoint id 192 is rejected with the
output untouched; syncpoint id 0 with event id 64 is rejected with the request echoed. -/
theorem C12_wait_rejects_bad_ids_witness :
    (exampleLimits.MaxSyncPoints ≤ 192 ∧
      (exampleCtrl 5 5 EventState.Registered true false).IocCtrlEventWait exampleLimits
          (exampleDevice true 5) ⟨192, 10, 1000, 3⟩ false =
        { result := NvResult.BadParameter
          ctrl := exampleCtrl 5 5 EventState.Registered true false
          output := none, effects := [] }) ∧
    (0 < exampleLimits.MaxSyncPoints ∧ exampleLimits.MaxNvEvents ≤ 64 &&& 0x00FF ∧
      (exampleCtrl 5 5 EventState.Registered true false).IocCtrlEventWait exampleLimits
          (exampleDevice true 5) ⟨0, 10, 1000, 64⟩ false =
        { result := NvResult.BadParameter
          ctrl := exampleCtrl 5 5 EventState.Registered true false
          output := some ⟨0, 10, 1000, 64⟩, effects := [] }) :=
  ⟨⟨by decide,
      (C12_wait_rejects_bad_ids exampleLimits (exampleDevice true 5)
        (exampleCtrl 5 5 EventState.Registered true false) ⟨192, 10, 1000, 3⟩ false).1
        (by decide)⟩,
    ⟨by decide, by decide,
      (C12_wait_rejects_bad_ids exampleLimits (exampleDevice true 5)
        (exampleCtrl 5 5 EventState.Registered true false) ⟨0, 10, 1000, 64⟩ false).2
        (by decide) (by decide)⟩⟩

/-- C13: with both identifiers in range and the syncpoint already expired for the
requested threshold, `IocCtrlEventWait` returns `Success` at once (no effect, no refresh),
writes the request to the output with `value` replaced by the syncpoint's current value,
leaves the slot's failure flag false, and changes neither the state, the assigned syncpoint
nor the assigned value of any slot: the slot is not moved to `Waiting`. -/
theorem C13_expired_wait_succeeds (lim : Limits) (gpu : GPU) (ctrl : nvhost_ctrl)
    (input : IocCtrlEventWaitParams) (is_async : Bool)
    (h1 : input.syncpt_id < lim.MaxSyncPoints) (h2 : input.value &&& 0x00FF < lim.MaxNvEvents)
    (h3 : ctrl.syncpoint_manager.IsSyncpointExpired input.syncpt_id input.threshold = true) :
    (ctrl.IocCtrlEventWait lim gpu input is_async).result = NvResult.Success ∧
      (ctrl.IocCtrlEventWait lim gpu input is_async).output =
        some { input with value := ctrl.syncpoint_manager.syncpoints input.syncpt_id % 2 ^ 32 } ∧
      (ctrl.IocCtrlEventWait lim gpu input is_async).effects = [] ∧
      (ctrl.IocCtrlEventWait lim gpu input is_async).ctrl.events_interface.failed
        (input.value &&& 0x00FF) = false ∧
      (ctrl.IocCtrlEventWait lim gpu input is_async).ctrl.events_interface.status =
        ctrl.events_interface.status ∧
      (ctrl.IocCtrlEventWait lim gpu input is_async).ctrl.events_interface.assigned_syncpt =
        ctrl.events_interface.assigned_syncpt ∧
      (ctrl.IocCtrlEventWait lim gpu input is_async).ctrl.events_interface.assigned_value =
        ctrl.events_interface.assigned_value := by
  rw [wait_expired lim gpu ctrl input is_async h1 h2 h3]
  exact ⟨rfl, rfl, rfl, setAt_same _ _ _, rfl, rfl, rfl⟩

/-- C13 on the scenario of the spec: syncpoint 0 at value 10, threshold 10, timeout 1000,
event 3 `Registered` (failure flag set beforehand): `Success`, value 10, the slot is still
`Registered` and its flag is clear. -/
theorem C13_expired_wait_succeeds_witness :
    (0 < exampleLimits.MaxSyncPoints ∧ 3 &&& 0x00FF < exampleLimits.MaxNvEvents ∧
      (exampleCtrl 10 0 EventState.Registered true true).syncpoint_manager.IsSyncpointExpired
        0 10 = true) ∧
    ((exampleCtrl 10 0 EventState.Registered true true).IocCtrlEventWait exampleLimits
        (exampleDevice true 10) ⟨0, 10, 1000, 3⟩ false).result = NvResult.Success ∧
    ((exampleCtrl 10 0 EventState.Registered true true).IocCtrlEventWait exampleLimits
        (exampleDevice true 10) ⟨0, 10, 1000, 3⟩ false).output = some ⟨0, 10, 1000, 10⟩ ∧
    ((exampleCtrl 10 0 EventState.Registered true true).IocCtrlEventWait exampleLimits
        (exampleDevice true 10) ⟨0, 10, 1000, 3⟩ false).ctrl.events_interface.failed 3 = false ∧
    ((exampleCtrl 10 0 EventState.Registered true true).IocCtrlEventWait exampleLimits
        (exampleDevice true 10) ⟨0, 10, 1000, 3⟩ false).ctrl.events_interface.status 3 =
      EventState.Registered :=
  have h := C13_expired_wait_succeeds exampleLimits (exampleDevice true 10)
    (exampleCtrl 10 0 EventState.Registered true true) ⟨0, 10, 1000, 3⟩ false
    (by decide) (by decide) (by decide)
  ⟨⟨by decide, by decide, by decide⟩, h.1, h.2.1.trans (by decide), h.2.2.2.1,
    (congrFun h.2.2.2.2.1 3).trans rfl⟩

/-- C14, as stated, fails. A poll (`timeout = 0`) with identifiers in range on a syncpoint
that is not expired, before and after the refresh, returns `Success` and not `Timeout`
when the device runs synchronously (syncpoint value 5, threshold 10); and on an
asynchronous device it returns `Success` and clears the slot's failure flag when the
slot's fence value (20) has reached the threshold. -/
theorem C14_poll_counterexample :
    (nvhost_ctrl.StillPending exampleLimits (exampleDevice false 5)
        (exampleCtrl 5 5 EventState.Registered true false) ⟨0, 10, 0, 3⟩ ∧
      ((exampleCtrl 5 5 EventState.Registered true false).IocCtrlEventWait exampleLimits
        (exampleDevice false 5) ⟨0, 10, 0, 3⟩ false).result = NvResult.Success ∧
      ((exampleCtrl 5 5 EventState.Registered true false).IocCtrlEventWait exampleLimits
        (exampleDevice false 5) ⟨0, 10, 0, 3⟩ false).result ≠ NvResult.Timeout) ∧
    (nvhost_ctrl.StillPending exampleLimits (exampleDevice true 5)
        (exampleCtrl 5 20 EventState.Registered true true) ⟨0, 10, 0, 3⟩ ∧
      ((exampleCtrl 5 20 EventState.Registered true true).IocCtrlEventWait exampleLimits
        (exampleDevice true 5) ⟨0, 10, 0, 3⟩ false).result = NvResult.Success ∧
      (exampleCtrl 5 20 EventState.Registered true true).events_interface.failed 3 = true ∧
      ((exampleCtrl 5 20 EventState.Registered true true).IocCtrlEventWait exampleLimits
        (exampleDevice true 5) ⟨0, 10, 0, 3⟩ false).ctrl.events_interface.failed 3 = false) := by
  refine ⟨⟨by decide, by decide, by decide⟩, by decide, by decide, by decide, by decide⟩

/-- C14, amended: on a device that runs asynchronously, a poll (`timeout = 0`) with
identifiers in range, on a syncpoint that is not expired before and after the refresh and
whose slot fence value is short of the threshold, returns `Timeout` and leaves the event
slot table unchanged; the only effect is the refresh. -/
theorem C14_poll_times_out (lim : Limits) (gpu : GPU) (ctrl : nvhost_ctrl)
    (input : IocCtrlEventWaitParams) (is_async : Bool)
    (h : nvhost_ctrl.StillPending lim gpu ctrl input) (ha : gpu.IsAsync = true)
    (hd : nvhost_ctrl.diff
      ((ctrl.events_interface.events (input.value &&& 0x00FF)).value % 2 ^ 32)
      input.threshold < 0)
    (ht : input.timeout = 0) :
    (ctrl.IocCtrlEventWait lim gpu input is_async).result = NvResult.Timeout ∧
      (ctrl.IocCtrlEventWait lim gpu input is_async).ctrl.events_interface =
        ctrl.events_interface ∧
      (ctrl.IocCtrlEventWait lim gpu input is_async).effects =
        [Effect.RefreshSyncpoint input.syncpt_id] := by
  rw [wait_poll lim gpu ctrl input is_async h ha hd ht]
  exact ⟨rfl, rfl, rfl⟩

/-- C14, amended, at syncpoint 0 with value 5, threshold 10, fence value 5, event 3, on an
asynchronous device. -/
theorem C14_poll_times_out_witness :
    (nvhost_ctrl.StillPending exampleLimits (exampleDevice true 5)
        (exampleCtrl 5 5 EventState.Registered true true) ⟨0, 10, 0, 3⟩ ∧
      (exampleDevice true 5).IsAsync = true ∧
      nvhost_ctrl.diff
        (((exampleCtrl 5 5 EventState.Registered true true).events_interface.events
          (3 &&& 0x00FF)).value % 2 ^ 32) 10 < 0) ∧
    ((exampleCtrl 5 5 EventState.Registered true true).IocCtrlEventWait exampleLimits
      (exampleDevice true 5) ⟨0, 10, 0, 3⟩ false).result = NvResult.Timeout ∧
    ((exampleCtrl 5 5 EventState.Registered true true).IocCtrlEventWait exampleLimits
      (exampleDevice true 5) ⟨0, 10, 0, 3⟩ false).ctrl.events_interface =
      (exampleCtrl 5 5 EventState.Registered true true).events_interface :=
  have h := C14_poll_times_out exampleLimits (exampleDevice true 5)
    (exampleCtrl 5 5 EventState.Registered true true) ⟨0, 10, 0, 3⟩ false
    (by decide) (by decide) (by decide) (by decide)
  ⟨⟨by decide, by decide, by decide⟩, h.1, h.2.1⟩

/-- C15: a wait that reaches the parking step on a slot that is `Free` or `Registered` and
whose failure flag is clear returns `Timeout`; the slot is then `Waiting`, its assigned
syncpoint is the requested id and its assigned value is the requested threshold; the
interrupt is registered for exactly (syncpoint id, threshold), after the refresh and the
clearing of the slot's kernel event. The target value equals the threshold for every
current value and every 32-bit threshold. -/
theorem C15_parked_wait_records_threshold (lim : Limits) (gpu : GPU) (ctrl : nvhost_ctrl)
    (input : IocCtrlEventWaitParams) (is_async : Bool)
    (h : nvhost_ctrl.ReachesParking lim gpu ctrl input)
    (hst : ctrl.events_interface.status (input.value &&& 0x00FF) = EventState.Free ∨
      ctrl.events_interface.status (input.value &&& 0x00FF) = EventState.Registered)
    (hfl : ctrl.events_interface.failed (input.value &&& 0x00FF) = false)
    (hth : input.threshold < 2 ^ 32) :
    (ctrl.IocCtrlEventWait lim gpu input is_async).result = NvResult.Timeout ∧
      (ctrl.IocCtrlEventWait lim gpu input is_async).ctrl.events_interface.status
        (input.value &&& 0x00FF) = EventState.Waiting ∧
      (ctrl.IocCtrlEventWait lim gpu input is_async).ctrl.events_interface.assigned_syncpt
        (input.value &&& 0x00FF) = input.syncpt_id ∧
      (ctrl.IocCtrlEventWait lim gpu input is_async).ctrl.events_interface.assigned_value
        (input.value &&& 0x00FF) = input.threshold ∧
      (ctrl.IocCtrlEventWait lim gpu input is_async).effects =
        [Effect.RefreshSyncpoint input.syncpt_id, Effect.ClearEvent (input.value &&& 0x00FF),
          Effect.RegisterSyncptInterrupt input.syncpt_id input.threshold] ∧
      (∀ current threshold : Nat, threshold < 2 ^ 32 →
        nvhost_ctrl.target_value current threshold = threshold) := by
  obtain ⟨hres, heff, hctrl, -⟩ := wait_parked lim gpu ctrl input is_async h hst
  have htv : nvhost_ctrl.target_value
      ((ctrl.events_interface.events (input.value &&& 0x00FF)).value % 2 ^ 32)
      input.threshold = input.threshold := by
    rw [target_value_eq, Nat.mod_eq_of_lt hth]
  refine ⟨?_, ?_, ?_, ?_, ?_, ?_⟩
  · rw [hres]; simp [hfl]
  · rw [hctrl]; exact setAt_same _ _ _
  · rw [hctrl]; exact setAt_same _ _ _
  · rw [hctrl]; exact (setAt_same _ _ _).trans htv
  · rw [heff, htv]; simp [hfl]
  · intro current threshold hlt
    rw [target_value_eq, Nat.mod_eq_of_lt hlt]

/-- C15 on the scenario of the spec: syncpoint 0 at value 5, threshold 10, timeout 1000,
event 3 `Registered`, not async, on an asynchronous device: `Timeout`, the slot is
`Waiting` and the recorded target is 10. -/
theorem C15_parked_wait_records_threshold_witness :
    (nvhost_ctrl.ReachesParking exampleLimits (exampleDevice true 5)
        (exampleCtrl 5 5 EventState.Registered true false) ⟨0, 10, 1000, 3⟩ ∧
      (exampleCtrl 5 5 EventState.Registered true false).events_interface.failed
        (3 &&& 0x00FF) = false ∧ 10 < 2 ^ 32) ∧
    ((exampleCtrl 5 5 EventState.Registered true false).IocCtrlEventWait exampleLimits
      (exampleDevice true 5) ⟨0, 10, 1000, 3⟩ false).result = NvResult.Timeout ∧
    ((exampleCtrl 5 5 EventState.Registered true false).IocCtrlEventWait exampleLimits
      (exampleDevice true 5) ⟨0, 10, 1000, 3⟩ false).ctrl.events_interface.status 3 =
      EventState.Waiting ∧
    ((exampleCtrl 5 5 EventState.Registered true false).IocCtrlEventWait exampleLimits
      (exampleDevice true 5) ⟨0, 10, 1000, 3⟩ false).ctrl.events_interface.assigned_value 3 =
      10 ∧
    ((exampleCtrl 5 5 EventState.Registered true false).IocCtrlEventWait exampleLimits
      (exampleDevice true 5) ⟨0, 10, 1000, 3⟩ false).effects =
      [Effect.RefreshSyncpoint 0, Effect.ClearEvent 3, Effect.RegisterSyncptInterrupt 0 10] :=
  have h := C15_parked_wait_records_threshold exampleLimits (exampleDevice true 5)
    (exampleCtrl 5 5 EventState.Registered true false) ⟨0, 10, 1000, 3⟩ false
    (by decide) (Or.inr rfl) (by decide) (by decide)
  ⟨⟨by decide, by decide, by decide⟩, h.1, h.2.1, h.2.2.2.1, h.2.2.2.2.1⟩

/-- C16: a wait that reaches the parking step on a slot that is neither `Free` nor
`Registered` returns `BadParameter`; the event slot table is unchanged (state, assigned
syncpoint, assigned value and failure flag of every slot) and the only effect is the
refresh: no interrupt is registered. -/
theorem C16_double_wait_rejected (lim : Limits) (gpu : GPU) (ctrl : nvhost_ctrl)
    (input : IocCtrlEventWaitParams) (is_async : Bool)
    (h : nvhost_ctrl.ReachesParking lim gpu ctrl input)
    (hf : ctrl.events_interface.status (input.value &&& 0x00FF) ≠ EventState.Free)
    (hr : ctrl.events_interface.status (input.value &&& 0x00FF) ≠ EventState.Registered) :
    (ctrl.IocCtrlEventWait lim gpu input is_async).result = NvResult.BadParameter ∧
      (ctrl.IocCtrlEventWait lim gpu input is_async).ctrl.events_interface =
        ctrl.events_interface ∧
      (ctrl.IocCtrlEventWait lim gpu input is_async).effects =
        [Effect.RefreshSyncpoint input.syncpt_id] := by
  rw [wait_bad_status lim gpu ctrl input is_async h hf hr]
  exact ⟨rfl, rfl, rfl⟩

/-- C16 on a slot that is already `Waiting` (syncpoint 0 at value 5, threshold 10, timeout
1000, event 3). -/
theorem C16_double_wait_rejected_witness :
    (nvhost_ctrl.ReachesParking exampleLimits (exampleDevice true 5)
        (exampleCtrl 5 5 EventState.Waiting true false) ⟨0, 10, 1000, 3⟩ ∧
      (exampleCtrl 5 5 EventState.Waiting true false).events_interface.status (3 &&& 0x00FF) ≠
        EventState.Free ∧
      (exampleCtrl 5 5 EventState.Waiting true false).events_interface.status (3 &&& 0x00FF) ≠
        EventState.Registered) ∧
    ((exampleCtrl 5 5 EventState.Waiting true false).IocCtrlEventWait exampleLimits
      (exampleDevice true 5) ⟨0, 10, 1000, 3⟩ false).result = NvResult.BadParameter ∧
    ((exampleCtrl 5 5 EventState.Waiting true false).IocCtrlEventWait exampleLimits
      (exampleDevice true 5) ⟨0, 10, 1000, 3⟩ false).effects = [Effect.RefreshSyncpoint 0] :=
  have h := C16_double_wait_rejected exampleLimits (exampleDevice true 5)
    (exampleCtrl 5 5 EventState.Waiting true false) ⟨0, 10, 1000, 3⟩ false
    (by decide) (by decide) (by decide)
  ⟨⟨by decide, by decide, by decide⟩, h.1, h.2.2⟩

/-- C17: a wait that reaches the parking step on a slot that is `Free` or `Registered` and
whose failure flag is set returns `Success`; its effects are the refresh, the clearing of
the kernel event and `WaitFence`, so no interrupt is registered; the flag is false
afterwards. Hence after `IocCtrlClearEventWait` on an in-range slot the flag is set, and
every such wait on that slot from the state the clear left returns `Success` and leaves the
flag false. -/
theorem C17_cancelled_wait_succeeds (lim : Limits) (gpu : GPU) (ctrl : nvhost_ctrl)
    (input : IocCtrlEventWaitParams) (is_async : Bool) :
    (nvhost_ctrl.ReachesParking lim gpu ctrl input →
      (ctrl.events_interface.status (input.value &&& 0x00FF) = EventState.Free ∨
        ctrl.events_interface.status (input.value &&& 0x00FF) = EventState.Registered) →
      ctrl.events_interface.failed (input.value &&& 0x00FF) = true →
      (ctrl.IocCtrlEventWait lim gpu input is_async).result = NvResult.Success ∧
        (ctrl.IocCtrlEventWait lim gpu input is_async).effects =
          [Effect.RefreshSyncpoint input.syncpt_id, Effect.ClearEvent (input.value &&& 0x00FF),
            Effect.WaitFence input.syncpt_id
              (nvhost_ctrl.target_value
                ((ctrl.events_interface.events (input.value &&& 0x00FF)).value % 2 ^ 32)
                input.threshold)] ∧
        (ctrl.IocCtrlEventWait lim gpu input is_async).ctrl.events_interface.failed
          (input.value &&& 0x00FF) = false) ∧
    (∀ (gpu0 : GPU) (clear : IocCtrlEventSignalParams),
      clear.event_id &&& 0x00FF = input.value &&& 0x00FF →
      clear.event_id &&& 0x00FF < lim.MaxNvEvents →
      (ctrl.IocCtrlClearEventWait lim gpu0 clear).result = NvResult.Success ∧
        (ctrl.IocCtrlClearEventWait lim gpu0 clear).ctrl.events_interface.failed
          (input.value &&& 0x00FF) = true ∧
        (nvhost_ctrl.ReachesParking lim gpu (ctrl.IocCtrlClearEventWait lim gpu0 clear).ctrl
            input →
          ((ctrl.IocCtrlClearEventWait lim gpu0 clear).ctrl.events_interface.status
              (input.value &&& 0x00FF) = EventState.Free ∨
            (ctrl.IocCtrlClearEventWait lim gpu0 clear).ctrl.events_interface.status
              (input.value &&& 0x00FF) = EventState.Registered) →
          ((ctrl.IocCtrlClearEventWait lim gpu0 clear).ctrl.IocCtrlEventWait lim gpu input
              is_async).result = NvResult.Success ∧
            ((ctrl.IocCtrlClearEventWait lim gpu0 clear).ctrl.IocCtrlEventWait lim gpu input
              is_async).ctrl.events_interface.failed (input.value &&& 0x00FF) = false)) := by
  have key : ∀ c : nvhost_ctrl, nvhost_ctrl.ReachesParking lim gpu c input →
      (c.events_interface.status (input.value &&& 0x00FF) = EventState.Free ∨
        c.events_interface.status (input.value &&& 0x00FF) = EventState.Registered) →
      c.events_interface.failed (input.value &&& 0x00FF) = true →
      (c.IocCtrlEventWait lim gpu input is_async).result = NvResult.Success ∧
        (c.IocCtrlEventWait lim gpu input is_async).effects =
          [Effect.RefreshSyncpoint input.syncpt_id, Effect.ClearEvent (input.value &&& 0x00FF),
            Effect.WaitFence input.syncpt_id
              (nvhost_ctrl.target_value
                ((c.events_interface.events (input.value &&& 0x00FF)).value % 2 ^ 32)
                input.threshold)] ∧
        (c.IocCtrlEventWait lim gpu input is_async).ctrl.events_interface.failed
          (input.value &&& 0x00FF) = false := by
    intro c h hst hfl
    obtain ⟨hres, heff, hctrl, -⟩ := wait_parked lim gpu c input is_async h hst
    refine ⟨?_, ?_, ?_⟩
    · rw [hres]; simp [hfl]
    · rw [heff]; simp [hfl]
    · rw [hctrl]; simp [hfl, setAt_same]
  refine ⟨key ctrl, ?_⟩
  intro gpu0 clear heq hlt
  have hlt' : ¬ (lim.MaxNvEvents ≤ clear.event_id &&& 0x00FF) := by omega
  have hflag : (ctrl.IocCtrlClearEventWait lim gpu0 clear).ctrl.events_interface.failed
      (input.value &&& 0x00FF) = true := by
    rw [← heq]
    simp [nvhost_ctrl.IocCtrlClearEventWait, hlt', setAt_same]
  refine ⟨?_, hflag, ?_⟩
  · simp [nvhost_ctrl.IocCtrlClearEventWait, hlt']
  · intro h hst
    obtain ⟨k1, -, k3⟩ := key _ h hst hflag
    exact ⟨k1, k3⟩

/-- C17 on event 3 (syncpoint 0 at value 5, threshold 10, timeout 1000): with the failure
flag set the wait returns `Success` and clears the flag; and from a `Waiting` slot with the
flag clear, `IocCtrlClearEventWait` followed by the same wait returns `Success` with the
flag clear again. -/
theorem C17_cancelled_wait_succeeds_witness :
    (nvhost_ctrl.ReachesParking exampleLimits (exampleDevice true 5)
        (exampleCtrl 5 5 EventState.Registered true true) ⟨0, 10, 1000, 3⟩ ∧
      ((exampleCtrl 5 5 EventState.Registered true true).IocCtrlEventWait exampleLimits
        (exampleDevice true 5) ⟨0, 10, 1000, 3⟩ false).result = NvResult.Success ∧
      ((exampleCtrl 5 5 EventState.Registered true true).IocCtrlEventWait exampleLimits
        (exampleDevice true 5) ⟨0, 10, 1000, 3⟩ false).effects =
        [Effect.RefreshSyncpoint 0, Effect.ClearEvent 3, Effect.WaitFence 0 10] ∧
      ((exampleCtrl 5 5 EventState.Registered true true).IocCtrlEventWait exampleLimits
        (exampleDevice true 5) ⟨0, 10, 1000, 3⟩ false).ctrl.events_interface.failed 3 =
        false) ∧
    (nvhost_ctrl.ReachesParking exampleLimits (exampleDevice true 5)
        ((exampleCtrl 5 5 EventState.Waiting true false).IocCtrlClearEventWait exampleLimits
          (exampleDevice true 5) ⟨3⟩).ctrl ⟨0, 10, 1000, 3⟩ ∧
      (((exampleCtrl 5 5 EventState.Waiting true false).IocCtrlClearEventWait exampleLimits
          (exampleDevice true 5) ⟨3⟩).ctrl.IocCtrlEventWait exampleLimits
        (exampleDevice true 5) ⟨0, 10, 1000, 3⟩ false).result = NvResult.Success ∧
      (((exampleCtrl 5 5 EventState.Waiting true false).IocCtrlClearEventWait exampleLimits
          (exampleDevice true 5) ⟨3⟩).ctrl.IocCtrlEventWait exampleLimits
        (exampleDevice true 5) ⟨0, 10, 1000, 3⟩ false).ctrl.events_interface.failed 3 =
        false) :=
  have h1 := (C17_cancelled_wait_succeeds exampleLimits (exampleDevice true 5)
    (exampleCtrl 5 5 EventState.Registered true true) ⟨0, 10, 1000, 3⟩ false).1
    (by decide) (Or.inr rfl) (by decide)
  have h2 := ((C17_cancelled_wait_succeeds exampleLimits (exampleDevice true 5)
    (exampleCtrl 5 5 EventState.Waiting true false) ⟨0, 10, 1000, 3⟩ false).2
    (exampleDevice true 5) ⟨3⟩ (by decide) (by decide)).2.2 (by decide) (by decide)
  ⟨⟨by decide, h1.1, h1.2.1.trans (by decide), h1.2.2⟩, by decide, h2.1, h2.2⟩

/-- C18: on a device that runs synchronously, a wait with identifiers in range whose
syncpoint is not expired before and after the refresh returns `Success`, whatever the
timeout and the state of the slot; its effects are the refresh and the signalling of the
slot's kernel event (no interrupt is registered), and the event slot table is unchanged. -/
theorem C18_synchronous_device_succeeds (lim : Limits) (gpu : GPU) (ctrl : nvhost_ctrl)
    (input : IocCtrlEventWaitParams) (is_async : Bool)
    (h : nvhost_ctrl.StillPending lim gpu ctrl input) (hs : gpu.IsAsync = false) :
    (ctrl.IocCtrlEventWait lim gpu input is_async).result = NvResult.Success ∧
      (ctrl.IocCtrlEventWait lim gpu input is_async).effects =
        [Effect.RefreshSyncpoint input.syncpt_id,
          Effect.SignalEvent (input.value &&& 0x00FF)] ∧
      (ctrl.IocCtrlEventWait lim gpu input is_async).ctrl.events_interface =
        ctrl.events_interface := by
  rw [wait_sync lim gpu ctrl input is_async h hs]
  exact ⟨rfl, rfl, rfl⟩

/-- C18 on a `Waiting` slot 3 with its failure flag set (syncpoint 0 at value 5, threshold
10, timeout 1000) and a synchronous device. -/
theorem C18_synchronous_device_succeeds_witness :
    (nvhost_ctrl.StillPending exampleLimits (exampleDevice false 5)
        (exampleCtrl 5 5 EventState.Waiting true true) ⟨0, 10, 1000, 3⟩ ∧
      (exampleDevice false 5).IsAsync = false) ∧
    ((exampleCtrl 5 5 EventState.Waiting true true).IocCtrlEventWait exampleLimits
      (exampleDevice false 5) ⟨0, 10, 1000, 3⟩ true).result = NvResult.Success ∧
    ((exampleCtrl 5 5 EventState.Waiting true true).IocCtrlEventWait exampleLimits
      (exampleDevice false 5) ⟨0, 10, 1000, 3⟩ true).effects =
      [Effect.RefreshSyncpoint 0, Effect.SignalEvent 3] ∧
    ((exampleCtrl 5 5 EventState.Waiting true true).IocCtrlEventWait exampleLimits
      (exampleDevice false 5) ⟨0, 10, 1000, 3⟩ true).ctrl.events_interface =
      (exampleCtrl 5 5 EventState.Waiting true true).events_interface :=
  have h := C18_synchronous_device_succeeds exampleLimits (exampleDevice false 5)
    (exampleCtrl 5 5 EventState.Waiting true true) ⟨0, 10, 1000, 3⟩ true (by decide) rfl
  ⟨⟨by decide, rfl⟩, h.1, h.2.1.trans (by decide), h.2.2⟩

/-- C19: each of `IocCtrlEventRegister`, `IocCtrlEventUnregister` and
`IocCtrlClearEventWait` returns `BadParameter` when the event id (the low 8 bits of the
request's field) is at or above `MaxNvEvents`, with the state as before (no field of the
event slot table changes, no syncpoint value changes) and no effect (no refresh). -/
theorem C19_bad_event_id_rejected (lim : Limits) (gpu : GPU) (ctrl : nvhost_ctrl)
    (user_event_id : Nat) (h : lim.MaxNvEvents ≤ user_event_id &&& 0x00FF) :
    ctrl.IocCtrlEventRegister lim ⟨user_event_id⟩ =
        { result := NvResult.BadParameter, ctrl := ctrl, output := none, effects := [] } ∧
      ctrl.IocCtrlEventUnregister lim ⟨user_event_id⟩ =
        { result := NvResult.BadParameter, ctrl := ctrl, output := none, effects := [] } ∧
      ctrl.IocCtrlClearEventWait lim gpu ⟨user_event_id⟩ =
        { result := NvResult.BadParameter, ctrl := ctrl, output := none, effects := [] } := by
  refine ⟨?_, ?_, ?_⟩
  · simp [nvhost_ctrl.IocCtrlEventRegister, h]
  · simp [nvhost_ctrl.IocCtrlEventUnregister, h]
  · simp [nvhost_ctrl.IocCtrlClearEventWait, h]

/-- C19 at `MaxNvEvents = 64` and event id 64, on a `Waiting` slot table. -/
theorem C19_bad_event_id_rejected_witness :
    exampleLimits.MaxNvEvents ≤ 64 &&& 0x00FF ∧
      (exampleCtrl 5 5 EventState.Waiting true false).IocCtrlEventRegister exampleLimits ⟨64⟩ =
        { result := NvResult.BadParameter
          ctrl := exampleCtrl 5 5 EventState.Waiting true false
          output := none, effects := [] } ∧
      (exampleCtrl 5 5 EventState.Waiting true false).IocCtrlClearEventWait exampleLimits
          (exampleDevice true 9) ⟨64⟩ =
        { result := NvResult.BadParameter
          ctrl := exampleCtrl 5 5 EventState.Waiting true false
          output := none, effects := [] } :=
  have h := C19_bad_event_id_rejected exampleLimits (exampleDevice true 9)
    (exampleCtrl 5 5 EventState.Waiting true false) 64 (by decide)
  ⟨by decide, h.1, h.2.2⟩

theorem setAt_setAt {α : Type} (f : Nat → α) (i : Nat) (v w : α) :
    setAt (setAt f i v) i w = setAt f i w := by
  funext j
  simp only [setAt]
  split_ifs <;> rfl

theorem and_0xFF (x : Nat) : x &&& 0x00FF = x % 256 := by
  have := Nat.and_pow_two_sub_one_eq_mod x 8
  norm_num at this
  exact this

theorem and_0xfff (x : Nat) : x &&& 0xfff = x % 4096 := by
  have := Nat.and_pow_two_sub_one_eq_mod x 12
  norm_num at this
  exact this

/-- The value packed in the synchronous layout, as a sum: the three parts occupy
disjoint bits when the syncpoint id fits 12 bits and the event id 8 bits. -/
theorem sync_layout_eq (s e : Nat) (hs : s < 4096) (he : e < 256) :
    (((s &&& 0xfff) <<< 16) ||| 0x10000000 ||| e) = 2 ^ 28 + s * 2 ^ 16 + e := by
  have h1 : s &&& 0xfff = s := by rw [and_0xfff]; omega
  have h2 := Nat.mul_add_lt_is_or (show s * 2 ^ 16 < 2 ^ 28 by omega) 1
  have h3 := Nat.mul_add_lt_is_or (show e < 2 ^ 16 by omega) (4096 + s)
  rw [h1, Nat.shiftLeft_eq, Nat.or_comm (s * 2 ^ 16)]
  have e1 : (0x10000000 : Nat) = 2 ^ 28 * 1 := by norm_num
  rw [e1, ← h2]
  have e2 : 2 ^ 28 * 1 + s * 2 ^ 16 = 2 ^ 16 * (4096 + s) := by omega
  rw [e2, ← h3]
  omega

/-- The low byte of the value packed in the asynchronous layout. -/
theorem async_layout_low_byte (s e : Nat) :
    (((s <<< 4) % 2 ^ 32) ||| e) &&& 0x00FF = ((s % 16) * 16) ||| (e % 256) := by
  rw [Nat.and_distrib_right, and_0xFF, and_0xFF, Nat.shiftLeft_eq]
  congr 1
  omega

/-- C22: `IocCtrlEventUnregister` returns `BadParameter` exactly when the event id is out
of range or the slot is not registered, and then nothing changes; in every other case it
returns `Success` and the slot is unregistered afterwards, with state `Free`. -/
theorem C22_unregister (lim : Limits) (ctrl : nvhost_ctrl)
    (input : IocCtrlEventUnregisterParams) :
    ((ctrl.IocCtrlEventUnregister lim input).result = NvResult.BadParameter ↔
        (lim.MaxNvEvents ≤ input.user_event_id &&& 0x00FF ∨
          ctrl.events_interface.registered (input.user_event_id &&& 0x00FF) = false)) ∧
      ((lim.MaxNvEvents ≤ input.user_event_id &&& 0x00FF ∨
          ctrl.events_interface.registered (input.user_event_id &&& 0x00FF) = false) →
        ctrl.IocCtrlEventUnregister lim input =
          { result := NvResult.BadParameter, ctrl := ctrl, output := none, effects := [] }) ∧
      (input.user_event_id &&& 0x00FF < lim.MaxNvEvents →
        ctrl.events_interface.registered (input.user_event_id &&& 0x00FF) = true →
        (ctrl.IocCtrlEventUnregister lim input).result = NvResult.Success ∧
          (ctrl.IocCtrlEventUnregister lim input).ctrl.events_interface =
            ctrl.events_interface.UnregisterEvent (input.user_event_id &&& 0x00FF) ∧
          (ctrl.IocCtrlEventUnregister lim input).ctrl.events_interface.registered
            (input.user_event_id &&& 0x00FF) = false ∧
          (ctrl.IocCtrlEventUnregister lim input).ctrl.events_interface.status
            (input.user_event_id &&& 0x00FF) = EventState.Free) := by
  by_cases h : lim.MaxNvEvents ≤ input.user_event_id &&& 255
  · have hn : ¬ (input.user_event_id &&& 255 < lim.MaxNvEvents) := by omega
    refine ⟨?_, ?_, ?_⟩
    · simp [nvhost_ctrl.IocCtrlEventUnregister, h]
    · intro _
      simp [nvhost_ctrl.IocCtrlEventUnregister, h]
    · intro hlt
      exact absurd (by simpa using hlt) hn
  · cases hreg : ctrl.events_interface.registered (input.user_event_id &&& 255)
    · refine ⟨?_, ?_, ?_⟩
      · simp [nvhost_ctrl.IocCtrlEventUnregister, h, hreg]
      · intro _
        simp [nvhost_ctrl.IocCtrlEventUnregister, h, hreg]
      · intro _ hr
        simp [hreg] at hr
    · refine ⟨?_, ?_, ?_⟩
      · simp [nvhost_ctrl.IocCtrlEventUnregister, h, hreg]
      · intro hor
        rcases hor with hor | hor
        · exact absurd (by simpa using hor) h
        · simp [hreg] at hor
      · intro _ _
        simp [nvhost_ctrl.IocCtrlEventUnregister, h, hreg, EventInterface.UnregisterEvent,
          setAt_same]

/-- C22 at event 3: a slot that is not registered is rejected unchanged; a registered
`Waiting` slot is unregistered with `Success`. -/
theorem C22_unregister_witness :
    ((exampleCtrl 5 5 EventState.Free false false).events_interface.registered
        (3 &&& 0x00FF) = false ∧
      (exampleCtrl 5 5 EventState.Free false false).IocCtrlEventUnregister exampleLimits ⟨3⟩ =
        { result := NvResult.BadParameter
          ctrl := exampleCtrl 5 5 EventState.Free false false
          output := none, effects := [] }) ∧
    (3 &&& 0x00FF < exampleLimits.MaxNvEvents ∧
      ((exampleCtrl 5 5 EventState.Waiting true false).IocCtrlEventUnregister exampleLimits
        ⟨3⟩).result = NvResult.Success ∧
      ((exampleCtrl 5 5 EventState.Waiting true false).IocCtrlEventUnregister exampleLimits
        ⟨3⟩).ctrl.events_interface.registered 3 = false) :=
  have h1 := (C22_unregister exampleLimits (exampleCtrl 5 5 EventState.Free false false)
    ⟨3⟩).2.1 (Or.inr rfl)
  have h2 := (C22_unregister exampleLimits (exampleCtrl 5 5 EventState.Waiting true false)
    ⟨3⟩).2.2 (by decide) rfl
  ⟨⟨rfl, h1⟩, by decide, h2.1, h2.2.2.1⟩

/-- C23: for an event id in range `IocCtrlClearEventWait` returns `Success` and leaves the
slot's failure flag set. A slot that was `Waiting` is liberated and is not `Waiting`
afterwards; if the slot was not `Waiting`, the state of every slot is as before. Applied
a second time to the same event id (whatever the device reports then), it yields the same
event slot table as applied once. -/
theorem C23_clear_wait (lim : Limits) (gpu gpu2 : GPU) (ctrl : nvhost_ctrl)
    (input : IocCtrlEventSignalParams) (h : input.event_id &&& 0x00FF < lim.MaxNvEvents) :
    (ctrl.IocCtrlClearEventWait lim gpu input).result = NvResult.Success ∧
      (ctrl.IocCtrlClearEventWait lim gpu input).ctrl.events_interface.failed
        (input.event_id &&& 0x00FF) = true ∧
      (ctrl.events_interface.status (input.event_id &&& 0x00FF) = EventState.Waiting →
        (ctrl.IocCtrlClearEventWait lim gpu input).ctrl.events_interface =
            { ctrl.events_interface.LiberateEvent (input.event_id &&& 0x00FF) with
              failed := setAt ctrl.events_interface.failed (input.event_id &&& 0x00FF) true } ∧
          (ctrl.IocCtrlClearEventWait lim gpu input).ctrl.events_interface.status
            (input.event_id &&& 0x00FF) ≠ EventState.Waiting) ∧
      (ctrl.events_interface.status (input.event_id &&& 0x00FF) ≠ EventState.Waiting →
        (ctrl.IocCtrlClearEventWait lim gpu input).ctrl.events_interface.status =
          ctrl.events_interface.status) ∧
      (((ctrl.IocCtrlClearEventWait lim gpu input).ctrl.IocCtrlClearEventWait lim gpu2
          input).result = NvResult.Success ∧
        ((ctrl.IocCtrlClearEventWait lim gpu input).ctrl.IocCtrlClearEventWait lim gpu2
          input).ctrl.events_interface =
          (ctrl.IocCtrlClearEventWait lim gpu input).ctrl.events_interface) := by
  have h' : ¬ (lim.MaxNvEvents ≤ input.event_id &&& 255) := not_le.2 (by simpa using h)
  have hnw : (ctrl.IocCtrlClearEventWait lim gpu input).ctrl.events_interface.status
      (input.event_id &&& 255) ≠ EventState.Waiting := by
    by_cases hw : ctrl.events_interface.status (input.event_id &&& 255) = EventState.Waiting
    · cases hr : ctrl.events_interface.registered (input.event_id &&& 255) <;>
        simp [nvhost_ctrl.IocCtrlClearEventWait, h', hw, hr, EventInterface.LiberateEvent,
          setAt_same]
    · simp [nvhost_ctrl.IocCtrlClearEventWait, h', hw]
  refine ⟨?_, ?_, ?_, ?_, ?_, ?_⟩
  · simp [nvhost_ctrl.IocCtrlClearEventWait, h']
  · simp [nvhost_ctrl.IocCtrlClearEventWait, h', setAt_same]
  · intro hw
    have hw' : ctrl.events_interface.status (input.event_id &&& 255) = EventState.Waiting := by
      simpa using hw
    refine ⟨?_, by simpa using hnw⟩
    simp [nvhost_ctrl.IocCtrlClearEventWait, h', hw', EventInterface.LiberateEvent]
  · intro hw
    have hw' : ¬ ctrl.events_interface.status (input.event_id &&& 255) = EventState.Waiting := by
      simpa using hw
    simp [nvhost_ctrl.IocCtrlClearEventWait, h', hw']
  · simp [nvhost_ctrl.IocCtrlClearEventWait, h']
  · generalize hc : (ctrl.IocCtrlClearEventWait lim gpu input).ctrl = c at hnw
    have hf : c.events_interface.failed (input.event_id &&& 255) = true := by
      rw [← hc]
      simp [nvhost_ctrl.IocCtrlClearEventWait, h', setAt_same]
    have hfun : setAt c.events_interface.failed (input.event_id &&& 255) true =
        c.events_interface.failed := by
      funext j
      simp only [setAt]
      split_ifs with hj
      · rw [hj, hf]
      · rfl
    simp [nvhost_ctrl.IocCtrlClearEventWait, h', hnw, hfun]

/-- C23 at event 3, registered and `Waiting`: the clear returns `Success`, the flag is set
and the slot is `Registered` afterwards. -/
theorem C23_clear_wait_witness :
    3 &&& 0x00FF < exampleLimits.MaxNvEvents ∧
      ((exampleCtrl 5 5 EventState.Waiting true false).IocCtrlClearEventWait exampleLimits
        (exampleDevice true 5) ⟨3⟩).result = NvResult.Success ∧
      ((exampleCtrl 5 5 EventState.Waiting true false).IocCtrlClearEventWait exampleLimits
        (exampleDevice true 5) ⟨3⟩).ctrl.events_interface.failed 3 = true ∧
      ((exampleCtrl 5 5 EventState.Waiting true false).IocCtrlClearEventWait exampleLimits
        (exampleDevice true 5) ⟨3⟩).ctrl.events_interface.status 3 = EventState.Registered :=
  have h := C23_clear_wait exampleLimits (exampleDevice true 5) (exampleDevice true 7)
    (exampleCtrl 5 5 EventState.Waiting true false) ⟨3⟩ (by decide)
  ⟨by decide, h.1, h.2.1, by decide⟩

/-- C24, as stated, fails: with current value `2 ^ 31` the test `diff >= 0` holds for
threshold 1 and fails for the smaller threshold 0, since `2 ^ 31 - 0` read as a signed
32-bit value is negative. -/
theorem C24_expiry_counterexample :
    (0 : Nat) ≤ 1 ∧ 0 ≤ nvhost_ctrl.diff (2 ^ 31) 1 ∧ ¬ (0 ≤ nvhost_ctrl.diff (2 ^ 31) 0) := by
  refine ⟨by decide, by decide, by decide⟩

/-- C24, amended: the test `signed(current - threshold) >= 0` of `IocCtrlEventWait` is
monotonic in the threshold inside the half range: for `c`, 32-bit `t` and `t' ≤ t` such
that the distance `(c - t) mod 2 ^ 32` plus `t - t'` stays below `2 ^ 31`, if the test
holds for `(c, t)` it holds for `(c, t')`; the same for the expiry test of the syncpoint
manager. -/
theorem C24_expiry_monotone_in_half_range (c t t' : Nat) (ht : t < 2 ^ 32)
    (hle : t' ≤ t) (hwin : u32sub c t + (t - t') < 2 ^ 31) :
    (0 ≤ nvhost_ctrl.diff c t → 0 ≤ nvhost_ctrl.diff c t') ∧
      (∀ (m : SyncpointManager) (id : Nat), m.syncpoints id = c →
        m.IsSyncpointExpired id t = true → m.IsSyncpointExpired id t' = true) := by
  have key : 0 ≤ s32 (u32sub c t) → 0 ≤ s32 (u32sub c t') := by
    unfold s32 u32sub at *
    intro h
    split_ifs at h ⊢ <;> omega
  refine ⟨key, ?_⟩
  intro m id hm h
  simp only [SyncpointManager.IsSyncpointExpired, hm, decide_eq_true_eq] at h ⊢
  exact key h

/-- C24, amended, at current value 10 and thresholds 7 and 3. -/
theorem C24_expiry_monotone_in_half_range_witness :
    ((7 : Nat) < 2 ^ 32 ∧ (3 : Nat) ≤ 7 ∧
      u32sub 10 7 + (7 - 3) < 2 ^ 31 ∧ 0 ≤ nvhost_ctrl.diff 10 7) ∧
    0 ≤ nvhost_ctrl.diff 10 3 :=
  ⟨⟨by decide, by decide, by decide, by decide⟩,
    (C24_expiry_monotone_in_half_range 10 7 3 (by decide) (by decide) (by decide)).1
      (by decide)⟩

/-- C25: with `MaxSyncPoints` within 12 bits, the value a parking non-async wait writes to
the output is `((syncpt_id & 0xfff) << 16) | 0x10000000 | event_id`; echoed back it gives
the same event id (`value & 0xFF`) and the same syncpoint id (`(value >> 16) & 0xfff`).
The same round trip holds for every syncpoint id below `MaxSyncPoints` and every event id
below `MaxNvEvents` when `MaxNvEvents` is within 8 bits. -/
theorem C25_sync_layout_round_trip (lim : Limits) (gpu : GPU) (ctrl : nvhost_ctrl)
    (input : IocCtrlEventWaitParams) (hlim : lim.MaxSyncPoints ≤ 4096)
    (h : nvhost_ctrl.ReachesParking lim gpu ctrl input)
    (hst : ctrl.events_interface.status (input.value &&& 0x00FF) = EventState.Free ∨
      ctrl.events_interface.status (input.value &&& 0x00FF) = EventState.Registered) :
    (∃ out, (ctrl.IocCtrlEventWait lim gpu input false).output = some out ∧
      out.value =
        (((input.syncpt_id &&& 0xfff) <<< 16) ||| 0x10000000) ||| (input.value &&& 0x00FF) ∧
      out.value &&& 0x00FF = input.value &&& 0x00FF ∧
      (out.value >>> 16) &&& 0xfff = input.syncpt_id) ∧
    (∀ syncpt_id event_id : Nat, syncpt_id < lim.MaxSyncPoints → event_id < lim.MaxNvEvents →
      lim.MaxNvEvents ≤ 256 →
      ((((syncpt_id &&& 0xfff) <<< 16) ||| 0x10000000) ||| event_id) &&& 0x00FF = event_id ∧
        (((((syncpt_id &&& 0xfff) <<< 16) ||| 0x10000000) ||| event_id) >>> 16) &&& 0xfff =
          syncpt_id) := by
  have round : ∀ s e : Nat, s < 4096 → e < 256 →
      ((((s &&& 0xfff) <<< 16) ||| 0x10000000) ||| e) &&& 0x00FF = e ∧
        (((((s &&& 0xfff) <<< 16) ||| 0x10000000) ||| e) >>> 16) &&& 0xfff = s := by
    intro s e hs he
    rw [sync_layout_eq s e hs he, and_0xFF, and_0xfff, Nat.shiftRight_eq_div_pow]
    constructor <;> omega
  have hs : input.syncpt_id < 4096 := lt_of_lt_of_le h.1.1 hlim
  have he : input.value &&& 0x00FF < 256 := by rw [and_0xFF]; omega
  obtain ⟨-, -, -, hout⟩ := wait_parked lim gpu ctrl input false h hst
  refine ⟨⟨_, hout, ?_, ?_, ?_⟩, ?_⟩
  · simp
  · simpa using (round input.syncpt_id (input.value &&& 0x00FF) hs he).1
  · simpa using (round input.syncpt_id (input.value &&& 0x00FF) hs he).2
  · intro s e hs' he' hl
    exact round s e (by omega) (by omega)

/-- C25 at `MaxSyncPoints = 192`: a parking non-async wait on syncpoint 5 and event 3
writes `0x10050003`, from which event 3 and syncpoint 5 are read back. -/
theorem C25_sync_layout_round_trip_witness :
    (exampleLimits.MaxSyncPoints ≤ 4096 ∧
      nvhost_ctrl.ReachesParking exampleLimits (exampleDevice true 5)
        (exampleCtrl 5 5 EventState.Registered true false) ⟨5, 10, 1000, 3⟩) ∧
    ∃ out,
      ((exampleCtrl 5 5 EventState.Registered true false).IocCtrlEventWait exampleLimits
        (exampleDevice true 5) ⟨5, 10, 1000, 3⟩ false).output = some out ∧
      out.value &&& 0x00FF = 3 ∧ (out.value >>> 16) &&& 0xfff = 5 :=
  have h := (C25_sync_layout_round_trip exampleLimits (exampleDevice true 5)
    (exampleCtrl 5 5 EventState.Registered true false) ⟨5, 10, 1000, 3⟩ (by decide)
    (by decide) (Or.inr rfl)).1
  ⟨⟨by decide, by decide⟩, h.elim fun out ho => ⟨out, ho.1, ho.2.2.1, ho.2.2.2⟩⟩

/-- C26, as stated, fails: a parking async wait on syncpoint 1 and event 3 writes the
value `(1 << 4) | 3 = 19`, and `19 & 0xFF = 19` is not the event id 3. -/
theorem C26_async_layout_counterexample :
    nvhost_ctrl.ReachesParking exampleLimits (exampleDevice true 5)
        (exampleCtrl 5 5 EventState.Registered true false) ⟨1, 10, 1000, 3⟩ ∧
      ((exampleCtrl 5 5 EventState.Registered true false).IocCtrlEventWait exampleLimits
        (exampleDevice true 5) ⟨1, 10, 1000, 3⟩ true).output = some ⟨1, 10, 1000, 19⟩ ∧
      ((exampleCtrl 5 5 EventState.Registered true false).IocCtrlEventWait exampleLimits
        (exampleDevice true 5) ⟨1, 10, 1000, 3⟩ true).result = NvResult.Timeout ∧
      (19 : Nat) &&& 0x00FF ≠ 3 &&& 0x00FF := by
  refine ⟨by decide, by decide, by decide, by decide⟩

/-- C26, amended: the value a parking async wait writes to the output is
`(syncpt_id << 4) | event_id`; its low byte is `((syncpt_id & 0xF) << 4) | event_id`, so
echoed back it gives the same event id when the low four bits of the syncpoint id are
zero. -/
theorem C26_async_layout_low_byte (lim : Limits) (gpu : GPU) (ctrl : nvhost_ctrl)
    (input : IocCtrlEventWaitParams)
    (h : nvhost_ctrl.ReachesParking lim gpu ctrl input)
    (hst : ctrl.events_interface.status (input.value &&& 0x00FF) = EventState.Free ∨
      ctrl.events_interface.status (input.value &&& 0x00FF) = EventState.Registered) :
    ∃ out, (ctrl.IocCtrlEventWait lim gpu input true).output = some out ∧
      out.value = ((input.syncpt_id <<< 4) % 2 ^ 32) ||| (input.value &&& 0x00FF) ∧
      out.value &&& 0x00FF = ((input.syncpt_id % 16) * 16) ||| (input.value &&& 0x00FF) ∧
      (input.syncpt_id % 16 = 0 → out.value &&& 0x00FF = input.value &&& 0x00FF) := by
  obtain ⟨-, -, -, hout⟩ := wait_parked lim gpu ctrl input true h hst
  have hlow := async_layout_low_byte input.syncpt_id (input.value &&& 0x00FF)
  have he : (input.value &&& 0x00FF) % 256 = input.value &&& 0x00FF := by
    rw [and_0xFF]; omega
  rw [he] at hlow
  refine ⟨_, hout, by simp, by simpa using hlow, ?_⟩
  intro h16
  have : ((input.syncpt_id <<< 4) % 2 ^ 32 ||| (input.value &&& 0x00FF)) &&& 0x00FF =
      input.value &&& 0x00FF := by
    rw [hlow, h16]; simp
  simpa using this

/-- C26, amended, on syncpoint 16 and event 3: the value written is `0x103` and its low
byte is the event id 3. -/
theorem C26_async_layout_low_byte_witness :
    (nvhost_ctrl.ReachesParking exampleLimits (exampleDevice true 5)
        (exampleCtrl 5 5 EventState.Registered true false) ⟨16, 10, 1000, 3⟩ ∧
      16 % 16 = 0) ∧
    ∃ out,
      ((exampleCtrl 5 5 EventState.Registered true false).IocCtrlEventWait exampleLimits
        (exampleDevice true 5) ⟨16, 10, 1000, 3⟩ true).output = some out ∧
      out.value &&& 0x00FF = 3 &&& 0x00FF :=
  have h := C26_async_layout_low_byte exampleLimits (exampleDevice true 5)
    (exampleCtrl 5 5 EventState.Registered true false) ⟨16, 10, 1000, 3⟩ (by decide)
    (Or.inr rfl)
  ⟨⟨by decide, by decide⟩, h.elim fun out ho => ⟨out, ho.1, ho.2.2.2 (by decide)⟩⟩

/-- C29: when a wait reaches the parking step on a `Free` or `Registered` slot whose
failure flag is set, it returns `Success` and yet leaves the slot `Waiting`, with the
requested syncpoint id and the requested threshold assigned. The slot is not liberated:
any wait that next reaches the parking step on the same slot, from the state so left, is
rejected with `BadParameter`. -/
theorem C29_cancelled_wait_leaves_slot_waiting (lim : Limits) (gpu : GPU) (ctrl : nvhost_ctrl)
    (input : IocCtrlEventWaitParams) (is_async : Bool)
    (h : nvhost_ctrl.ReachesParking lim gpu ctrl input)
    (hst : ctrl.events_interface.status (input.value &&& 0x00FF) = EventState.Free ∨
      ctrl.events_interface.status (input.value &&& 0x00FF) = EventState.Registered)
    (hfl : ctrl.events_interface.failed (input.value &&& 0x00FF) = true)
    (hth : input.threshold < 2 ^ 32) :
    (ctrl.IocCtrlEventWait lim gpu input is_async).result = NvResult.Success ∧
      (ctrl.IocCtrlEventWait lim gpu input is_async).ctrl.events_interface.status
        (input.value &&& 0x00FF) = EventState.Waiting ∧
      (ctrl.IocCtrlEventWait lim gpu input is_async).ctrl.events_interface.assigned_syncpt
        (input.value &&& 0x00FF) = input.syncpt_id ∧
      (ctrl.IocCtrlEventWait lim gpu input is_async).ctrl.events_interface.assigned_value
        (input.value &&& 0x00FF) = input.threshold ∧
      (∀ (gpu2 : GPU) (input2 : IocCtrlEventWaitParams) (is_async2 : Bool),
        input2.value &&& 0x00FF = input.value &&& 0x00FF →
        nvhost_ctrl.ReachesParking lim gpu2 (ctrl.IocCtrlEventWait lim gpu input is_async).ctrl
          input2 →
        ((ctrl.IocCtrlEventWait lim gpu input is_async).ctrl.IocCtrlEventWait lim gpu2 input2
          is_async2).result = NvResult.BadParameter) := by
  obtain ⟨hres, -, hctrl, -⟩ := wait_parked lim gpu ctrl input is_async h hst
  have hw : (ctrl.IocCtrlEventWait lim gpu input is_async).ctrl.events_interface.status
      (input.value &&& 0x00FF) = EventState.Waiting := by
    rw [hctrl]; exact setAt_same _ _ _
  refine ⟨?_, hw, ?_, ?_, ?_⟩
  · rw [hres]; simp [hfl]
  · rw [hctrl]; exact setAt_same _ _ _
  · rw [hctrl]
    exact (setAt_same _ _ _).trans ((target_value_eq _ _).trans (Nat.mod_eq_of_lt hth))
  · intro gpu2 input2 is_async2 heq h2
    rw [← heq] at hw
    rw [wait_bad_status lim gpu2 _ input2 is_async2 h2 (by rw [hw]; decide)
      (by rw [hw]; decide)]

/-- C29 on event 3 with the failure flag set (syncpoint 0 at value 5, threshold 10, timeout
1000): `Success`, the slot is `Waiting` with target 10, and the same wait repeated at once
gets `BadParameter`. -/
theorem C29_cancelled_wait_leaves_slot_waiting_witness :
    (nvhost_ctrl.ReachesParking exampleLimits (exampleDevice true 5)
        (exampleCtrl 5 5 EventState.Registered true true) ⟨0, 10, 1000, 3⟩ ∧
      (exampleCtrl 5 5 EventState.Registered true true).events_interface.failed
        (3 &&& 0x00FF) = true ∧ (10 : Nat) < 2 ^ 32) ∧
    ((exampleCtrl 5 5 EventState.Registered true true).IocCtrlEventWait exampleLimits
      (exampleDevice true 5) ⟨0, 10, 1000, 3⟩ false).result = NvResult.Success ∧
    ((exampleCtrl 5 5 EventState.Registered true true).IocCtrlEventWait exampleLimits
      (exampleDevice true 5) ⟨0, 10, 1000, 3⟩ false).ctrl.events_interface.status 3 =
      EventState.Waiting ∧
    ((exampleCtrl 5 5 EventState.Registered true true).IocCtrlEventWait exampleLimits
      (exampleDevice true 5) ⟨0, 10, 1000, 3⟩ false).ctrl.events_interface.assigned_value 3 =
      10 ∧
    (((exampleCtrl 5 5 EventState.Registered true true).IocCtrlEventWait exampleLimits
      (exampleDevice true 5) ⟨0, 10, 1000, 3⟩ false).ctrl.IocCtrlEventWait exampleLimits
      (exampleDevice true 5) ⟨0, 10, 1000, 3⟩ false).result = NvResult.BadParameter :=
  have h := C29_cancelled_wait_leaves_slot_waiting exampleLimits (exampleDevice true 5)
    (exampleCtrl 5 5 EventState.Registered true true) ⟨0, 10, 1000, 3⟩ false
    (by decide) (Or.inr rfl) (by decide) (by decide)
  ⟨⟨by decide, by decide, by decide⟩, h.1, h.2.1, h.2.2.2.1,
    h.2.2.2.2 (exampleDevice true 5) ⟨0, 10, 1000, 3⟩ false rfl (by decide)⟩

/-- C30: only the low 8 bits of a caller-supplied event id matter. For two ids that agree
modulo 256, `IocCtrlEventRegister`, `IocCtrlEventUnregister` and `IocCtrlClearEventWait`
give the same outcome (result, state, output, effects) from the same state, and two wait
requests that differ only in such `value` fields give the same result, the same state
(event slot table included) and the same effects. In particular the id `0x100` is handled
as the id 0. -/
theorem C30_event_id_low_byte (lim : Limits) (gpu : GPU) (ctrl : nvhost_ctrl) (a b : Nat)
    (hab : a % 256 = b % 256) :
    ctrl.IocCtrlEventRegister lim ⟨a⟩ = ctrl.IocCtrlEventRegister lim ⟨b⟩ ∧
      ctrl.IocCtrlEventUnregister lim ⟨a⟩ = ctrl.IocCtrlEventUnregister lim ⟨b⟩ ∧
      ctrl.IocCtrlClearEventWait lim gpu ⟨a⟩ = ctrl.IocCtrlClearEventWait lim gpu ⟨b⟩ ∧
      (∀ (input : IocCtrlEventWaitParams) (is_async : Bool),
        (ctrl.IocCtrlEventWait lim gpu { input with value := a } is_async).result =
            (ctrl.IocCtrlEventWait lim gpu { input with value := b } is_async).result ∧
          (ctrl.IocCtrlEventWait lim gpu { input with value := a } is_async).ctrl =
            (ctrl.IocCtrlEventWait lim gpu { input with value := b } is_async).ctrl ∧
          (ctrl.IocCtrlEventWait lim gpu { input with value := a } is_async).effects =
            (ctrl.IocCtrlEventWait lim gpu { input with value := b } is_async).effects) ∧
      ctrl.IocCtrlEventRegister lim ⟨0x100⟩ = ctrl.IocCtrlEventRegister lim ⟨0⟩ := by
  have hE : a &&& 255 = b &&& 255 := by
    have ha := and_0xFF a
    have hb := and_0xFF b
    norm_num at ha hb
    rw [ha, hb, hab]
  refine ⟨?_, ?_, ?_, ?_, ?_⟩
  · simp only [nvhost_ctrl.IocCtrlEventRegister, hE]
  · simp only [nvhost_ctrl.IocCtrlEventUnregister, hE]
  · simp only [nvhost_ctrl.IocCtrlClearEventWait, hE]
  · intro input is_async
    by_cases h1 : lim.MaxSyncPoints ≤ input.syncpt_id
    · simp [nvhost_ctrl.IocCtrlEventWait, hE, h1]
    by_cases h2 : lim.MaxNvEvents ≤ b &&& 255
    · simp [nvhost_ctrl.IocCtrlEventWait, hE, h1, h2]
    by_cases h3 : ctrl.syncpoint_manager.IsSyncpointExpired input.syncpt_id input.threshold = true
    · simp [nvhost_ctrl.IocCtrlEventWait, hE, h1, h2, h3]
    by_cases h4 : (ctrl.syncpoint_manager.RefreshSyncpoint input.syncpt_id gpu).1.IsSyncpointExpired
        input.syncpt_id input.threshold = true
    · simp [nvhost_ctrl.IocCtrlEventWait, hE, h1, h2, h3, h4]
    by_cases h5 : gpu.IsAsync = false
    · simp [nvhost_ctrl.IocCtrlEventWait, hE, h1, h2, h3, h4, h5]
    by_cases h6 : 0 ≤ nvhost_ctrl.diff ((ctrl.events_interface.events (b &&& 255)).value %
        4294967296) input.threshold
    · simp [nvhost_ctrl.IocCtrlEventWait, hE, h1, h2, h3, h4, h5, h6]
    by_cases h7 : input.timeout = 0
    · cases is_async <;> simp [nvhost_ctrl.IocCtrlEventWait, hE, h1, h2, h3, h4, h5, h6, h7]
    by_cases h8 : ctrl.events_interface.status (b &&& 255) ≠ EventState.Free ∧
        ctrl.events_interface.status (b &&& 255) ≠ EventState.Registered
    · cases is_async <;>
        simp [nvhost_ctrl.IocCtrlEventWait, hE, h1, h2, h3, h4, h5, h6, h7, h8]
    · cases hfl : ctrl.events_interface.failed (b &&& 255) <;> cases is_async <;>
        simp [nvhost_ctrl.IocCtrlEventWait, hE, h1, h2, h3, h4, h5, h6, h7, h8, hfl,
          EventInterface.SetEventStatus, nvhost_ctrl.setFailed]
  · simp only [nvhost_ctrl.IocCtrlEventRegister]
    rfl

/-- C30 at the ids `0x103` and 3, and at `0x100`: registering `0x100` on a fresh table
returns `Success` and registers slot 0. -/
theorem C30_event_id_low_byte_witness :
    (0x103 % 256 = 3 % 256 ∧
      (exampleCtrl 5 5 EventState.Free false false).IocCtrlEventRegister exampleLimits ⟨0x103⟩ =
        (exampleCtrl 5 5 EventState.Free false false).IocCtrlEventRegister exampleLimits ⟨3⟩) ∧
    ((exampleCtrl 5 5 EventState.Free false false).IocCtrlEventRegister exampleLimits
      ⟨0x100⟩).result = NvResult.Success ∧
    ((exampleCtrl 5 5 EventState.Free false false).IocCtrlEventRegister exampleLimits
      ⟨0x100⟩).ctrl.events_interface.registered 0 = true :=
  have h := C30_event_id_low_byte exampleLimits (exampleDevice true 5)
    (exampleCtrl 5 5 EventState.Free false false) 0x103 3 (by decide)
  ⟨⟨by decide, h.1⟩, (congrArg IoctlResult.result h.2.2.2.2).trans (by decide),
    (congrArg (fun r => r.ctrl.events_interface.registered 0) h.2.2.2.2).trans (by decide)⟩

end Service.Nvidia.Devices
